import Mathlib

/-!
goNexttask: production orders, NC program transfer, inspections and quality feedback

A shallow embedding of `internal/production/domain`, `internal/nc/domain`,
`internal/quality/domain`, `internal/quality/application` and `seed/feedback.go`.

Conventions of the embedding:
* Go string types (`ProductionOrderStatus`, `MachineRunningState`, the id types) are
  `String`, so a status read back from storage may be any string, as in Go.
* `time.Time` is an instant; each `time.Now()` of the source is an explicit argument.
* A Go `(*T, error)` result is a pair `Option T × Option Error`; `nil` is `none`.
* A repository interface is a record of functions over a store state `σ`. Methods read the
  entity they are handed and do not write through the pointer (as the Postgres
  implementations do). Every service function returns, next to its result, the final store
  state and the list of repository calls it made, in order.
* `context.Context` is passed through unchanged by the source and is left out.
* A `float64` of the inspection code is a `Float64`: NaN, the two infinities, or a finite
  value, held as the exact rational it denotes. Every operation rounds its exact result to
  the nearest float64, ties to even, as IEEE 754 prescribes and Go does.
-/

namespace GoNexttask

/-- An instant of `time.Time`, in nanoseconds since the epoch. -/
structure Time where
  unixNano : Int
deriving DecidableEq, Repr

/-- `t.Before(u)`: the instant `t` is strictly earlier than `u`. -/
def Time.Before (t u : Time) : Bool := decide (t.unixNano < u.unixNano)

/-- What a service call leaves behind: its result, the store state after it, and the
repository calls it made, oldest first. -/
structure Run (σ κ α : Type) where
  result : α
  state : σ
  calls : List κ

/-! ## float64

Go's `float64` is the IEEE 754 binary64 format: 53 significant bits, the unit in the last
place no smaller than 2⁻¹⁰⁷⁴, finite values up to `(2⁵³ − 1)·2⁹⁷¹`. The two zeros are held as
one value: they compare equal, and the embedded code has no operation that tells them apart
(its only division is by the length of a non-empty slice). -/

namespace Float64

/-- The integer nearest to `x`, the even one of the two when `x` is half-way. -/
def rne (x : ℚ) : ℤ :=
  if x - ⌊x⌋ < 1 / 2 then ⌊x⌋
  else if 1 / 2 < x - ⌊x⌋ then ⌊x⌋ + 1
  else if ⌊x⌋ % 2 = 0 then ⌊x⌋
  else ⌊x⌋ + 1

/-- The exponent of the unit in the last place of the float64 values around `x`: 52 below
the binary exponent of `x`, and never below −1074 (the subnormal range). -/
def ulpExp (x : ℚ) : ℤ := max (Int.log 2 |x| - 52) (-1074)

/-- Round to nearest, ties to even, with 53 significant bits and no upper bound on the
exponent: the multiple of the unit in the last place that is nearest to `x`. -/
def roundQ (x : ℚ) : ℚ := rne (x / 2 ^ ulpExp x) * 2 ^ ulpExp x

/-- The largest finite float64, `math.MaxFloat64`. -/
def maxFinite : ℚ := (2 ^ 53 - 1) * 2 ^ 971

/-- The rational `q` is the value of a finite float64. -/
def Representable (q : ℚ) : Prop := roundQ q = q ∧ |q| ≤ maxFinite

end Float64

/-- A value of Go's `float64`: `inf true` is −Inf, `inf false` is +Inf, and `fin q` is the
finite value `q`. -/
inductive Float64 where
  | nan
  | inf (neg : Bool)
  | fin (q : ℚ)
deriving DecidableEq, Repr

namespace Float64

/-- The float64 that an exact result `x` is rounded to: the nearest value, and the infinity
of the sign of `x` when that rounding exceeds the largest finite value. A decimal literal
of the source denotes `ofRat` of its decimal fraction. -/
def ofRat (x : ℚ) : Float64 :=
  if maxFinite < |roundQ x| then inf (decide (x < 0)) else fin (roundQ x)

/-- The conversion `float64(n)` of a Go `int`. -/
def ofInt (n : Int) : Float64 := ofRat n

/-- The unary `-x`. -/
def neg : Float64 → Float64
  | nan => nan
  | inf s => inf (!s)
  | fin q => fin (-q)

/-- The operation `x - y`. -/
def sub : Float64 → Float64 → Float64
  | nan, _ => nan
  | _, nan => nan
  | inf s, inf t => if s = t then nan else inf s
  | inf s, fin _ => inf s
  | fin _, inf t => inf (!t)
  | fin a, fin b => ofRat (a - b)

/-- The operation `x * y`. -/
def mul : Float64 → Float64 → Float64
  | nan, _ => nan
  | _, nan => nan
  | inf s, inf t => inf (s != t)
  | inf s, fin b => if b = 0 then nan else inf (s != decide (b < 0))
  | fin a, inf t => if a = 0 then nan else inf (decide (a < 0) != t)
  | fin a, fin b => ofRat (a * b)

/-- The operation `x / y`; a zero divisor is taken as +0. -/
def div : Float64 → Float64 → Float64
  | nan, _ => nan
  | _, nan => nan
  | inf _, inf _ => nan
  | inf s, fin b => inf (s != decide (b < 0))
  | fin _, inf _ => fin 0
  | fin a, fin b =>
    if b = 0 then (if a = 0 then nan else inf (decide (a < 0))) else ofRat (a / b)

/-- The comparison `x <= y`: false as soon as one side is NaN. -/
def le : Float64 → Float64 → Bool
  | nan, _ => false
  | _, nan => false
  | inf s, inf t => s || !t
  | inf s, fin _ => s
  | fin _, inf t => !t
  | fin a, fin b => decide (a ≤ b)

/-- The comparison `x >= y`. -/
def ge (x y : Float64) : Bool := le y x

end Float64

/-! ## internal/production/domain -/

namespace Production

abbrev ProductionOrderStatus := String

def StatusPlanned : ProductionOrderStatus := "planned"
def StatusInProgress : ProductionOrderStatus := "in_progress"
def StatusCompleted : ProductionOrderStatus := "completed"
def StatusDelayed : ProductionOrderStatus := "delayed"
def StatusCancelled : ProductionOrderStatus := "cancelled"

abbrev ProductionOrderID := String
abbrev PartID := String
abbrev MachineID := String

/-- The `error` values of the package: its four sentinels (errors.go) and any other error
value, which only a repository can produce. -/
inductive Error where
  | ErrInvalidStateTransition
  | ErrProductionOrderNotFound
  | ErrInvalidQuantity
  | ErrInvalidSchedule
  | Storage (msg : String)
deriving DecidableEq, Repr

structure Schedule where
  PlannedStart : Time
  PlannedEnd : Time
  AssignedMachines : List MachineID
deriving DecidableEq, Repr

structure ProductionOrder where
  ID : ProductionOrderID
  OrderNumber : String
  PartID : PartID
  Quantity : Int
  Status : ProductionOrderStatus
  Schedule : Schedule
  CreatedAt : Time
  UpdatedAt : Time
deriving DecidableEq, Repr

/-- `NewProductionOrder` (production_order.go:40); `now` is its `time.Now()`. -/
def NewProductionOrder (now : Time) (orderNumber : String) (partID : PartID) (quantity : Int)
    (schedule : Schedule) : ProductionOrder :=
  { ID := "order-" ++ orderNumber
    OrderNumber := orderNumber
    PartID := partID
    Quantity := quantity
    Status := StatusPlanned
    Schedule := schedule
    CreatedAt := now
    UpdatedAt := now }

/-- `(*ProductionOrder).Start` (production_order.go:54): the order after the call and the
returned error. -/
def Start (now : Time) (po : ProductionOrder) : ProductionOrder × Option Error :=
  if po.Status ≠ StatusPlanned then
    (po, some .ErrInvalidStateTransition)
  else
    ({ po with Status := StatusInProgress, UpdatedAt := now }, none)

/-- `(*ProductionOrder).Complete` (production_order.go:63). -/
def Complete (now : Time) (po : ProductionOrder) : ProductionOrder × Option Error :=
  if po.Status ≠ StatusInProgress then
    (po, some .ErrInvalidStateTransition)
  else
    ({ po with Status := StatusCompleted, UpdatedAt := now }, none)

/-- `(*ProductionOrder).Delay` (production_order.go:72). -/
def Delay (now : Time) (po : ProductionOrder) : ProductionOrder × Option Error :=
  if po.Status ≠ StatusInProgress ∧ po.Status ≠ StatusPlanned then
    (po, some .ErrInvalidStateTransition)
  else
    ({ po with Status := StatusDelayed, UpdatedAt := now }, none)

/-- `(*ProductionOrder).Cancel` (production_order.go:81). -/
def Cancel (now : Time) (po : ProductionOrder) : ProductionOrder × Option Error :=
  if po.Status = StatusCompleted ∨ po.Status = StatusCancelled then
    (po, some .ErrInvalidStateTransition)
  else
    ({ po with Status := StatusCancelled, UpdatedAt := now }, none)

/-- The interface `ProductionOrderRepository` (repository.go) over a store state `σ`. -/
structure ProductionOrderRepository (σ : Type) where
  Save : ProductionOrder → σ → Option Error × σ
  FindByID : ProductionOrderID → σ → (Option ProductionOrder × Option Error) × σ
  FindAll : σ → (List ProductionOrder × Option Error) × σ
  Update : ProductionOrder → σ → Option Error × σ
  Delete : ProductionOrderID → σ → Option Error × σ

/-- One call of a `ProductionOrderRepository` method, with its argument. -/
inductive RepoCall where
  | Save (order : ProductionOrder)
  | FindByID (id : ProductionOrderID)
  | FindAll
  | Update (order : ProductionOrder)
  | Delete (id : ProductionOrderID)
deriving DecidableEq, Repr

/-- `(*ProductionSchedulingService).ScheduleProduction` (service.go:18); `repo` is `s.repo`
and `now` the clock reading taken inside `NewProductionOrder`. -/
def ScheduleProduction {σ : Type} (repo : ProductionOrderRepository σ) (now : Time)
    (orderNumber : String) (partID : PartID) (quantity : Int)
    (plannedStart plannedEnd : Time) (machineIDs : List MachineID) (s : σ) :
    Run σ RepoCall (Option ProductionOrder × Option Error) :=
  if quantity ≤ 0 then
    ⟨(none, some .ErrInvalidQuantity), s, []⟩
  else if plannedEnd.Before plannedStart then
    ⟨(none, some .ErrInvalidSchedule), s, []⟩
  else
    let schedule : Schedule :=
      { PlannedStart := plannedStart
        PlannedEnd := plannedEnd
        AssignedMachines := machineIDs }
    let order := NewProductionOrder now orderNumber partID quantity schedule
    match repo.Save order s with
    | (some err, s') => ⟨(none, some err), s', [.Save order]⟩
    | (none, s') => ⟨(some order, none), s', [.Save order]⟩

/-- The four transition operations of a production order. -/
inductive Transition where
  | Start
  | Complete
  | Delay
  | Cancel
deriving DecidableEq, Repr

/-- Calls the named transition method on the order. -/
def Transition.call (t : Transition) (now : Time) (po : ProductionOrder) :
    ProductionOrder × Option Error :=
  match t with
  | .Start => Production.Start now po
  | .Complete => Production.Complete now po
  | .Delay => Production.Delay now po
  | .Cancel => Production.Cancel now po

/-- Applies a sequence of transition calls to one order, each at its own clock reading;
for every call, in order, the order as it is after the call and the error returned. -/
def callAll : List (Transition × Time) → ProductionOrder → List (ProductionOrder × Option Error)
  | [], _ => []
  | (t, now) :: rest, po =>
    let r := t.call now po
    r :: callAll rest r.1

/-- An in-memory repository: the store is the list of saved orders; `Save` fails on an
order whose ID is already stored. -/
def memRepo : ProductionOrderRepository (List ProductionOrder) where
  Save := fun o s =>
    if s.any (fun x => x.ID == o.ID) then (some (.Storage "duplicate key"), s) else (none, s ++ [o])
  FindByID := fun id s =>
    match s.find? (fun x => x.ID == id) with
    | some o => ((some o, none), s)
    | none => ((none, some .ErrProductionOrderNotFound), s)
  FindAll := fun s => ((s, none), s)
  Update := fun o s => (none, s.map (fun x => if x.ID == o.ID then o else x))
  Delete := fun id s => (none, s.filter (fun x => x.ID != id))

/-- A sample order in the given status, used in concrete instances. -/
def sampleOrder (status : ProductionOrderStatus) : ProductionOrder :=
  { NewProductionOrder ⟨100⟩ "A-1" "part-7" 4 ⟨⟨3⟩, ⟨10⟩, ["m1"]⟩ with Status := status }

end Production

/-! ## internal/nc/domain -/

namespace NC

abbrev MachineID := String
abbrev MachineRunningState := String
abbrev NCProgramID := String

def StateRunning : MachineRunningState := "running"
def StateStopped : MachineRunningState := "stopped"
def StateError : MachineRunningState := "error"

/-- The `error` values of the package: its five sentinels (service.go:8) and any other
error value, which only a repository can produce. -/
inductive Error where
  | ErrNCProgramNotFound
  | ErrMachineNotFound
  | ErrMachineNotAvailable
  | ErrIncompatibleProgram
  | ErrTransferFailed
  | Storage (msg : String)
deriving DecidableEq, Repr

structure MachineStatus where
  RunningState : MachineRunningState
  CurrentJobID : String
  LastHeartbeat : Time
  ErrorMessage : String
deriving DecidableEq, Repr

/-- The struct `Machine` (machine.go:15). Its field `Type` is `MachineType` here, `Type`
being a reserved word. -/
structure Machine where
  ID : MachineID
  Name : String
  IP : String
  MachineType : String
  Capabilities : List String
  Status : MachineStatus
  CreatedAt : Time
  UpdatedAt : Time
deriving DecidableEq, Repr

structure NCProgram where
  ID : NCProgramID
  Name : String
  Version : String
  FileHash : String
  MachineCompatibility : List String
  CreatedBy : String
  CreatedAt : Time
  UpdatedAt : Time
deriving DecidableEq, Repr

/-- `NewMachine` (machine.go:33); `now` is its `time.Now()`. The status fields the literal
leaves out are Go zero values. -/
def NewMachine (now : Time) (id : MachineID) (name ip machineType : String)
    (capabilities : List String) : Machine :=
  { ID := id
    Name := name
    IP := ip
    MachineType := machineType
    Capabilities := capabilities
    Status :=
      { RunningState := StateStopped
        CurrentJobID := ""
        LastHeartbeat := now
        ErrorMessage := "" }
    CreatedAt := now
    UpdatedAt := now }

/-- `(*Machine).UpdateStatus` (machine.go:50). -/
def UpdateStatus (now : Time) (status : MachineStatus) (m : Machine) : Machine :=
  { m with Status := status, UpdatedAt := now }

/-- `(*Machine).IsAvailable` (machine.go:55). -/
def IsAvailable (m : Machine) : Bool :=
  m.Status.RunningState == StateStopped

/-- `(*Machine).StartJob` (machine.go:59); `now1` and `now2` are its two clock readings,
in source order. -/
def StartJob (now1 now2 : Time) (jobID : String) (m : Machine) : Machine :=
  { m with
    Status :=
      { m.Status with
        RunningState := StateRunning
        CurrentJobID := jobID
        LastHeartbeat := now1 }
    UpdatedAt := now2 }

/-- `(*Machine).StopJob` (machine.go:66). -/
def StopJob (now1 now2 : Time) (m : Machine) : Machine :=
  { m with
    Status :=
      { m.Status with
        RunningState := StateStopped
        CurrentJobID := ""
        LastHeartbeat := now1 }
    UpdatedAt := now2 }

/-- The loop of `IsCompatibleWith` over the remaining compatibility entries. -/
def IsCompatibleWith.loop (machineType : String) : List String → Bool
  | [] => false
  | mt :: rest => if mt = machineType then true else IsCompatibleWith.loop machineType rest

/-- `(*NCProgram).IsCompatibleWith` (nc_program.go:39). -/
def IsCompatibleWith (p : NCProgram) (machineType : String) : Bool :=
  IsCompatibleWith.loop machineType p.MachineCompatibility

/-- The interface `NCProgramRepository` (repository.go) over a store state `σ`. -/
structure NCProgramRepository (σ : Type) where
  Save : NCProgram → σ → Option Error × σ
  FindByID : NCProgramID → σ → (Option NCProgram × Option Error) × σ
  FindByNameAndVersion : String → String → σ → (Option NCProgram × Option Error) × σ
  FindAll : σ → (List NCProgram × Option Error) × σ
  Delete : NCProgramID → σ → Option Error × σ

/-- The interface `MachineRepository` (repository.go) over a store state `σ`. -/
structure MachineRepository (σ : Type) where
  Save : Machine → σ → Option Error × σ
  FindByID : MachineID → σ → (Option Machine × Option Error) × σ
  FindAll : σ → (List Machine × Option Error) × σ
  FindAvailable : σ → (List Machine × Option Error) × σ
  Update : Machine → σ → Option Error × σ

/-- One call of a repository method made by the transfer service, with its argument. -/
inductive RepoCall where
  | ProgramFindByID (id : NCProgramID)
  | ProgramFindAll
  | MachineFindByID (id : MachineID)
  | MachineUpdate (machine : Machine)
deriving DecidableEq, Repr

/-- How a Go call ends: it returns a value, or it panics dereferencing a nil pointer. -/
inductive Outcome (α : Type) where
  | returned (a : α)
  | panicked
deriving DecidableEq, Repr

/-- `(*NCTransferService).TransferProgram` (service.go:28); `programRepo` and `machineRepo`
are the service's two fields, `now1` and `now2` the clock readings of `StartJob`. A lookup
that returns a nil entity with a nil error makes the first method call on it panic. -/
def TransferProgram {σ : Type} (programRepo : NCProgramRepository σ)
    (machineRepo : MachineRepository σ) (now1 now2 : Time)
    (programID : NCProgramID) (machineID : MachineID) (s : σ) :
    Run σ RepoCall (Outcome (Option Error)) :=
  match programRepo.FindByID programID s with
  | ((_, some _), s1) =>
    ⟨.returned (some .ErrNCProgramNotFound), s1, [.ProgramFindByID programID]⟩
  | ((program, none), s1) =>
    match machineRepo.FindByID machineID s1 with
    | ((_, some _), s2) =>
      ⟨.returned (some .ErrMachineNotFound), s2,
        [.ProgramFindByID programID, .MachineFindByID machineID]⟩
    | ((none, none), s2) =>
      ⟨.panicked, s2, [.ProgramFindByID programID, .MachineFindByID machineID]⟩
    | ((some machine, none), s2) =>
      if !IsAvailable machine then
        ⟨.returned (some .ErrMachineNotAvailable), s2,
          [.ProgramFindByID programID, .MachineFindByID machineID]⟩
      else
        match program with
        | none => ⟨.panicked, s2, [.ProgramFindByID programID, .MachineFindByID machineID]⟩
        | some program =>
          if !IsCompatibleWith program machine.MachineType then
            ⟨.returned (some .ErrIncompatibleProgram), s2,
              [.ProgramFindByID programID, .MachineFindByID machineID]⟩
          else
            let machine := StartJob now1 now2 programID machine
            match machineRepo.Update machine s2 with
            | (some err, s3) =>
              ⟨.returned (some err), s3,
                [.ProgramFindByID programID, .MachineFindByID machineID, .MachineUpdate machine]⟩
            | (none, s3) =>
              ⟨.returned none, s3,
                [.ProgramFindByID programID, .MachineFindByID machineID, .MachineUpdate machine]⟩

/-- The loop of `SelectOptimalProgram` over the remaining programs, and the final return
when the loop ends without a match. -/
def SelectOptimalProgram.loop (machineType : String) :
    List NCProgram → Option NCProgram × Option Error
  | [] => (none, some .ErrNCProgramNotFound)
  | program :: rest =>
    if IsCompatibleWith program machineType then (some program, none)
    else SelectOptimalProgram.loop machineType rest

/-- `(*NCTransferService).SelectOptimalProgram` (service.go:58). The entries of the slice
that `FindAll` returns are taken to be non-nil. -/
def SelectOptimalProgram {σ : Type} (programRepo : NCProgramRepository σ)
    (partID : String) (machineType : String) (s : σ) :
    Run σ RepoCall (Option NCProgram × Option Error) :=
  match programRepo.FindAll s with
  | ((_, some err), s1) => ⟨(none, some err), s1, [.ProgramFindAll]⟩
  | ((programs, none), s1) =>
    ⟨SelectOptimalProgram.loop machineType programs, s1, [.ProgramFindAll]⟩

/-- Where one call of `TransferProgram` stands between its repository calls: not yet
started; program looked up (service.go:29, error nil); machine looked up and both checks
passed, `StartJob` applied, `Update` still to come (service.go:50); or over with its
outcome. -/
inductive TransferState where
  | start
  | programLoaded (program : Option NCProgram)
  | machineStarted (machine : Machine)
  | finished (outcome : Outcome (Option Error))
deriving DecidableEq, Repr

/-- One step of a `TransferProgram` call: its next repository call together with the local
computation that follows it, up to the next repository call or the return. A finished call
stays as it is. -/
def TransferProgram.step {σ : Type} (programRepo : NCProgramRepository σ)
    (machineRepo : MachineRepository σ) (now1 now2 : Time)
    (programID : NCProgramID) (machineID : MachineID) :
    TransferState → σ → TransferState × σ
  | .start, s =>
    match programRepo.FindByID programID s with
    | ((_, some _), s1) => (.finished (.returned (some .ErrNCProgramNotFound)), s1)
    | ((program, none), s1) => (.programLoaded program, s1)
  | .programLoaded program, s1 =>
    match machineRepo.FindByID machineID s1 with
    | ((_, some _), s2) => (.finished (.returned (some .ErrMachineNotFound)), s2)
    | ((none, none), s2) => (.finished .panicked, s2)
    | ((some machine, none), s2) =>
      if !IsAvailable machine then
        (.finished (.returned (some .ErrMachineNotAvailable)), s2)
      else
        match program with
        | none => (.finished .panicked, s2)
        | some program =>
          if !IsCompatibleWith program machine.MachineType then
            (.finished (.returned (some .ErrIncompatibleProgram)), s2)
          else
            (.machineStarted (StartJob now1 now2 programID machine), s2)
  | .machineStarted machine, s2 =>
    match machineRepo.Update machine s2 with
    | (some err, s3) => (.finished (.returned (some err)), s3)
    | (none, s3) => (.finished (.returned none), s3)
  | .finished outcome, s => (.finished outcome, s)

/-- Two calls A and B running against one store, a repository call being the unit of
interleaving. The schedule names, turn by turn, the call that takes its next step: `false`
is A, `true` is B. The result is where A and B stand, and the store, after the schedule. -/
def interleave {σ : Type} (stepA stepB : TransferState → σ → TransferState × σ) :
    List Bool → TransferState → TransferState → σ → TransferState × TransferState × σ
  | [], a, b, s => (a, b, s)
  | false :: rest, a, b, s => interleave stepA stepB rest (stepA a s).1 b (stepA a s).2
  | true :: rest, a, b, s => interleave stepA stepB rest a (stepB b s).1 (stepB b s).2

/-- The store of the in-memory repositories: the registered programs and the machines. -/
structure MemStore where
  programs : List NCProgram
  machines : List Machine
deriving DecidableEq, Repr

/-- An in-memory program repository over `MemStore`. -/
def memProgramRepo : NCProgramRepository MemStore where
  Save := fun p s => (none, { s with programs := s.programs ++ [p] })
  FindByID := fun id s =>
    match s.programs.find? (fun p => p.ID == id) with
    | some p => ((some p, none), s)
    | none => ((none, some .ErrNCProgramNotFound), s)
  FindByNameAndVersion := fun name version s =>
    match s.programs.find? (fun p => p.Name == name && p.Version == version) with
    | some p => ((some p, none), s)
    | none => ((none, some .ErrNCProgramNotFound), s)
  FindAll := fun s => ((s.programs, none), s)
  Delete := fun id s => (none, { s with programs := s.programs.filter (fun p => p.ID != id) })

/-- An in-memory machine repository over `MemStore`. -/
def memMachineRepo : MachineRepository MemStore where
  Save := fun m s => (none, { s with machines := s.machines ++ [m] })
  FindByID := fun id s =>
    match s.machines.find? (fun m => m.ID == id) with
    | some m => ((some m, none), s)
    | none => ((none, some .ErrMachineNotFound), s)
  FindAll := fun s => ((s.machines, none), s)
  FindAvailable := fun s => ((s.machines.filter IsAvailable, none), s)
  Update := fun m s =>
    (none, { s with machines := s.machines.map (fun x => if x.ID == m.ID then m else x) })

/-- A program repository whose database is unreachable: every lookup fails with a storage
error that is not the not-found signal. -/
def unreachableProgramRepo : NCProgramRepository MemStore where
  Save := fun _ s => (some (.Storage "connection refused"), s)
  FindByID := fun _ s => ((none, some (.Storage "connection refused")), s)
  FindByNameAndVersion := fun _ _ s => ((none, some (.Storage "connection refused")), s)
  FindAll := fun s => (([], some (.Storage "connection refused")), s)
  Delete := fun _ s => (some (.Storage "connection refused"), s)

/-- A machine repository whose database is unreachable. -/
def unreachableMachineRepo : MachineRepository MemStore where
  Save := fun _ s => (some (.Storage "connection refused"), s)
  FindByID := fun _ s => ((none, some (.Storage "connection refused")), s)
  FindAll := fun s => (([], some (.Storage "connection refused")), s)
  FindAvailable := fun s => (([], some (.Storage "connection refused")), s)
  Update := fun _ s => (some (.Storage "connection refused"), s)

/-- A sample stopped machine of type mill. -/
def sampleMill : Machine := NewMachine ⟨50⟩ "m-mill" "Mill 1" "10.0.0.1" "mill" ["3axis"]

/-- A sample machine of type lathe that is running job `ncprog-zzz`. -/
def sampleLathe : Machine :=
  StartJob ⟨60⟩ ⟨61⟩ "ncprog-zzz" (NewMachine ⟨50⟩ "m-lathe" "Lathe 1" "10.0.0.2" "lathe" [])

/-- A sample program compatible with lathes only. -/
def sampleProgram : NCProgram :=
  { ID := "ncprog-abc"
    Name := "shaft"
    Version := "1.0"
    FileHash := "abc"
    MachineCompatibility := ["lathe"]
    CreatedBy := "eng"
    CreatedAt := ⟨40⟩
    UpdatedAt := ⟨40⟩ }

/-- A sample store: one program, a stopped mill and a running lathe. -/
def sampleStore : MemStore := ⟨[sampleProgram], [sampleMill, sampleLathe]⟩

/-- A sample program compatible with mills only. -/
def sampleMillProgram : NCProgram :=
  { ID := "ncprog-mill"
    Name := "bracket"
    Version := "1.0"
    FileHash := "def"
    MachineCompatibility := ["mill"]
    CreatedBy := "eng"
    CreatedAt := ⟨41⟩
    UpdatedAt := ⟨41⟩ }

/-- A sample program compatible with lathes and mills. -/
def sampleAnyProgram : NCProgram :=
  { ID := "ncprog-any"
    Name := "plate"
    Version := "2.0"
    FileHash := "0a1"
    MachineCompatibility := ["lathe", "mill"]
    CreatedBy := "eng"
    CreatedAt := ⟨42⟩
    UpdatedAt := ⟨42⟩ }

/-- A sample store: three programs, a stopped mill and a running lathe. -/
def sampleShop : MemStore :=
  ⟨[sampleProgram, sampleMillProgram, sampleAnyProgram], [sampleMill, sampleLathe]⟩

end NC

/-! ## internal/quality/domain and internal/quality/application

A `float64` is a `Float64`, its operations those of that type. A Go `int` is an `Int`. A
Go `map[string]int` is its lookup function, `none` for a key that is absent. The entries of
the `[]*Inspection` slices the repository returns are taken to be non-nil. -/

namespace Quality

abbrev InspectionID := String
abbrev InspectionStatus := String
abbrev InspectionResult := String

def InspectionStatusPending : InspectionStatus := "pending"
def InspectionStatusCompleted : InspectionStatus := "completed"
def InspectionStatusFailed : InspectionStatus := "failed"

def ResultPass : InspectionResult := "pass"
def ResultFail : InspectionResult := "fail"

/-- The `error` values of the package: its two sentinels (service.go:8) and any other
error value, which only a repository can produce. -/
inductive Error where
  | ErrInspectionNotFound
  | ErrInvalidMeasurement
  | Storage (msg : String)
deriving DecidableEq, Repr

structure MeasurementResult where
  ParameterName : String
  MeasuredValue : Float64
  TargetValue : Float64
  Tolerance : Float64
  Unit : String
  Pass : Bool
deriving DecidableEq, Repr

structure Inspection where
  ID : InspectionID
  ProductionOrderID : String
  LotNumber : String
  InspectorID : String
  Results : List MeasurementResult
  Status : InspectionStatus
  FinalResult : InspectionResult
  CreatedAt : Time
  UpdatedAt : Time
deriving DecidableEq, Repr

/-- `NewInspection` (inspection.go:51); `now` is its first `time.Now()` and `stamp` is
`time.Now().Format("20060102150405")` of its second. `FinalResult` is left at the zero
value. -/
def NewInspection (now : Time) (stamp : String) (productionOrderID lotNumber inspectorID : String) :
    Inspection :=
  { ID := "insp-" ++ stamp
    ProductionOrderID := productionOrderID
    LotNumber := lotNumber
    InspectorID := inspectorID
    Status := InspectionStatusPending
    Results := []
    FinalResult := ""
    CreatedAt := now
    UpdatedAt := now }

/-- `(*Inspection).AddMeasurement` (inspection.go:65). -/
def AddMeasurement (now : Time) (result : MeasurementResult) (i : Inspection) : Inspection :=
  { i with Results := i.Results ++ [result], UpdatedAt := now }

/-- The loop of `Complete` over the remaining results: the value of `allPass` after it. -/
def Complete.loop : List MeasurementResult → Bool
  | [] => true
  | result :: rest => if !result.Pass then false else Complete.loop rest

/-- `(*Inspection).Complete` (inspection.go:70). -/
def Complete (now : Time) (i : Inspection) : Inspection :=
  let allPass := Complete.loop i.Results
  { i with
    FinalResult := if allPass then ResultPass else ResultFail
    Status := InspectionStatusCompleted
    UpdatedAt := now }

/-- `(*Inspection).IsPassed` (inspection.go:89). -/
def IsPassed (i : Inspection) : Bool :=
  i.FinalResult == ResultPass

/-- The struct `DefectAnalysis` (service.go:59). -/
structure DefectAnalysis where
  LotNumber : String
  TotalSamples : Int
  PassedSamples : Int
  FailedSamples : Int
  PassRate : Float64
  DefectTypes : String → Option Int

/-- The statement `m[key]++` on a Go map: the entry of `key`, read as 0 when absent, is
set to one more. -/
def mapIncrement (m : String → Option Int) (key : String) : String → Option Int :=
  fun k => if k = key then some ((m key).getD 0 + 1) else m k

/-- The interface `InspectionRepository` (repository.go) over a store state `σ`. -/
structure InspectionRepository (σ : Type) where
  Save : Inspection → σ → Option Error × σ
  FindByID : InspectionID → σ → (Option Inspection × Option Error) × σ
  FindByLotNumber : String → σ → (List Inspection × Option Error) × σ
  FindByProductionOrderID : String → σ → (List Inspection × Option Error) × σ
  Update : Inspection → σ → Option Error × σ

/-- One call of an `InspectionRepository` method, with its argument. -/
inductive RepoCall where
  | Save (inspection : Inspection)
  | FindByID (id : InspectionID)
  | FindByLotNumber (lotNumber : String)
  | FindByProductionOrderID (orderID : String)
  | Update (inspection : Inspection)
deriving DecidableEq, Repr

/-- The inner loop of `AnalyzeDefects` (service.go:46) over the remaining results of a
failed inspection: the defect map after it. -/
def AnalyzeDefects.countDefects (defectTypes : String → Option Int) :
    List MeasurementResult → (String → Option Int)
  | [] => defectTypes
  | result :: rest =>
    if !result.Pass then
      AnalyzeDefects.countDefects (mapIncrement defectTypes result.ParameterName) rest
    else
      AnalyzeDefects.countDefects defectTypes rest

/-- The outer loop of `AnalyzeDefects` (service.go:41) over the remaining inspections. -/
def AnalyzeDefects.loop (analysis : DefectAnalysis) : List Inspection → DefectAnalysis
  | [] => analysis
  | inspection :: rest =>
    if IsPassed inspection then
      AnalyzeDefects.loop { analysis with PassedSamples := analysis.PassedSamples + 1 } rest
    else
      AnalyzeDefects.loop
        { analysis with
          FailedSamples := analysis.FailedSamples + 1
          DefectTypes := AnalyzeDefects.countDefects analysis.DefectTypes inspection.Results }
        rest

/-- `(*DefectAnalysisService).AnalyzeDefects` (service.go:23); `repo` is `s.repo`. -/
def AnalyzeDefects {σ : Type} (repo : InspectionRepository σ) (lotNumber : String) (s : σ) :
    Run σ RepoCall (Option DefectAnalysis × Option Error) :=
  match repo.FindByLotNumber lotNumber s with
  | ((_, some err), s1) => ⟨(none, some err), s1, [.FindByLotNumber lotNumber]⟩
  | ((inspections, none), s1) =>
    if inspections.length = 0 then
      ⟨(none, some .ErrInspectionNotFound), s1, [.FindByLotNumber lotNumber]⟩
    else
      let analysis : DefectAnalysis :=
        { LotNumber := lotNumber
          TotalSamples := inspections.length
          PassedSamples := 0
          FailedSamples := 0
          PassRate := Float64.fin 0
          DefectTypes := fun _ => none }
      let analysis := AnalyzeDefects.loop analysis inspections
      let analysis : DefectAnalysis :=
        { analysis with
          PassRate :=
            Float64.mul
              (Float64.div (Float64.ofInt analysis.PassedSamples)
                (Float64.ofInt analysis.TotalSamples))
              (Float64.ofRat 100) }
      ⟨(some analysis, none), s1, [.FindByLotNumber lotNumber]⟩

structure MeasurementInput where
  ParameterName : String
  MeasuredValue : Float64
  TargetValue : Float64
  Tolerance : Float64
  Unit : String
deriving DecidableEq, Repr

structure CreateInspectionInput where
  ProductionOrderID : String
  LotNumber : String
  InspectorID : String
  Measurements : List MeasurementInput
deriving DecidableEq, Repr

structure MeasurementOutput where
  ParameterName : String
  MeasuredValue : Float64
  TargetValue : Float64
  Tolerance : Float64
  Unit : String
  Pass : Bool
deriving DecidableEq, Repr

structure InspectionOutput where
  ID : String
  ProductionOrderID : String
  LotNumber : String
  InspectorID : String
  Status : String
  FinalResult : String
  Measurements : List MeasurementOutput
  CreatedAt : Time
deriving DecidableEq, Repr

/-- `convertToInspectionOutput` (quality_usecase.go:130). -/
def convertToInspectionOutput (inspection : Inspection) : InspectionOutput :=
  { ID := inspection.ID
    ProductionOrderID := inspection.ProductionOrderID
    LotNumber := inspection.LotNumber
    InspectorID := inspection.InspectorID
    Status := inspection.Status
    FinalResult := inspection.FinalResult
    Measurements := inspection.Results.map fun result =>
      { ParameterName := result.ParameterName
        MeasuredValue := result.MeasuredValue
        TargetValue := result.TargetValue
        Tolerance := result.Tolerance
        Unit := result.Unit
        Pass := result.Pass }
    CreatedAt := inspection.CreatedAt }

/-- The loop of `CreateInspection` (quality_usecase.go:69) over the remaining measurements;
`clock k` is the `k`-th reading of `time.Now()` during the call and `k` counts the
readings taken so far. -/
def CreateInspection.loop (clock : Nat → Time) :
    Nat → List MeasurementInput → Inspection → Inspection
  | _, [], inspection => inspection
  | k, m :: rest, inspection =>
    let deviation := Float64.sub m.MeasuredValue m.TargetValue
    let pass := Float64.ge deviation (Float64.neg m.Tolerance) && Float64.le deviation m.Tolerance
    let result : MeasurementResult :=
      { ParameterName := m.ParameterName
        MeasuredValue := m.MeasuredValue
        TargetValue := m.TargetValue
        Tolerance := m.Tolerance
        Unit := m.Unit
        Pass := pass }
    CreateInspection.loop clock (k + 1) rest (AddMeasurement (clock k) result inspection)

/-- `(*QualityUseCase).CreateInspection` (quality_usecase.go:62); `repo` is `uc.repo`,
`clock k` the `k`-th reading of `time.Now()` during the call, and `format` is
`Time.Format("20060102150405")`. -/
def CreateInspection {σ : Type} (repo : InspectionRepository σ) (clock : Nat → Time)
    (format : Time → String) (input : CreateInspectionInput) (s : σ) :
    Run σ RepoCall (Option InspectionOutput × Option Error) :=
  let inspection := NewInspection (clock 0) (format (clock 1))
    input.ProductionOrderID input.LotNumber input.InspectorID
  let inspection := CreateInspection.loop clock 2 input.Measurements inspection
  let inspection := Complete (clock (2 + input.Measurements.length)) inspection
  match repo.Save inspection s with
  | (some err, s1) => ⟨(none, some err), s1, [.Save inspection]⟩
  | (none, s1) => ⟨(some (convertToInspectionOutput inspection), none), s1, [.Save inspection]⟩

/-- A call of one of the two mutating methods of an inspection, with its clock reading. -/
inductive InspectionOp where
  | AddMeasurement (now : Time) (result : MeasurementResult)
  | Complete (now : Time)
deriving DecidableEq, Repr

/-- Makes the named method call on the inspection. -/
def InspectionOp.call : InspectionOp → Inspection → Inspection
  | .AddMeasurement now result, i => Quality.AddMeasurement now result i
  | .Complete now, i => Quality.Complete now i

/-- Makes a sequence of method calls on one inspection, first to last. -/
def callOps : List InspectionOp → Inspection → Inspection
  | [], i => i
  | op :: rest, i => callOps rest (op.call i)

/-- An in-memory inspection repository: the store is the list of saved inspections. -/
def memRepo : InspectionRepository (List Inspection) where
  Save := fun i s => (none, s ++ [i])
  FindByID := fun id s =>
    match s.find? (fun x => x.ID == id) with
    | some i => ((some i, none), s)
    | none => ((none, some .ErrInspectionNotFound), s)
  FindByLotNumber := fun lot s => ((s.filter (fun x => x.LotNumber == lot), none), s)
  FindByProductionOrderID := fun o s => ((s.filter (fun x => x.ProductionOrderID == o), none), s)
  Update := fun i s => (none, s.map (fun x => if x.ID == i.ID then i else x))

/-- An inspection repository whose `Save` fails. -/
def readOnlyRepo : InspectionRepository (List Inspection) :=
  { memRepo with Save := fun _ s => (some (.Storage "read-only transaction"), s) }

/-- A fixed clock: reading `k` is instant `1000 + k`. -/
def sampleClock (k : Nat) : Time := ⟨1000 + k⟩

/-- A stand-in for the timestamp layout: the decimal instant. -/
def sampleFormat (t : Time) : String := toString t.unixNano

/-- A diameter measurement on the upper edge of its band: 10.0625 against 10 ± 0.0625, all
three of them float64 values. -/
def sampleOnEdge : MeasurementInput :=
  ⟨"diameter", .fin (161 / 16), .fin 10, .fin (1 / 16), "mm"⟩

/-- A roughness measurement outside its band: 1.875 against 1.5 ± 0.25. -/
def sampleOutside : MeasurementInput :=
  ⟨"roughness", .fin (15 / 8), .fin (3 / 2), .fin (1 / 4), "um"⟩

/-- A length measurement on target with a negative tolerance. -/
def sampleNegativeTolerance : MeasurementInput :=
  ⟨"length", .fin 50, .fin 50, .fin (-1 / 128), "mm"⟩

/-- A temperature measurement whose measured value is NaN. -/
def sampleNaN : MeasurementInput := ⟨"temperature", .nan, .fin 20, .fin 1, "C"⟩

/-- A depth measurement written 3.07 against 42.63 ± 39.56: each field is the float64 of
its decimal literal. -/
def sampleRounded : MeasurementInput :=
  ⟨"depth", .ofRat (307 / 100), .ofRat (4263 / 100), .ofRat (3956 / 100), "mm"⟩

/-- A diameter measurement written 10.05 against 10 ± 0.05. -/
def sampleDecimalEdge : MeasurementInput :=
  ⟨"diameter", .ofRat (1005 / 100), .ofRat 10, .ofRat (5 / 100), "mm"⟩

/-- A runout measurement written 0.1 against 1.1 ± 1.0. -/
def sampleRunout : MeasurementInput :=
  ⟨"runout", .ofRat (1 / 10), .ofRat (11 / 10), .ofRat 1, "mm"⟩

/-- A measurement result that failed. -/
def sampleFailedResult : MeasurementResult :=
  ⟨"roughness", .fin (15 / 8), .fin (3 / 2), .fin (1 / 4), "um", false⟩

/-- A measurement result that passed. -/
def samplePassedResult : MeasurementResult :=
  ⟨"diameter", .fin 10, .fin 10, .fin (1 / 16), "mm", true⟩

/-- A completed inspection of lot `lot-1` with the given results. -/
def sampleInspection (results : List MeasurementResult) : Inspection :=
  Complete ⟨12⟩ { NewInspection ⟨10⟩ "20240101120000" "order-A-1" "lot-1" "insp-7" with
    Results := results }

/-- A request with four measurements: on the band edge, outside the band, with a negative
tolerance, and with a NaN. -/
def sampleInput : CreateInspectionInput :=
  ⟨"order-A-1", "lot-1", "insp-7",
    [sampleOnEdge, sampleOutside, sampleNegativeTolerance, sampleNaN]⟩

/-- A request with the two measurements written in decimals. -/
def sampleDecimalInput : CreateInspectionInput :=
  ⟨"order-A-1", "lot-1", "insp-7", [sampleRounded, sampleDecimalEdge]⟩

/-- A request whose only measurement is the runout. -/
def sampleRunoutInput : CreateInspectionInput :=
  ⟨"order-A-1", "lot-1", "insp-7", [sampleRunout]⟩

/-- A request whose only measurement is within its band. -/
def sampleGoodInput : CreateInspectionInput :=
  ⟨"order-A-1", "lot-1", "insp-7", [sampleOnEdge]⟩

/-- A store with three inspections of lot `lot-1`, of which the second failed, and one
inspection of lot `lot-2`. -/
def sampleInspections : List Inspection :=
  [sampleInspection [samplePassedResult],
    sampleInspection [samplePassedResult, sampleFailedResult],
    { sampleInspection [] with LotNumber := "lot-2" },
    sampleInspection []]

/-- A store with twenty inspections of lot `lot-4`, of which eleven passed. -/
def sampleRoundingLot : List Inspection :=
  List.replicate 11 { sampleInspection [samplePassedResult] with LotNumber := "lot-4" } ++
    List.replicate 9 { sampleInspection [sampleFailedResult] with LotNumber := "lot-4" }

/-- An empty request: no measurements. -/
def sampleEmptyInput : CreateInspectionInput := ⟨"order-A-1", "lot-1", "insp-7", []⟩

/-- A failed result for the diameter. -/
def sampleFailedDiameter : MeasurementResult :=
  ⟨"diameter", .fin (81 / 8), .fin 10, .fin (1 / 16), "mm", false⟩

/-- A store with three inspections of lot `lot-3`: one passed; one failed on roughness and
diameter; one failed on roughness, with a passed diameter. -/
def sampleDefectLot : List Inspection :=
  [{ sampleInspection [samplePassedResult] with LotNumber := "lot-3" },
    { sampleInspection [sampleFailedResult, sampleFailedDiameter] with LotNumber := "lot-3" },
    { sampleInspection [samplePassedResult, sampleFailedResult] with LotNumber := "lot-3" }]

end Quality

/-! ## seed/feedback.go

The controller's `db` field is the store state `σ` together with the three statements the
file sends to it; `encoding/json` and `fmt.Sprintf` are taken as given functions. All of
them are the fields of `Env`. `log.Printf` calls are left out. A Go `map` is its lookup
function, `none` for an absent key.

The `float64` values of the controller are finite and held as the exact rationals they
denote. The decimal literals of `NewQualityFeedbackController` are the float64 values
nearest to them (`Float64.roundQ`), and the sample payloads are decoded to such values as
well. The controller's arithmetic and the thresholds and factors of
`determineCorrectiveAction` are taken exactly; where a theorem gives a computed number it
also shows that this number is a float64, so that the float64 operation returns it. -/

namespace Seed

/-- A JSON value as `encoding/json` decodes it into an `interface{}`: numbers become
`float64`; what is inside an array or an object is not needed here. -/
inductive JSONValue where
  | null
  | bool (b : Bool)
  | number (x : ℚ)
  | string (s : String)
  | composite
deriving DecidableEq, Repr

abbrev RawMessage := String

/-- The `error` values met in the file: an error of `database/sql`, an error of
`encoding/json`, and the two forms of `fmt.Errorf`, with and without a wrapped error. -/
inductive Error where
  | Storage (msg : String)
  | Syntax (msg : String)
  | Errorf (msg : String)
  | Wrapped (msg : String) (err : Error)
deriving DecidableEq, Repr

/-- The struct `Inspection` of the package (seed.go:393). -/
structure Inspection where
  ID : String
  LotNumber : String
  MachineID : String
  OperatorID : String
  Result : String
  MeasuredValues : RawMessage
  InspectionDate : Time
deriving DecidableEq, Repr

structure PIDGains where
  Kp : ℚ
  Ki : ℚ
  Kd : ℚ
deriving DecidableEq, Repr

structure ControlRecord where
  Timestamp : Time
  Error : ℚ
  Output : ℚ
  Action : String
deriving DecidableEq, Repr

/-- The struct `QualityFeedbackController` (feedback.go:13) without its `db` field. -/
structure QualityFeedbackController where
  targetCpk : ℚ
  pidGains : PIDGains
  controlHistory : List ControlRecord
deriving DecidableEq, Repr

/-- The struct `CorrectiveAction` (feedback.go:95). Its field `Type` is `ActionType` here,
`Type` being a reserved word. -/
structure CorrectiveAction where
  ActionType : String
  Parameters : String → Option ℚ
  NCProgramID : String
  Description : String

/-- The database and library operations the controller uses. `QueryInspection` is the
`QueryRow(...).Scan(...)` of `getInspection`: the scanned row and the error.
`ExecUpdateNCProgram` is the `UPDATE nc_programs` statement with its two arguments,
`ExecInsertAdjustment` the `INSERT INTO quality_adjustments` statement with its two
arguments. `Unmarshal` is `json.Unmarshal` into a nil `map[string]interface{}`: the map
after the call and the error. `SprintfCompensation` is the `fmt.Sprintf` of
`updateNCProgram`, `Marshal` is `json.Marshal` of a parameter map. -/
structure Env (σ : Type) where
  QueryInspection : String → σ → (Inspection × Option Error) × σ
  ExecUpdateNCProgram : String → String → σ → Option Error × σ
  ExecInsertAdjustment : String → String → σ → Option Error × σ
  Unmarshal : RawMessage → (String → Option JSONValue) × Option Error
  SprintfCompensation : ℚ → ℚ → String
  Marshal : (String → Option ℚ) → String

/-- One statement sent to the database, with its arguments. -/
inductive DBCall where
  | QueryInspection (inspectionID : String)
  | ExecUpdateNCProgram (adjustmentCode : String) (ncProgramID : String)
  | ExecInsertAdjustment (actionType : String) (parametersJSON : String)
deriving DecidableEq, Repr

/-- The assignment `m[key] = value` on a Go map. -/
def mapSet (m : String → Option ℚ) (key : String) (value : ℚ) : String → Option ℚ :=
  fun k => if k = key then some value else m k

/-- The read `m[key]` on a Go `map[string]float64`: 0 for an absent key. -/
def mapGet (m : String → Option ℚ) (key : String) : ℚ :=
  (m key).getD 0

/-- `NewQualityFeedbackController` (feedback.go:36): the target 1.67 and the gains 0.5, 0.1
and 0.05, each the float64 of its literal. -/
def NewQualityFeedbackController : QualityFeedbackController :=
  { targetCpk := Float64.roundQ (167 / 100)
    pidGains :=
      { Kp := Float64.roundQ (1 / 2)
        Ki := Float64.roundQ (1 / 10)
        Kd := Float64.roundQ (1 / 20) }
    controlHistory := [] }

/-- `calculateCpk` (feedback.go:103); the receiver is not read. -/
def calculateCpk (_measuredData : String → Option JSONValue) : ℚ :=
  3 / 2

/-- The loop of `calculatePIDCorrection` (feedback.go:116) over the remaining records,
from the current value of `integral`. -/
def calculatePIDCorrection.loop : List ControlRecord → ℚ → ℚ
  | [], integral => integral
  | record :: rest, integral => calculatePIDCorrection.loop rest (integral + record.Error)

/-- `calculatePIDCorrection` (feedback.go:110). -/
def calculatePIDCorrection (qfc : QualityFeedbackController) (error : ℚ) : ℚ :=
  let proportional := qfc.pidGains.Kp * error
  let integral := calculatePIDCorrection.loop qfc.controlHistory 0
  let integral := integral * qfc.pidGains.Ki
  let derivative :=
    if h : qfc.controlHistory.length > 0 then
      let lastError := (qfc.controlHistory.get ⟨qfc.controlHistory.length - 1, by omega⟩).Error
      qfc.pidGains.Kd * (error - lastError)
    else 0
  proportional + integral + derivative

/-- `determineCorrectiveAction` (feedback.go:132); the receiver is not read. The error of
`json.Unmarshal` is dropped, as in the source. -/
def determineCorrectiveAction {σ : Type} (env : Env σ) (inspection : Inspection)
    (error correction : ℚ) : CorrectiveAction :=
  let action : CorrectiveAction :=
    { ActionType := ""
      Parameters := fun _ => none
      NCProgramID := ""
      Description := "" }
  let action : CorrectiveAction :=
    if |error| > 1 / 2 then
      { action with
        ActionType := "major_nc_adjustment"
        Parameters :=
          mapSet (mapSet action.Parameters "offset_adjustment" (correction * (1 / 100)))
            "speed_adjustment" (correction * (-5))
        Description := "Major NC program adjustment due to large quality deviation" }
    else if |error| > 1 / 5 then
      { action with
        ActionType := "tool_offset_adjustment"
        Parameters := mapSet action.Parameters "wear_offset" (correction * (1 / 200))
        Description := "Tool wear offset adjustment" }
    else
      { action with
        ActionType := "cutting_condition_tuning"
        Parameters := mapSet action.Parameters "feed_rate_adjustment" (correction * 2)
        Description := "Fine tuning of cutting conditions" }
  let measuredData := (env.Unmarshal inspection.MeasuredValues).1
  match measuredData "failure_mode" with
  | some (.string failureMode) =>
    if failureMode = "diameter_oversize" then
      { action with Parameters := mapSet action.Parameters "diameter_compensation" (-(1 / 100)) }
    else if failureMode = "surface_roughness_excess" then
      { action with Parameters := mapSet action.Parameters "finish_pass_adjustment" (1 / 20) }
    else if failureMode = "concentricity_error" then
      { action with Parameters := mapSet action.Parameters "alignment_correction" (1 / 200) }
    else action
  | _ => action

/-- `updateNCProgram` (feedback.go:195). -/
def updateNCProgram {σ : Type} (env : Env σ) (action : CorrectiveAction) (s : σ) :
    Run σ DBCall (Option Error) :=
  let adjustmentCode := env.SprintfCompensation
    (mapGet action.Parameters "offset_adjustment") (mapGet action.Parameters "speed_adjustment")
  ⟨(env.ExecUpdateNCProgram adjustmentCode action.NCProgramID s).1,
    (env.ExecUpdateNCProgram adjustmentCode action.NCProgramID s).2,
    [.ExecUpdateNCProgram adjustmentCode action.NCProgramID]⟩

/-- `updateToolOffset` (feedback.go:214). -/
def updateToolOffset {σ : Type} (env : Env σ) (action : CorrectiveAction) (s : σ) :
    Run σ DBCall (Option Error) :=
  let parametersJSON := env.Marshal action.Parameters
  ⟨(env.ExecInsertAdjustment action.ActionType parametersJSON s).1,
    (env.ExecInsertAdjustment action.ActionType parametersJSON s).2,
    [.ExecInsertAdjustment action.ActionType parametersJSON]⟩

/-- `updateCuttingConditions` (feedback.go:231): it only logs. -/
def updateCuttingConditions {σ : Type} (_action : CorrectiveAction) (s : σ) :
    Run σ DBCall (Option Error) :=
  ⟨none, s, []⟩

/-- `executeCorrectiveAction` (feedback.go:179). -/
def executeCorrectiveAction {σ : Type} (env : Env σ) (action : CorrectiveAction) (s : σ) :
    Run σ DBCall (Option Error) :=
  if action.ActionType = "major_nc_adjustment" then updateNCProgram env action s
  else if action.ActionType = "tool_offset_adjustment" then updateToolOffset env action s
  else if action.ActionType = "cutting_condition_tuning" then updateCuttingConditions action s
  else ⟨some (.Errorf ("unknown action type: " ++ action.ActionType)), s, []⟩

/-- `getInspection` (feedback.go:241). -/
def getInspection {σ : Type} (env : Env σ) (inspectionID : String) (s : σ) :
    Except Error Inspection × σ :=
  match env.QueryInspection inspectionID s with
  | ((_, some err), s1) => (.error err, s1)
  | ((inspection, none), s1) => (.ok inspection, s1)

/-- The value of `cpk` after feedback.go:64-67: the payload's `cpk` when it is a number,
the estimate of `calculateCpk` otherwise. -/
def ProcessInspectionFeedback.cpk (measuredData : String → Option JSONValue) : ℚ :=
  match measuredData "cpk" with
  | some (.number cpk) => cpk
  | _ => calculateCpk measuredData

/-- `ProcessInspectionFeedback` (feedback.go:50): the controller after the call and the
returned error; `now` is the `time.Now()` of the history record. -/
def ProcessInspectionFeedback {σ : Type} (env : Env σ) (now : Time)
    (qfc : QualityFeedbackController) (inspectionID : String) (s : σ) :
    Run σ DBCall (QualityFeedbackController × Option Error) :=
  match getInspection env inspectionID s with
  | (.error err, s1) =>
    ⟨(qfc, some (.Wrapped "failed to get inspection" err)), s1,
      [.QueryInspection inspectionID]⟩
  | (.ok inspection, s1) =>
    match env.Unmarshal inspection.MeasuredValues with
    | (_, some err) =>
      ⟨(qfc, some (.Wrapped "failed to parse measured values" err)), s1,
        [.QueryInspection inspectionID]⟩
    | (measuredData, none) =>
      let cpk := ProcessInspectionFeedback.cpk measuredData
      let error := qfc.targetCpk - cpk
      let correction := calculatePIDCorrection qfc error
      if |error| > 1 / 10 then
        let action := determineCorrectiveAction env inspection error correction
        let executed := executeCorrectiveAction env action s1
        match executed.result with
        | some err =>
          ⟨(qfc, some (.Wrapped "failed to execute corrective action" err)), executed.state,
            .QueryInspection inspectionID :: executed.calls⟩
        | none =>
          ⟨({ qfc with
              controlHistory := qfc.controlHistory ++
                [{ Timestamp := now
                   Error := error
                   Output := correction
                   Action := action.ActionType }] }, none),
            executed.state, .QueryInspection inspectionID :: executed.calls⟩
      else
        ⟨(qfc, none), s1, [.QueryInspection inspectionID]⟩

/-- An in-memory database: the inspections table, and the statements applied to the
`nc_programs` and `quality_adjustments` tables, with their arguments. -/
structure MemDB where
  inspections : List Inspection
  ncUpdates : List (String × String)
  adjustments : List (String × String)
deriving DecidableEq, Repr

/-- A payload with `cpk` 0.89 and a failure mode, as in seed.go. -/
def samplePayloadMajor : RawMessage :=
  "\x7b\"failure_mode\": \"diameter_oversize\", \"cpk\": 0.89\x7d"

/-- A payload with `cpk` 1.37. -/
def samplePayloadTool : RawMessage := "\x7b\"cpk\": 1.37\x7d"

/-- A payload without `cpk`. -/
def samplePayloadNoCpk : RawMessage := "\x7b\"temperature_during_measurement\": 20.0\x7d"

/-- A payload with `cpk` 1.57, just inside the dead-band of the default controller. -/
def samplePayloadEdge : RawMessage := "\x7b\"cpk\": 1.57\x7d"

/-- A payload with `cpk` 1.77, just outside the dead-band of the default controller. -/
def samplePayloadOver : RawMessage := "\x7b\"cpk\": 1.77\x7d"

/-- The decoding of `samplePayloadMajor`. -/
def sampleDataMajor : String → Option JSONValue := fun k =>
  if k = "cpk" then some (.number (Float64.roundQ (89 / 100)))
  else if k = "failure_mode" then some (.string "diameter_oversize")
  else none

/-- The decoding of `samplePayloadTool`. -/
def sampleDataTool : String → Option JSONValue := fun k =>
  if k = "cpk" then some (.number (Float64.roundQ (137 / 100))) else none

/-- The decoding of `samplePayloadNoCpk`. -/
def sampleDataNoCpk : String → Option JSONValue := fun k =>
  if k = "temperature_during_measurement" then some (.number 20) else none

/-- The decoding of `samplePayloadEdge`. -/
def sampleDataEdge : String → Option JSONValue := fun k =>
  if k = "cpk" then some (.number (Float64.roundQ (157 / 100))) else none

/-- The decoding of `samplePayloadOver`. -/
def sampleDataOver : String → Option JSONValue := fun k =>
  if k = "cpk" then some (.number (Float64.roundQ (177 / 100))) else none

/-- A stand-in for `json.Unmarshal`: it decodes the five sample payloads, a number to the
float64 nearest to it, and rejects everything else, leaving the map nil. -/
def sampleUnmarshal (raw : RawMessage) : (String → Option JSONValue) × Option Error :=
  if raw = samplePayloadMajor then (sampleDataMajor, none)
  else if raw = samplePayloadTool then (sampleDataTool, none)
  else if raw = samplePayloadNoCpk then (sampleDataNoCpk, none)
  else if raw = samplePayloadEdge then (sampleDataEdge, none)
  else if raw = samplePayloadOver then (sampleDataOver, none)
  else (fun _ => none, some (.Syntax "invalid character"))

/-- A sample inspection with the given id and payload. -/
def sampleInspection (id : String) (payload : RawMessage) : Inspection :=
  { ID := id
    LotNumber := "LOT-AUTO-20240118-01"
    MachineID := "CMM-ZEISS-01"
    OperatorID := "OP-002"
    Result := "fail"
    MeasuredValues := payload
    InspectionDate := ⟨1706177700⟩ }

/-- A sample database with one inspection per sample payload. -/
def sampleDB : MemDB :=
  { inspections :=
      [sampleInspection "INSP-MAJOR" samplePayloadMajor,
        sampleInspection "INSP-TOOL" samplePayloadTool,
        sampleInspection "INSP-NOCPK" samplePayloadNoCpk,
        sampleInspection "INSP-EDGE" samplePayloadEdge,
        sampleInspection "INSP-OVER" samplePayloadOver]
    ncUpdates := []
    adjustments := [] }

/-- A working environment over `MemDB`; the two formatting functions are stand-ins. -/
def sampleEnv : Env MemDB where
  QueryInspection := fun id db =>
    match db.inspections.find? (fun i => i.ID == id) with
    | some i => ((i, none), db)
    | none => ((sampleInspection "" "", some (.Storage "sql: no rows in result set")), db)
  ExecUpdateNCProgram := fun code id db =>
    (none, { db with ncUpdates := db.ncUpdates ++ [(code, id)] })
  ExecInsertAdjustment := fun actionType parameters db =>
    (none, { db with adjustments := db.adjustments ++ [(actionType, parameters)] })
  Unmarshal := sampleUnmarshal
  SprintfCompensation := fun _ _ => "(AUTO COMPENSATION)"
  Marshal := fun _ => "parameters"

/-- An environment whose database accepts queries and refuses every write. -/
def sampleReadOnlyEnv : Env MemDB :=
  { sampleEnv with
    ExecUpdateNCProgram := fun _ _ db => (some (.Storage "read-only transaction"), db)
    ExecInsertAdjustment := fun _ _ db => (some (.Storage "read-only transaction"), db) }

end Seed

/-! ## Theorems: production scheduling -/

namespace Production

/-- C1: whenever `quantity ≤ 0`, whatever the other arguments (dates in either order
included) and whatever the repository, `ScheduleProduction` returns no order together with
`ErrInvalidQuantity`, makes no repository call (so `Save` is never invoked) and leaves the
store as it was. -/
theorem ScheduleProduction_rejects_nonpositive_quantity {σ : Type}
    (repo : ProductionOrderRepository σ) (now : Time) (orderNumber : String) (partID : PartID)
    (quantity : Int) (plannedStart plannedEnd : Time) (machineIDs : List MachineID) (s : σ)
    (hq : quantity ≤ 0) :
    (ScheduleProduction repo now orderNumber partID quantity plannedStart plannedEnd
        machineIDs s).result = (none, some Error.ErrInvalidQuantity) ∧
    (ScheduleProduction repo now orderNumber partID quantity plannedStart plannedEnd
        machineIDs s).calls = [] ∧
    (ScheduleProduction repo now orderNumber partID quantity plannedStart plannedEnd
        machineIDs s).state = s := by
  simp [ScheduleProduction, hq]

/-- Witness of C1: quantity `-5` with the planned end before the planned start, on the
in-memory repository. -/
theorem ScheduleProduction_rejects_nonpositive_quantity_witness :
    (-5 : Int) ≤ 0 ∧
    (ScheduleProduction memRepo ⟨0⟩ "A-1" "part-7" (-5) ⟨10⟩ ⟨3⟩ ["m1"] []).result
      = (none, some Error.ErrInvalidQuantity) ∧
    (ScheduleProduction memRepo ⟨0⟩ "A-1" "part-7" (-5) ⟨10⟩ ⟨3⟩ ["m1"] []).calls = [] ∧
    (ScheduleProduction memRepo ⟨0⟩ "A-1" "part-7" (-5) ⟨10⟩ ⟨3⟩ ["m1"] []).state = [] :=
  ⟨by decide,
    ScheduleProduction_rejects_nonpositive_quantity memRepo ⟨0⟩ "A-1" "part-7" (-5) ⟨10⟩ ⟨3⟩
      ["m1"] [] (by decide)⟩

/-- C2: with `quantity > 0`, a planned end strictly before the planned start makes
`ScheduleProduction` return no order together with `ErrInvalidSchedule`, with no repository
call (so `Save` is never invoked) and the store untouched; a planned end equal to the
planned start is not before it, and the call goes on to `Save` the new order. -/
theorem ScheduleProduction_rejects_end_before_start {σ : Type}
    (repo : ProductionOrderRepository σ) (now : Time) (orderNumber : String) (partID : PartID)
    (quantity : Int) (plannedStart plannedEnd : Time) (machineIDs : List MachineID) (s : σ)
    (hq : 0 < quantity) :
    (plannedEnd.Before plannedStart = true →
      (ScheduleProduction repo now orderNumber partID quantity plannedStart plannedEnd
          machineIDs s).result = (none, some Error.ErrInvalidSchedule) ∧
      (ScheduleProduction repo now orderNumber partID quantity plannedStart plannedEnd
          machineIDs s).calls = [] ∧
      (ScheduleProduction repo now orderNumber partID quantity plannedStart plannedEnd
          machineIDs s).state = s) ∧
    plannedStart.Before plannedStart = false ∧
    (ScheduleProduction repo now orderNumber partID quantity plannedStart plannedStart
        machineIDs s).calls =
      [RepoCall.Save (NewProductionOrder now orderNumber partID quantity
        ⟨plannedStart, plannedStart, machineIDs⟩)] := by
  have hq' : ¬ quantity ≤ 0 := not_le.mpr hq
  have hb : plannedStart.Before plannedStart = false := by simp [Time.Before]
  refine ⟨fun h => by simp [ScheduleProduction, hq', h], hb, ?_⟩
  simp only [ScheduleProduction, hq', hb, if_false, Bool.false_eq_true]
  split <;> rfl

/-- Witness of C2: quantity 4 with end 3 before start 10 is rejected, and with end 10
equal to start 10 the order is saved, on the in-memory repository. -/
theorem ScheduleProduction_rejects_end_before_start_witness :
    (0 : Int) < 4 ∧ Time.Before ⟨3⟩ ⟨10⟩ = true ∧
    (ScheduleProduction memRepo ⟨0⟩ "A-1" "part-7" 4 ⟨10⟩ ⟨3⟩ ["m1"] []).result
      = (none, some Error.ErrInvalidSchedule) ∧
    (ScheduleProduction memRepo ⟨0⟩ "A-1" "part-7" 4 ⟨10⟩ ⟨3⟩ ["m1"] []).calls = [] ∧
    (ScheduleProduction memRepo ⟨0⟩ "A-1" "part-7" 4 ⟨10⟩ ⟨10⟩ ["m1"] []).calls =
      [RepoCall.Save (NewProductionOrder ⟨0⟩ "A-1" "part-7" 4 ⟨⟨10⟩, ⟨10⟩, ["m1"]⟩)] :=
  have h := ScheduleProduction_rejects_end_before_start memRepo ⟨0⟩ "A-1" "part-7" 4 ⟨10⟩ ⟨3⟩
    ["m1"] [] (by decide)
  ⟨by decide, by decide, (h.1 (by decide)).1, (h.1 (by decide)).2.1, h.2.2⟩

/-- C3: with `quantity > 0` and the planned end not before the planned start,
`ScheduleProduction` makes exactly one repository call, `Save order`, where `order` is
planned, has ID `"order-" ++ orderNumber` and carries the arguments in `OrderNumber`,
`PartID`, `Quantity`, `PlannedStart`, `PlannedEnd` and `AssignedMachines`; the store ends
as `Save` left it; if `Save` returns nil that order is returned with a nil error, and if
`Save` returns an error that error is returned with no order. -/
theorem ScheduleProduction_saves_planned_order {σ : Type}
    (repo : ProductionOrderRepository σ) (now : Time) (orderNumber : String) (partID : PartID)
    (quantity : Int) (plannedStart plannedEnd : Time) (machineIDs : List MachineID) (s : σ)
    (hq : 0 < quantity) (hs : plannedEnd.Before plannedStart = false) :
    ∃ order : ProductionOrder,
      (ScheduleProduction repo now orderNumber partID quantity plannedStart plannedEnd
          machineIDs s).calls = [RepoCall.Save order] ∧
      order.Status = StatusPlanned ∧
      order.ID = "order-" ++ orderNumber ∧
      order.OrderNumber = orderNumber ∧
      order.PartID = partID ∧
      order.Quantity = quantity ∧
      order.Schedule.PlannedStart = plannedStart ∧
      order.Schedule.PlannedEnd = plannedEnd ∧
      order.Schedule.AssignedMachines = machineIDs ∧
      (ScheduleProduction repo now orderNumber partID quantity plannedStart plannedEnd
          machineIDs s).state = (repo.Save order s).2 ∧
      ((repo.Save order s).1 = none →
        (ScheduleProduction repo now orderNumber partID quantity plannedStart plannedEnd
            machineIDs s).result = (some order, none)) ∧
      (∀ err, (repo.Save order s).1 = some err →
        (ScheduleProduction repo now orderNumber partID quantity plannedStart plannedEnd
            machineIDs s).result = (none, some err)) := by
  have hq' : ¬ quantity ≤ 0 := not_le.mpr hq
  refine ⟨NewProductionOrder now orderNumber partID quantity
    ⟨plannedStart, plannedEnd, machineIDs⟩, ?_, rfl, rfl, rfl, rfl, rfl, rfl, rfl, rfl, ?_, ?_, ?_⟩
  all_goals simp only [ScheduleProduction, hq', hs, if_false, Bool.false_eq_true]
  all_goals
    rcases hsave : repo.Save (NewProductionOrder now orderNumber partID quantity
      ⟨plannedStart, plannedEnd, machineIDs⟩) s with ⟨e, s'⟩
    cases e <;> simp

/-- Witness of C3: quantity 4, start 3, end 10; on the empty in-memory store `Save`
succeeds, on a store already holding `order-A-1` it fails. -/
theorem ScheduleProduction_saves_planned_order_witness :
    ((0 : Int) < 4 ∧ Time.Before ⟨10⟩ ⟨3⟩ = false) ∧
    (ScheduleProduction memRepo ⟨0⟩ "A-1" "part-7" 4 ⟨3⟩ ⟨10⟩ ["m1"] []).result =
      (some (NewProductionOrder ⟨0⟩ "A-1" "part-7" 4 ⟨⟨3⟩, ⟨10⟩, ["m1"]⟩), none) ∧
    (ScheduleProduction memRepo ⟨0⟩ "A-1" "part-7" 4 ⟨3⟩ ⟨10⟩ ["m1"]
        [NewProductionOrder ⟨0⟩ "A-1" "part-9" 1 ⟨⟨1⟩, ⟨2⟩, []⟩]).result =
      (none, some (Error.Storage "duplicate key")) := by
  obtain ⟨o, hc, -, -, -, -, -, -, -, -, -, hok, -⟩ :=
    ScheduleProduction_saves_planned_order memRepo ⟨0⟩ "A-1" "part-7" 4 ⟨3⟩ ⟨10⟩ ["m1"] []
      (by decide) (by decide)
  obtain ⟨o', hc', -, -, -, -, -, -, -, -, -, -, herr⟩ :=
    ScheduleProduction_saves_planned_order memRepo ⟨0⟩ "A-1" "part-7" 4 ⟨3⟩ ⟨10⟩ ["m1"]
      [NewProductionOrder ⟨0⟩ "A-1" "part-9" 1 ⟨⟨1⟩, ⟨2⟩, []⟩] (by decide) (by decide)
  refine ⟨⟨by decide, by decide⟩, ?_, ?_⟩
  · have ho : o = NewProductionOrder ⟨0⟩ "A-1" "part-7" 4 ⟨⟨3⟩, ⟨10⟩, ["m1"]⟩ := by
      have : [RepoCall.Save (NewProductionOrder ⟨0⟩ "A-1" "part-7" 4 ⟨⟨3⟩, ⟨10⟩, ["m1"]⟩)]
          = [RepoCall.Save o] := by rw [← hc]; rfl
      simpa using this.symm
    subst ho
    exact hok rfl
  · have ho : o' = NewProductionOrder ⟨0⟩ "A-1" "part-7" 4 ⟨⟨3⟩, ⟨10⟩, ["m1"]⟩ := by
      have : [RepoCall.Save (NewProductionOrder ⟨0⟩ "A-1" "part-7" 4 ⟨⟨3⟩, ⟨10⟩, ["m1"]⟩)]
          = [RepoCall.Save o'] := by rw [← hc']; rfl
      simpa using this.symm
    subst ho
    exact herr _ rfl

/-! ## Theorems: the order state machine -/

/-- The status strings planned and in_progress differ. -/
theorem statusPlanned_ne_inProgress : StatusPlanned ≠ StatusInProgress := by decide

/-- The status strings delayed and planned differ. -/
theorem statusDelayed_ne_planned : StatusDelayed ≠ StatusPlanned := by decide

/-- C4: `Start` returns nil exactly when the order was planned; then the status becomes
in_progress, `UpdatedAt` is the clock reading, and `ID`, `OrderNumber`, `PartID`,
`Quantity`, `Schedule` and `CreatedAt` are unchanged; from any other status `Start` returns
`ErrInvalidStateTransition`. -/
theorem Start_spec (now : Time) (po : ProductionOrder) :
    ((Start now po).2 = none ↔ po.Status = StatusPlanned) ∧
    (po.Status = StatusPlanned →
      (Start now po).1.Status = StatusInProgress ∧
      (Start now po).1.UpdatedAt = now ∧
      (Start now po).1.ID = po.ID ∧
      (Start now po).1.OrderNumber = po.OrderNumber ∧
      (Start now po).1.PartID = po.PartID ∧
      (Start now po).1.Quantity = po.Quantity ∧
      (Start now po).1.Schedule = po.Schedule ∧
      (Start now po).1.CreatedAt = po.CreatedAt) ∧
    (po.Status ≠ StatusPlanned → (Start now po).2 = some Error.ErrInvalidStateTransition) := by
  unfold Start
  by_cases h : po.Status = StatusPlanned <;> simp [h]

/-- Witness of C4: `Start` on a planned order and on a delayed one. -/
theorem Start_spec_witness :
    (Start ⟨200⟩ (sampleOrder StatusPlanned)).2 = none ∧
    (Start ⟨200⟩ (sampleOrder StatusPlanned)).1.Status = StatusInProgress ∧
    (Start ⟨200⟩ (sampleOrder StatusDelayed)).2 = some Error.ErrInvalidStateTransition :=
  ⟨(Start_spec ⟨200⟩ (sampleOrder StatusPlanned)).1.mpr rfl,
    ((Start_spec ⟨200⟩ (sampleOrder StatusPlanned)).2.1 rfl).1,
    (Start_spec ⟨200⟩ (sampleOrder StatusDelayed)).2.2 statusDelayed_ne_planned⟩

/-- C5: `Complete` returns nil exactly when the order was in_progress, and then the status
becomes completed; from any other status it returns `ErrInvalidStateTransition`, in
particular on an order fresh from `NewProductionOrder`, which is planned. -/
theorem Complete_spec (now : Time) (po : ProductionOrder) :
    ((Complete now po).2 = none ↔ po.Status = StatusInProgress) ∧
    (po.Status = StatusInProgress → (Complete now po).1.Status = StatusCompleted) ∧
    (po.Status ≠ StatusInProgress →
      (Complete now po).2 = some Error.ErrInvalidStateTransition) ∧
    (∀ (created : Time) (orderNumber : String) (partID : PartID) (quantity : Int)
        (schedule : Schedule),
      (NewProductionOrder created orderNumber partID quantity schedule).Status = StatusPlanned ∧
      (Complete now (NewProductionOrder created orderNumber partID quantity schedule)).2 =
        some Error.ErrInvalidStateTransition) := by
  refine ⟨?_, ?_, ?_, fun _ _ _ _ _ => ⟨rfl, ?_⟩⟩
  · unfold Complete
    by_cases h : po.Status = StatusInProgress <;> simp [h]
  · intro h
    simp [Complete, h]
  · intro h
    simp [Complete, h]
  · simp [Complete, NewProductionOrder, statusPlanned_ne_inProgress]

/-- Witness of C5: `Complete` on an in_progress order and on a planned one. -/
theorem Complete_spec_witness :
    (Complete ⟨200⟩ (sampleOrder StatusInProgress)).2 = none ∧
    (Complete ⟨200⟩ (sampleOrder StatusInProgress)).1.Status = StatusCompleted ∧
    (Complete ⟨200⟩ (sampleOrder StatusPlanned)).2 = some Error.ErrInvalidStateTransition :=
  ⟨(Complete_spec ⟨200⟩ (sampleOrder StatusInProgress)).1.mpr rfl,
    (Complete_spec ⟨200⟩ (sampleOrder StatusInProgress)).2.1 rfl,
    (Complete_spec ⟨200⟩ (sampleOrder StatusPlanned)).2.2.1 statusPlanned_ne_inProgress⟩

/-- C6: `Delay` returns nil exactly when the order was planned or in_progress, and then the
status becomes delayed; from any other status, among them delayed, completed and cancelled,
it returns `ErrInvalidStateTransition`. -/
theorem Delay_spec (now : Time) (po : ProductionOrder) :
    ((Delay now po).2 = none ↔ (po.Status = StatusPlanned ∨ po.Status = StatusInProgress)) ∧
    ((po.Status = StatusPlanned ∨ po.Status = StatusInProgress) →
      (Delay now po).1.Status = StatusDelayed) ∧
    (¬ (po.Status = StatusPlanned ∨ po.Status = StatusInProgress) →
      (Delay now po).2 = some Error.ErrInvalidStateTransition) ∧
    ((po.Status = StatusDelayed ∨ po.Status = StatusCompleted ∨ po.Status = StatusCancelled) →
      (Delay now po).2 = some Error.ErrInvalidStateTransition) := by
  have key : ∀ h : ¬ (po.Status = StatusPlanned ∨ po.Status = StatusInProgress),
      (Delay now po).2 = some Error.ErrInvalidStateTransition := by
    intro h
    have h1 : po.Status ≠ StatusPlanned := fun e => h (Or.inl e)
    have h2 : po.Status ≠ StatusInProgress := fun e => h (Or.inr e)
    simp [Delay, h1, h2]
  refine ⟨?_, ?_, key, ?_⟩
  · constructor
    · intro h
      by_contra hn
      rw [key hn] at h
      exact Option.noConfusion h
    · rintro (h | h) <;> simp [Delay, h]
  · rintro (h | h) <;> simp [Delay, h]
  · intro h
    apply key
    rintro (h' | h') <;> rw [h'] at h <;> revert h <;> decide

/-- Witness of C6: `Delay` on a planned, an in_progress and a completed order. -/
theorem Delay_spec_witness :
    (Delay ⟨200⟩ (sampleOrder StatusPlanned)).2 = none ∧
    (Delay ⟨200⟩ (sampleOrder StatusInProgress)).1.Status = StatusDelayed ∧
    (Delay ⟨200⟩ (sampleOrder StatusCompleted)).2 = some Error.ErrInvalidStateTransition :=
  ⟨(Delay_spec ⟨200⟩ (sampleOrder StatusPlanned)).1.mpr (Or.inl rfl),
    (Delay_spec ⟨200⟩ (sampleOrder StatusInProgress)).2.1 (Or.inr rfl),
    (Delay_spec ⟨200⟩ (sampleOrder StatusCompleted)).2.2.2 (Or.inr (Or.inl rfl))⟩

/-- C7: `Cancel` returns nil exactly when the order was neither completed nor cancelled,
and then the status becomes cancelled; planned, in_progress and delayed orders are all
cancellable; from completed or cancelled it returns `ErrInvalidStateTransition`. -/
theorem Cancel_spec (now : Time) (po : ProductionOrder) :
    ((Cancel now po).2 = none ↔
      (po.Status ≠ StatusCompleted ∧ po.Status ≠ StatusCancelled)) ∧
    ((po.Status ≠ StatusCompleted ∧ po.Status ≠ StatusCancelled) →
      (Cancel now po).1.Status = StatusCancelled) ∧
    ((po.Status = StatusPlanned ∨ po.Status = StatusInProgress ∨ po.Status = StatusDelayed) →
      (Cancel now po).2 = none ∧ (Cancel now po).1.Status = StatusCancelled) ∧
    ((po.Status = StatusCompleted ∨ po.Status = StatusCancelled) →
      (Cancel now po).2 = some Error.ErrInvalidStateTransition) := by
  have ok : ∀ h : po.Status ≠ StatusCompleted ∧ po.Status ≠ StatusCancelled,
      (Cancel now po).2 = none ∧ (Cancel now po).1.Status = StatusCancelled := by
    rintro ⟨h1, h2⟩
    simp [Cancel, h1, h2]
  have bad : ∀ h : po.Status = StatusCompleted ∨ po.Status = StatusCancelled,
      (Cancel now po).2 = some Error.ErrInvalidStateTransition := by
    intro h
    simp [Cancel, h]
  refine ⟨?_, fun h => (ok h).2, ?_, bad⟩
  · constructor
    · intro h
      by_contra hn
      have hb : po.Status = StatusCompleted ∨ po.Status = StatusCancelled := by
        by_cases h1 : po.Status = StatusCompleted
        · exact Or.inl h1
        · by_cases h2 : po.Status = StatusCancelled
          · exact Or.inr h2
          · exact absurd ⟨h1, h2⟩ hn
      rw [bad hb] at h
      exact Option.noConfusion h
    · exact fun h => (ok h).1
  · intro h
    apply ok
    rcases h with h | h | h <;> rw [h] <;> constructor <;> decide

/-- Witness of C7: `Cancel` on a delayed order and on a completed one. -/
theorem Cancel_spec_witness :
    (Cancel ⟨200⟩ (sampleOrder StatusDelayed)).2 = none ∧
    (Cancel ⟨200⟩ (sampleOrder StatusDelayed)).1.Status = StatusCancelled ∧
    (Cancel ⟨200⟩ (sampleOrder StatusCompleted)).2 = some Error.ErrInvalidStateTransition :=
  ⟨((Cancel_spec ⟨200⟩ (sampleOrder StatusDelayed)).2.2.1 (Or.inr (Or.inr rfl))).1,
    ((Cancel_spec ⟨200⟩ (sampleOrder StatusDelayed)).2.2.1 (Or.inr (Or.inr rfl))).2,
    (Cancel_spec ⟨200⟩ (sampleOrder StatusCompleted)).2.2.2 (Or.inl rfl)⟩

/-- C8: for each of `Start`, `Complete`, `Delay` and `Cancel`, a call that returns
`ErrInvalidStateTransition` leaves the order equal to what it was, in every field. -/
theorem failed_transition_leaves_order_unchanged (now : Time) (po : ProductionOrder) :
    ((Start now po).2 = some Error.ErrInvalidStateTransition → (Start now po).1 = po) ∧
    ((Complete now po).2 = some Error.ErrInvalidStateTransition → (Complete now po).1 = po) ∧
    ((Delay now po).2 = some Error.ErrInvalidStateTransition → (Delay now po).1 = po) ∧
    ((Cancel now po).2 = some Error.ErrInvalidStateTransition → (Cancel now po).1 = po) := by
  refine ⟨?_, ?_, ?_, ?_⟩
  · unfold Start
    split <;> simp
  · unfold Complete
    split <;> simp
  · unfold Delay
    split <;> simp
  · unfold Cancel
    split <;> simp

/-- Witness of C8: on a completed order all four operations fail and return the order as
it was. -/
theorem failed_transition_leaves_order_unchanged_witness :
    (Start ⟨200⟩ (sampleOrder StatusCompleted)).1 = sampleOrder StatusCompleted ∧
    (Complete ⟨200⟩ (sampleOrder StatusCompleted)).1 = sampleOrder StatusCompleted ∧
    (Delay ⟨200⟩ (sampleOrder StatusCompleted)).1 = sampleOrder StatusCompleted ∧
    (Cancel ⟨200⟩ (sampleOrder StatusCompleted)).1 = sampleOrder StatusCompleted :=
  ⟨(failed_transition_leaves_order_unchanged ⟨200⟩ (sampleOrder StatusCompleted)).1 rfl,
    (failed_transition_leaves_order_unchanged ⟨200⟩ (sampleOrder StatusCompleted)).2.1 rfl,
    (failed_transition_leaves_order_unchanged ⟨200⟩ (sampleOrder StatusCompleted)).2.2.1 rfl,
    (failed_transition_leaves_order_unchanged ⟨200⟩ (sampleOrder StatusCompleted)).2.2.2 rfl⟩

/-- On a completed or cancelled order every transition call fails and hands the order
back as it was. -/
theorem call_of_terminal (t : Transition) (now : Time) (po : ProductionOrder)
    (h : po.Status = StatusCompleted ∨ po.Status = StatusCancelled) :
    t.call now po = (po, some Error.ErrInvalidStateTransition) := by
  have h1 : po.Status ≠ StatusPlanned := by
    rcases h with h | h <;> rw [h] <;> decide
  have h2 : po.Status ≠ StatusInProgress := by
    rcases h with h | h <;> rw [h] <;> decide
  cases t
  · simp [Transition.call, Start, h1]
  · simp [Transition.call, Complete, h2]
  · simp [Transition.call, Delay, h1, h2]
  · simp [Transition.call, Cancel, h]

/-- A sequence of transition calls on a completed or cancelled order: one failure per
call, the order never changing. -/
theorem callAll_of_terminal (calls : List (Transition × Time)) (po : ProductionOrder)
    (h : po.Status = StatusCompleted ∨ po.Status = StatusCancelled) :
    callAll calls po = List.replicate calls.length (po, some Error.ErrInvalidStateTransition) := by
  induction calls with
  | nil => rfl
  | cons c rest ih =>
    obtain ⟨t, now⟩ := c
    simp only [callAll, call_of_terminal t now po h, ih, List.length_cons, List.replicate_succ]

/-- C9: completed and cancelled are terminal: on an order in either status, any finite
sequence of `Start`, `Complete`, `Delay` and `Cancel` calls yields one result per call,
each `ErrInvalidStateTransition`, and after each call the status is still the original
one. In particular, on a planned order `Start` succeeds, then `Complete` succeeds and
leaves it completed, and every later call in any further sequence fails. -/
theorem terminal_states_absorbing :
    (∀ (po : ProductionOrder) (calls : List (Transition × Time)),
      (po.Status = StatusCompleted ∨ po.Status = StatusCancelled) →
      (callAll calls po).length = calls.length ∧
      ∀ r ∈ callAll calls po,
        r.2 = some Error.ErrInvalidStateTransition ∧ r.1.Status = po.Status) ∧
    (∀ (po : ProductionOrder) (now1 now2 : Time) (calls : List (Transition × Time)),
      po.Status = StatusPlanned →
      (Start now1 po).2 = none ∧
      (Complete now2 (Start now1 po).1).2 = none ∧
      (Complete now2 (Start now1 po).1).1.Status = StatusCompleted ∧
      (callAll calls (Complete now2 (Start now1 po).1).1).length = calls.length ∧
      ∀ r ∈ callAll calls (Complete now2 (Start now1 po).1).1,
        r.2 = some Error.ErrInvalidStateTransition ∧ r.1.Status = StatusCompleted) := by
  have part1 : ∀ (po : ProductionOrder) (calls : List (Transition × Time)),
      (po.Status = StatusCompleted ∨ po.Status = StatusCancelled) →
      (callAll calls po).length = calls.length ∧
      ∀ r ∈ callAll calls po,
        r.2 = some Error.ErrInvalidStateTransition ∧ r.1.Status = po.Status := by
    intro po calls h
    rw [callAll_of_terminal calls po h]
    refine ⟨List.length_replicate _ _, fun r hr => ?_⟩
    rw [List.eq_of_mem_replicate hr]
    exact ⟨rfl, rfl⟩
  refine ⟨part1, ?_⟩
  intro po now1 now2 calls h
  have hs : (Start now1 po).2 = none ∧ (Start now1 po).1.Status = StatusInProgress := by
    simp [Start, h]
  have hc : (Complete now2 (Start now1 po).1).2 = none ∧
      (Complete now2 (Start now1 po).1).1.Status = StatusCompleted := by
    simp [Complete, hs.2]
  obtain ⟨hl, hall⟩ := part1 (Complete now2 (Start now1 po).1).1 calls (Or.inl hc.2)
  refine ⟨hs.1, hc.1, hc.2, hl, fun r hr => ?_⟩
  obtain ⟨he, hst⟩ := hall r hr
  exact ⟨he, hst.trans hc.2⟩

/-- Witness of C9: on a cancelled order the calls Start, Cancel, Delay, Complete all fail;
on a planned order Start and Complete succeed and a second Start and Complete fail. -/
theorem terminal_states_absorbing_witness :
    (callAll [(Transition.Start, ⟨1⟩), (Transition.Cancel, ⟨2⟩), (Transition.Delay, ⟨3⟩),
        (Transition.Complete, ⟨4⟩)] (sampleOrder StatusCancelled)).length = 4 ∧
    (∀ r ∈ callAll [(Transition.Start, ⟨1⟩), (Transition.Cancel, ⟨2⟩), (Transition.Delay, ⟨3⟩),
        (Transition.Complete, ⟨4⟩)] (sampleOrder StatusCancelled),
      r.2 = some Error.ErrInvalidStateTransition ∧ r.1.Status = StatusCancelled) ∧
    (Start ⟨1⟩ (sampleOrder StatusPlanned)).2 = none ∧
    (Complete ⟨2⟩ (Start ⟨1⟩ (sampleOrder StatusPlanned)).1).2 = none ∧
    (∀ r ∈ callAll [(Transition.Start, ⟨3⟩), (Transition.Complete, ⟨4⟩)]
        (Complete ⟨2⟩ (Start ⟨1⟩ (sampleOrder StatusPlanned)).1).1,
      r.2 = some Error.ErrInvalidStateTransition ∧ r.1.Status = StatusCompleted) :=
  ⟨(terminal_states_absorbing.1 (sampleOrder StatusCancelled) _ (Or.inr rfl)).1,
    (terminal_states_absorbing.1 (sampleOrder StatusCancelled) _ (Or.inr rfl)).2,
    (terminal_states_absorbing.2 (sampleOrder StatusPlanned) ⟨1⟩ ⟨2⟩ [] rfl).1,
    (terminal_states_absorbing.2 (sampleOrder StatusPlanned) ⟨1⟩ ⟨2⟩ [] rfl).2.1,
    (terminal_states_absorbing.2 (sampleOrder StatusPlanned) ⟨1⟩ ⟨2⟩ _ rfl).2.2.2.2⟩

end Production

/-! ## Theorems: NC program transfer -/

namespace NC

/-- The compatibility loop answers true exactly for the members of the list. -/
theorem IsCompatibleWith.loop_eq_true_iff (machineType : String) (l : List String) :
    IsCompatibleWith.loop machineType l = true ↔ machineType ∈ l := by
  induction l with
  | nil => simp [IsCompatibleWith.loop]
  | cons mt rest ih =>
    by_cases h : mt = machineType
    · simp [IsCompatibleWith.loop, h]
    · have h' : ¬ machineType = mt := fun e => h e.symm
      simp [IsCompatibleWith.loop, h, h', ih]

/-- A program is compatible with a machine type exactly when the type is in its list. -/
theorem IsCompatibleWith_eq_true_iff (p : NCProgram) (machineType : String) :
    IsCompatibleWith p machineType = true ↔ machineType ∈ p.MachineCompatibility :=
  IsCompatibleWith.loop_eq_true_iff machineType p.MachineCompatibility

/-- C10: the error of `TransferProgram` is decided by the first failing gate, in this
order. (1) If the program lookup returns an error, the result is `ErrNCProgramNotFound`,
the only repository call is that lookup, and the machine repository's `FindByID` is not
called. (2) Otherwise, if the machine lookup returns an error, the result is
`ErrMachineNotFound`. (3) Otherwise, if the machine's `RunningState` is not stopped, the
result is `ErrMachineNotAvailable`, whatever the program. (4) Otherwise, if the machine's
type is not in the program's compatibility list, the result is `ErrIncompatibleProgram`. -/
theorem TransferProgram_gate_order {σ : Type} (programRepo : NCProgramRepository σ)
    (machineRepo : MachineRepository σ) (now1 now2 : Time)
    (programID : NCProgramID) (machineID : MachineID) (s : σ) :
    (∀ (p : Option NCProgram) (e : Error) (s1 : σ),
      programRepo.FindByID programID s = ((p, some e), s1) →
      (TransferProgram programRepo machineRepo now1 now2 programID machineID s).result
        = Outcome.returned (some Error.ErrNCProgramNotFound) ∧
      (TransferProgram programRepo machineRepo now1 now2 programID machineID s).calls
        = [RepoCall.ProgramFindByID programID] ∧
      ∀ id, RepoCall.MachineFindByID id ∉
        (TransferProgram programRepo machineRepo now1 now2 programID machineID s).calls) ∧
    (∀ (p : Option NCProgram) (s1 : σ) (m : Option Machine) (e : Error) (s2 : σ),
      programRepo.FindByID programID s = ((p, none), s1) →
      machineRepo.FindByID machineID s1 = ((m, some e), s2) →
      (TransferProgram programRepo machineRepo now1 now2 programID machineID s).result
        = Outcome.returned (some Error.ErrMachineNotFound)) ∧
    (∀ (p : Option NCProgram) (s1 : σ) (m : Machine) (s2 : σ),
      programRepo.FindByID programID s = ((p, none), s1) →
      machineRepo.FindByID machineID s1 = ((some m, none), s2) →
      m.Status.RunningState ≠ StateStopped →
      (TransferProgram programRepo machineRepo now1 now2 programID machineID s).result
        = Outcome.returned (some Error.ErrMachineNotAvailable)) ∧
    (∀ (p : NCProgram) (s1 : σ) (m : Machine) (s2 : σ),
      programRepo.FindByID programID s = ((some p, none), s1) →
      machineRepo.FindByID machineID s1 = ((some m, none), s2) →
      m.Status.RunningState = StateStopped →
      m.MachineType ∉ p.MachineCompatibility →
      (TransferProgram programRepo machineRepo now1 now2 programID machineID s).result
        = Outcome.returned (some Error.ErrIncompatibleProgram)) := by
  refine ⟨?_, ?_, ?_, ?_⟩
  · intro p e s1 hp
    simp [TransferProgram, hp]
  · intro p s1 m e s2 hp hm
    simp [TransferProgram, hp, hm]
  · intro p s1 m s2 hp hm hr
    simp [TransferProgram, hp, hm, IsAvailable, hr]
  · intro p s1 m s2 hp hm hr hc
    have hc' : IsCompatibleWith p m.MachineType = false := by
      rw [← Bool.not_eq_true, IsCompatibleWith_eq_true_iff]
      exact hc
    simp [TransferProgram, hp, hm, IsAvailable, hr, hc']

/-- Witness of C10, on the sample store: an unknown program, a known program with an
unknown machine, the running lathe, and the stopped mill for a lathe-only program. -/
theorem TransferProgram_gate_order_witness :
    (TransferProgram memProgramRepo memMachineRepo ⟨70⟩ ⟨71⟩ "ncprog-none" "m-mill"
        sampleStore).result = Outcome.returned (some Error.ErrNCProgramNotFound) ∧
    (TransferProgram memProgramRepo memMachineRepo ⟨70⟩ ⟨71⟩ "ncprog-abc" "m-none"
        sampleStore).result = Outcome.returned (some Error.ErrMachineNotFound) ∧
    (TransferProgram memProgramRepo memMachineRepo ⟨70⟩ ⟨71⟩ "ncprog-abc" "m-lathe"
        sampleStore).result = Outcome.returned (some Error.ErrMachineNotAvailable) ∧
    (TransferProgram memProgramRepo memMachineRepo ⟨70⟩ ⟨71⟩ "ncprog-abc" "m-mill"
        sampleStore).result = Outcome.returned (some Error.ErrIncompatibleProgram) :=
  ⟨((TransferProgram_gate_order memProgramRepo memMachineRepo ⟨70⟩ ⟨71⟩ "ncprog-none" "m-mill"
      sampleStore).1 none Error.ErrNCProgramNotFound sampleStore rfl).1,
    (TransferProgram_gate_order memProgramRepo memMachineRepo ⟨70⟩ ⟨71⟩ "ncprog-abc" "m-none"
      sampleStore).2.1 (some sampleProgram) sampleStore none Error.ErrMachineNotFound
      sampleStore rfl rfl,
    (TransferProgram_gate_order memProgramRepo memMachineRepo ⟨70⟩ ⟨71⟩ "ncprog-abc" "m-lathe"
      sampleStore).2.2.1 (some sampleProgram) sampleStore sampleLathe sampleStore rfl rfl
      (by decide),
    (TransferProgram_gate_order memProgramRepo memMachineRepo ⟨70⟩ ⟨71⟩ "ncprog-abc" "m-mill"
      sampleStore).2.2.2 sampleProgram sampleStore sampleMill sampleStore rfl rfl rfl
      (by decide)⟩

/-- What `TransferProgram` does when both lookups succeed, the machine is stopped and its
type is in the program's list: it writes the started machine and returns what `Update`
returns. -/
theorem TransferProgram_of_gates_passed {σ : Type} (programRepo : NCProgramRepository σ)
    (machineRepo : MachineRepository σ) (now1 now2 : Time)
    (programID : NCProgramID) (machineID : MachineID) (s : σ)
    (p : NCProgram) (s1 : σ) (m : Machine) (s2 : σ)
    (hp : programRepo.FindByID programID s = ((some p, none), s1))
    (hm : machineRepo.FindByID machineID s1 = ((some m, none), s2))
    (hr : m.Status.RunningState = StateStopped)
    (hc : m.MachineType ∈ p.MachineCompatibility) :
    (TransferProgram programRepo machineRepo now1 now2 programID machineID s).calls
      = [RepoCall.ProgramFindByID programID, RepoCall.MachineFindByID machineID,
          RepoCall.MachineUpdate (StartJob now1 now2 programID m)] ∧
    (TransferProgram programRepo machineRepo now1 now2 programID machineID s).result
      = Outcome.returned (machineRepo.Update (StartJob now1 now2 programID m) s2).1 ∧
    (TransferProgram programRepo machineRepo now1 now2 programID machineID s).state
      = (machineRepo.Update (StartJob now1 now2 programID m) s2).2 := by
  have hc' : IsCompatibleWith p m.MachineType = true :=
    (IsCompatibleWith_eq_true_iff p m.MachineType).mpr hc
  rcases hu : machineRepo.Update (StartJob now1 now2 programID m) s2 with ⟨e, s3⟩
  cases e <;> simp [TransferProgram, hp, hm, IsAvailable, hr, hc', hu]

/-- Unless both lookups succeed, the machine is stopped and its type is in the program's
list, `TransferProgram` makes no `Update` call and does not return nil. -/
theorem TransferProgram_of_gate_failed {σ : Type} (programRepo : NCProgramRepository σ)
    (machineRepo : MachineRepository σ) (now1 now2 : Time)
    (programID : NCProgramID) (machineID : MachineID) (s : σ)
    (h : ¬ ∃ (p : NCProgram) (s1 : σ) (m : Machine) (s2 : σ),
      programRepo.FindByID programID s = ((some p, none), s1) ∧
      machineRepo.FindByID machineID s1 = ((some m, none), s2) ∧
      m.Status.RunningState = StateStopped ∧
      m.MachineType ∈ p.MachineCompatibility) :
    (∀ m', RepoCall.MachineUpdate m' ∉
      (TransferProgram programRepo machineRepo now1 now2 programID machineID s).calls) ∧
    (TransferProgram programRepo machineRepo now1 now2 programID machineID s).result
      ≠ Outcome.returned none := by
  rcases hp : programRepo.FindByID programID s with ⟨⟨p, e⟩, s1⟩
  cases e with
  | some e => simp [TransferProgram, hp]
  | none =>
    rcases hm : machineRepo.FindByID machineID s1 with ⟨⟨m, e'⟩, s2⟩
    cases e' with
    | some e' => simp [TransferProgram, hp, hm]
    | none =>
      cases m with
      | none => simp [TransferProgram, hp, hm]
      | some m =>
        by_cases hr : m.Status.RunningState = StateStopped
        · cases p with
          | none => simp [TransferProgram, hp, hm, IsAvailable, hr]
          | some p =>
            have hc : IsCompatibleWith p m.MachineType = false := by
              rw [← Bool.not_eq_true, IsCompatibleWith_eq_true_iff]
              exact fun hc => h ⟨p, s1, m, s2, hp, hm, hr, hc⟩
            simp [TransferProgram, hp, hm, IsAvailable, hr, hc]
        · simp [TransferProgram, hp, hm, IsAvailable, hr]

/-- C11 (as amended): for a program and a machine that are both found, with the machine's
type absent from the program's compatibility list, `TransferProgram` fails with
`ErrIncompatibleProgram` when the machine's `RunningState` is stopped, and with
`ErrMachineNotAvailable` when it is anything else (running, error): availability is
checked before compatibility. -/
theorem TransferProgram_incompatible_by_availability {σ : Type}
    (programRepo : NCProgramRepository σ) (machineRepo : MachineRepository σ)
    (now1 now2 : Time) (programID : NCProgramID) (machineID : MachineID) (s : σ)
    (p : NCProgram) (s1 : σ) (m : Machine) (s2 : σ)
    (hp : programRepo.FindByID programID s = ((some p, none), s1))
    (hm : machineRepo.FindByID machineID s1 = ((some m, none), s2))
    (hc : m.MachineType ∉ p.MachineCompatibility) :
    (m.Status.RunningState = StateStopped →
      (TransferProgram programRepo machineRepo now1 now2 programID machineID s).result
        = Outcome.returned (some Error.ErrIncompatibleProgram)) ∧
    (m.Status.RunningState ≠ StateStopped →
      (TransferProgram programRepo machineRepo now1 now2 programID machineID s).result
        = Outcome.returned (some Error.ErrMachineNotAvailable)) := by
  have hc' : IsCompatibleWith p m.MachineType = false := by
    rw [← Bool.not_eq_true, IsCompatibleWith_eq_true_iff]
    exact hc
  constructor
  · intro hr
    simp [TransferProgram, hp, hm, IsAvailable, hr, hc']
  · intro hr
    simp [TransferProgram, hp, hm, IsAvailable, hr]

/-- Witness of C11 as amended, on the sample shop: the lathe-only program on the stopped
mill is incompatible; the mill-only program on the running lathe is refused as not
available. -/
theorem TransferProgram_incompatible_by_availability_witness :
    (TransferProgram memProgramRepo memMachineRepo ⟨70⟩ ⟨71⟩ "ncprog-abc" "m-mill"
        sampleShop).result = Outcome.returned (some Error.ErrIncompatibleProgram) ∧
    (TransferProgram memProgramRepo memMachineRepo ⟨70⟩ ⟨71⟩ "ncprog-mill" "m-lathe"
        sampleShop).result = Outcome.returned (some Error.ErrMachineNotAvailable) :=
  ⟨(TransferProgram_incompatible_by_availability memProgramRepo memMachineRepo ⟨70⟩ ⟨71⟩
      "ncprog-abc" "m-mill" sampleShop sampleProgram sampleShop sampleMill sampleShop
      rfl rfl (by decide)).1 rfl,
    (TransferProgram_incompatible_by_availability memProgramRepo memMachineRepo ⟨70⟩ ⟨71⟩
      "ncprog-mill" "m-lathe" sampleShop sampleMillProgram sampleShop sampleLathe sampleShop
      rfl rfl (by decide)).2 (by decide)⟩

/-- Counterexample to C11 as stated: the mill-only program and the running lathe are both
found in the sample shop and the lathe's type is absent from the program's list, yet
`TransferProgram` returns `ErrMachineNotAvailable`, not `ErrIncompatibleProgram`. -/
theorem TransferProgram_incompatible_running_counterexample :
    memProgramRepo.FindByID "ncprog-mill" sampleShop
      = ((some sampleMillProgram, none), sampleShop) ∧
    memMachineRepo.FindByID "m-lathe" sampleShop = ((some sampleLathe, none), sampleShop) ∧
    sampleLathe.MachineType ∉ sampleMillProgram.MachineCompatibility ∧
    sampleLathe.Status.RunningState = StateRunning ∧
    (TransferProgram memProgramRepo memMachineRepo ⟨70⟩ ⟨71⟩ "ncprog-mill" "m-lathe"
        sampleShop).result = Outcome.returned (some Error.ErrMachineNotAvailable) ∧
    (TransferProgram memProgramRepo memMachineRepo ⟨70⟩ ⟨71⟩ "ncprog-mill" "m-lathe"
        sampleShop).result ≠ Outcome.returned (some Error.ErrIncompatibleProgram) := by
  refine ⟨rfl, rfl, by decide, rfl, rfl, ?_⟩
  have h : (TransferProgram memProgramRepo memMachineRepo ⟨70⟩ ⟨71⟩ "ncprog-mill" "m-lathe"
      sampleShop).result = Outcome.returned (some Error.ErrMachineNotAvailable) := rfl
  rw [h]
  decide

/-- C12: `TransferProgram` calls the machine repository's `Update` exactly when the
program and the machine are both found, the machine's `RunningState` is stopped and its
type is in the program's compatibility list. It then makes that call once, as its last
repository call, with a machine whose `RunningState` is running, whose `CurrentJobID` is
the program id, and whose `ID`, `Name`, `IP`, type, `Capabilities` and `ErrorMessage` are
those of the loaded machine, and it returns exactly what `Update` returns: nil when
`Update` succeeds, `Update`'s error otherwise. It returns nil in no other case. -/
theorem TransferProgram_update_spec {σ : Type} (programRepo : NCProgramRepository σ)
    (machineRepo : MachineRepository σ) (now1 now2 : Time)
    (programID : NCProgramID) (machineID : MachineID) (s : σ) :
    ((∃ m', RepoCall.MachineUpdate m' ∈
        (TransferProgram programRepo machineRepo now1 now2 programID machineID s).calls) ↔
      ∃ (p : NCProgram) (s1 : σ) (m : Machine) (s2 : σ),
        programRepo.FindByID programID s = ((some p, none), s1) ∧
        machineRepo.FindByID machineID s1 = ((some m, none), s2) ∧
        m.Status.RunningState = StateStopped ∧
        m.MachineType ∈ p.MachineCompatibility) ∧
    (∀ (p : NCProgram) (s1 : σ) (m : Machine) (s2 : σ),
      programRepo.FindByID programID s = ((some p, none), s1) →
      machineRepo.FindByID machineID s1 = ((some m, none), s2) →
      m.Status.RunningState = StateStopped →
      m.MachineType ∈ p.MachineCompatibility →
      ∃ m' : Machine,
        (TransferProgram programRepo machineRepo now1 now2 programID machineID s).calls
          = [RepoCall.ProgramFindByID programID, RepoCall.MachineFindByID machineID,
              RepoCall.MachineUpdate m'] ∧
        m'.Status.RunningState = StateRunning ∧
        m'.Status.CurrentJobID = programID ∧
        m'.ID = m.ID ∧ m'.Name = m.Name ∧ m'.IP = m.IP ∧ m'.MachineType = m.MachineType ∧
        m'.Capabilities = m.Capabilities ∧
        m'.Status.ErrorMessage = m.Status.ErrorMessage ∧
        (TransferProgram programRepo machineRepo now1 now2 programID machineID s).result
          = Outcome.returned (machineRepo.Update m' s2).1 ∧
        (TransferProgram programRepo machineRepo now1 now2 programID machineID s).state
          = (machineRepo.Update m' s2).2) ∧
    ((TransferProgram programRepo machineRepo now1 now2 programID machineID s).result
        = Outcome.returned none ↔
      ∃ (p : NCProgram) (s1 : σ) (m : Machine) (s2 : σ),
        programRepo.FindByID programID s = ((some p, none), s1) ∧
        machineRepo.FindByID machineID s1 = ((some m, none), s2) ∧
        m.Status.RunningState = StateStopped ∧
        m.MachineType ∈ p.MachineCompatibility ∧
        (machineRepo.Update (StartJob now1 now2 programID m) s2).1 = none) := by
  refine ⟨⟨?_, ?_⟩, ?_, ⟨?_, ?_⟩⟩
  · rintro ⟨m', hm'⟩
    by_contra hn
    exact (TransferProgram_of_gate_failed programRepo machineRepo now1 now2 programID
      machineID s hn).1 m' hm'
  · rintro ⟨p, s1, m, s2, hp, hm, hr, hc⟩
    refine ⟨StartJob now1 now2 programID m, ?_⟩
    rw [(TransferProgram_of_gates_passed programRepo machineRepo now1 now2 programID machineID
      s p s1 m s2 hp hm hr hc).1]
    simp
  · intro p s1 m s2 hp hm hr hc
    obtain ⟨h1, h2, h3⟩ := TransferProgram_of_gates_passed programRepo machineRepo now1 now2
      programID machineID s p s1 m s2 hp hm hr hc
    exact ⟨StartJob now1 now2 programID m, h1, rfl, rfl, rfl, rfl, rfl, rfl, rfl, rfl, h2, h3⟩
  · intro hres
    by_contra hn
    apply (TransferProgram_of_gate_failed programRepo machineRepo now1 now2 programID
      machineID s ?_).2 hres
    rintro ⟨p, s1, m, s2, hp, hm, hr, hc⟩
    apply hn
    refine ⟨p, s1, m, s2, hp, hm, hr, hc, ?_⟩
    have h2 := (TransferProgram_of_gates_passed programRepo machineRepo now1 now2 programID
      machineID s p s1 m s2 hp hm hr hc).2.1
    rw [hres] at h2
    exact (Outcome.returned.inj h2).symm
  · rintro ⟨p, s1, m, s2, hp, hm, hr, hc, hu⟩
    rw [(TransferProgram_of_gates_passed programRepo machineRepo now1 now2 programID machineID
      s p s1 m s2 hp hm hr hc).2.1, hu]

/-- Witness of C12, on the sample shop: the mill-only program goes to the stopped mill
with one `Update` of the started mill and a nil result; on the running lathe no `Update`
is made. -/
theorem TransferProgram_update_spec_witness :
    (TransferProgram memProgramRepo memMachineRepo ⟨70⟩ ⟨71⟩ "ncprog-mill" "m-mill"
        sampleShop).result = Outcome.returned none ∧
    (∃ m', RepoCall.MachineUpdate m' ∈
      (TransferProgram memProgramRepo memMachineRepo ⟨70⟩ ⟨71⟩ "ncprog-mill" "m-mill"
        sampleShop).calls) ∧
    ¬ (∃ m', RepoCall.MachineUpdate m' ∈
      (TransferProgram memProgramRepo memMachineRepo ⟨70⟩ ⟨71⟩ "ncprog-any" "m-lathe"
        sampleShop).calls) :=
  ⟨(TransferProgram_update_spec memProgramRepo memMachineRepo ⟨70⟩ ⟨71⟩ "ncprog-mill" "m-mill"
      sampleShop).2.2.mpr
      ⟨sampleMillProgram, sampleShop, sampleMill, sampleShop, rfl, rfl, rfl, by decide, rfl⟩,
    (TransferProgram_update_spec memProgramRepo memMachineRepo ⟨70⟩ ⟨71⟩ "ncprog-mill" "m-mill"
      sampleShop).1.mpr
      ⟨sampleMillProgram, sampleShop, sampleMill, sampleShop, rfl, rfl, rfl, by decide⟩,
    fun h => by
      obtain ⟨p, s1, m, s2, hp, hm, hr, -⟩ :=
        (TransferProgram_update_spec memProgramRepo memMachineRepo ⟨70⟩ ⟨71⟩ "ncprog-any"
          "m-lathe" sampleShop).1.mp h
      have hp' : memProgramRepo.FindByID "ncprog-any" sampleShop
          = ((some sampleAnyProgram, none), sampleShop) := rfl
      have hs1 : s1 = sampleShop := by
        rw [hp'] at hp
        exact (congrArg Prod.snd hp).symm
      subst hs1
      have hm' : memMachineRepo.FindByID "m-lathe" sampleShop
          = ((some sampleLathe, none), sampleShop) := rfl
      have hmm : m = sampleLathe := by
        rw [hm'] at hm
        have := congrArg (fun x => x.1.1) hm
        simpa using this.symm
      subst hmm
      revert hr
      decide⟩

/-- C13 (as amended): `StartJob` is unconditional: on every machine and for every job id it
sets `RunningState` to running and `CurrentJobID` to that id, whatever they were. The
restriction to stopped machines is kept by its caller: a `TransferProgram` call whose
machine lookup returns a machine that is not stopped makes no `Update` call and leaves the
store as the lookups left it, so the stored `RunningState` and `CurrentJobID` stay as they
were. -/
theorem StartJob_unconditional_guarded_by_transfer :
    (∀ (now1 now2 : Time) (k : String) (m : Machine),
      (StartJob now1 now2 k m).Status.RunningState = StateRunning ∧
      (StartJob now1 now2 k m).Status.CurrentJobID = k) ∧
    (∀ (σ : Type) (programRepo : NCProgramRepository σ) (machineRepo : MachineRepository σ)
        (now1 now2 : Time) (programID : NCProgramID) (machineID : MachineID) (s : σ)
        (p : Option NCProgram) (s1 : σ) (m : Machine) (s2 : σ),
      programRepo.FindByID programID s = ((p, none), s1) →
      machineRepo.FindByID machineID s1 = ((some m, none), s2) →
      m.Status.RunningState ≠ StateStopped →
      (TransferProgram programRepo machineRepo now1 now2 programID machineID s).calls
        = [RepoCall.ProgramFindByID programID, RepoCall.MachineFindByID machineID] ∧
      (TransferProgram programRepo machineRepo now1 now2 programID machineID s).state = s2) := by
  refine ⟨fun _ _ _ _ => ⟨rfl, rfl⟩, ?_⟩
  intro σ programRepo machineRepo now1 now2 programID machineID s p s1 m s2 hp hm hr
  simp [TransferProgram, hp, hm, IsAvailable, hr]

/-- Witness of C13 as amended: `StartJob` on the running sample lathe, and a transfer to
that lathe in the sample shop, which writes nothing. -/
theorem StartJob_unconditional_guarded_by_transfer_witness :
    (StartJob ⟨80⟩ ⟨81⟩ "ncprog-new" sampleLathe).Status.RunningState = StateRunning ∧
    (StartJob ⟨80⟩ ⟨81⟩ "ncprog-new" sampleLathe).Status.CurrentJobID = "ncprog-new" ∧
    (TransferProgram memProgramRepo memMachineRepo ⟨70⟩ ⟨71⟩ "ncprog-any" "m-lathe"
        sampleShop).calls
      = [RepoCall.ProgramFindByID "ncprog-any", RepoCall.MachineFindByID "m-lathe"] ∧
    (TransferProgram memProgramRepo memMachineRepo ⟨70⟩ ⟨71⟩ "ncprog-any" "m-lathe"
        sampleShop).state = sampleShop :=
  ⟨(StartJob_unconditional_guarded_by_transfer.1 ⟨80⟩ ⟨81⟩ "ncprog-new" sampleLathe).1,
    (StartJob_unconditional_guarded_by_transfer.1 ⟨80⟩ ⟨81⟩ "ncprog-new" sampleLathe).2,
    (StartJob_unconditional_guarded_by_transfer.2 MemStore memProgramRepo memMachineRepo
      ⟨70⟩ ⟨71⟩ "ncprog-any" "m-lathe" sampleShop (some sampleAnyProgram) sampleShop
      sampleLathe sampleShop rfl rfl (by decide)).1,
    (StartJob_unconditional_guarded_by_transfer.2 MemStore memProgramRepo memMachineRepo
      ⟨70⟩ ⟨71⟩ "ncprog-any" "m-lathe" sampleShop (some sampleAnyProgram) sampleShop
      sampleLathe sampleShop rfl rfl (by decide)).2⟩

/-- Counterexample to C13 as stated: the sample lathe is running job `ncprog-zzz`, and
`StartJob "ncprog-new"` replaces that job. -/
theorem StartJob_replaces_running_job_counterexample :
    sampleLathe.Status.RunningState = StateRunning ∧
    sampleLathe.Status.CurrentJobID = "ncprog-zzz" ∧
    (StartJob ⟨80⟩ ⟨81⟩ "ncprog-new" sampleLathe).Status.CurrentJobID = "ncprog-new" ∧
    (StartJob ⟨80⟩ ⟨81⟩ "ncprog-new" sampleLathe).Status.CurrentJobID
      ≠ sampleLathe.Status.CurrentJobID := by
  refine ⟨rfl, rfl, rfl, ?_⟩
  decide

/-! ### Two transfer calls on one machine -/

/-- A call that takes its three steps alone ends with the result and the store of
`TransferProgram`: the step machine is the function cut at its repository calls. -/
theorem TransferProgram.step_thrice {σ : Type} (programRepo : NCProgramRepository σ)
    (machineRepo : MachineRepository σ) (now1 now2 : Time)
    (programID : NCProgramID) (machineID : MachineID) (s : σ) :
    let step := TransferProgram.step programRepo machineRepo now1 now2 programID machineID
    step (step (step TransferState.start s).1 (step TransferState.start s).2).1
        (step (step TransferState.start s).1 (step TransferState.start s).2).2
      = (TransferState.finished
          (TransferProgram programRepo machineRepo now1 now2 programID machineID s).result,
        (TransferProgram programRepo machineRepo now1 now2 programID machineID s).state) := by
  intro step
  rcases hp : programRepo.FindByID programID s with ⟨⟨p, e⟩, s1⟩
  cases e with
  | some e => simp [step, TransferProgram.step, TransferProgram, hp]
  | none =>
    rcases hm : machineRepo.FindByID machineID s1 with ⟨⟨m, e'⟩, s2⟩
    cases e' with
    | some e' => simp [step, TransferProgram.step, TransferProgram, hp, hm]
    | none =>
      cases m with
      | none => simp [step, TransferProgram.step, TransferProgram, hp, hm]
      | some m =>
        by_cases ha : IsAvailable m = true
        · cases p with
          | none => simp [step, TransferProgram.step, TransferProgram, hp, hm, ha]
          | some p =>
            by_cases hc : IsCompatibleWith p m.MachineType = true
            · rcases hu : machineRepo.Update (StartJob now1 now2 programID m) s2 with ⟨e, s3⟩
              cases e <;> simp [step, TransferProgram.step, TransferProgram, hp, hm, ha, hc, hu]
            · simp [step, TransferProgram.step, TransferProgram, hp, hm, ha, hc]
        · simp [step, TransferProgram.step, TransferProgram, hp, hm, ha]

/-- Looking a machine up by id in a list where the machine with that id was replaced. -/
theorem find_after_replace (l : List Machine) (id : MachineID) (m m' : Machine)
    (h : l.find? (fun x => x.ID == id) = some m) (hid : m'.ID = m.ID) :
    (l.map (fun x => if x.ID == m'.ID then m' else x)).find? (fun x => x.ID == id)
      = some m' := by
  have hm : m.ID = id := by
    have := List.find?_some h
    simpa using this
  induction l with
  | nil => simp at h
  | cons x xs ih =>
    by_cases hx : x.ID = id
    · simp [List.find?, hx, hid, hm]
    · have hx' : (x.ID == m'.ID) = false := by
        rw [hid, hm]
        exact beq_eq_false_iff_ne.mpr hx
      have hn : ¬ (fun y : Machine => y.ID == id) x = true := by simpa using hx
      rw [@List.find?_cons_of_neg Machine (fun y => y.ID == id) x xs hn] at h
      rw [List.map_cons, hx']
      simp only [Bool.false_eq_true, if_false]
      rw [@List.find?_cons_of_neg Machine (fun y => y.ID == id) x _ hn]
      exact ih h

/-- In the in-memory store a machine write does not disturb a program lookup. -/
theorem memProgramRepo_FindByID_after_update (s : MemStore) (id : NCProgramID)
    (p : NCProgram) (m' : Machine)
    (h : memProgramRepo.FindByID id s = ((some p, none), s)) :
    memProgramRepo.FindByID id (memMachineRepo.Update m' s).2
      = ((some p, none), (memMachineRepo.Update m' s).2) := by
  simp only [memProgramRepo, memMachineRepo] at h ⊢
  cases hf : s.programs.find? (fun p => p.ID == id) with
  | none => simp [hf] at h
  | some q =>
    simp only [hf] at h ⊢
    simp only [Prod.mk.injEq, Option.some.injEq, and_true] at h
    simp [h]

/-- In the in-memory store a machine lookup after a write of that machine returns what
was written. -/
theorem memMachineRepo_FindByID_after_update (s : MemStore) (id : MachineID)
    (m m' : Machine) (h : memMachineRepo.FindByID id s = ((some m, none), s))
    (hid : m'.ID = m.ID) :
    memMachineRepo.FindByID id (memMachineRepo.Update m' s).2
      = ((some m', none), (memMachineRepo.Update m' s).2) := by
  simp only [memMachineRepo] at h ⊢
  cases hf : s.machines.find? (fun x => x.ID == id) with
  | none => simp [hf] at h
  | some q =>
    simp only [hf] at h
    simp only [Prod.mk.injEq, Option.some.injEq, and_true] at h
    subst h
    simp only [find_after_replace s.machines id q m' hf hid]

/-- The first step of a call whose program lookup succeeds. -/
theorem TransferProgram.step_start {σ : Type} (programRepo : NCProgramRepository σ)
    (machineRepo : MachineRepository σ) (now1 now2 : Time)
    (programID : NCProgramID) (machineID : MachineID) (s s1 : σ) (p : Option NCProgram)
    (hp : programRepo.FindByID programID s = ((p, none), s1)) :
    TransferProgram.step programRepo machineRepo now1 now2 programID machineID
      TransferState.start s = (TransferState.programLoaded p, s1) := by
  simp [TransferProgram.step, hp]

/-- The second step of a call that loads a stopped machine of a compatible type. -/
theorem TransferProgram.step_loaded_passes {σ : Type} (programRepo : NCProgramRepository σ)
    (machineRepo : MachineRepository σ) (now1 now2 : Time)
    (programID : NCProgramID) (machineID : MachineID) (s s2 : σ) (p : NCProgram)
    (m : Machine) (hm : machineRepo.FindByID machineID s = ((some m, none), s2))
    (hr : m.Status.RunningState = StateStopped)
    (hc : m.MachineType ∈ p.MachineCompatibility) :
    TransferProgram.step programRepo machineRepo now1 now2 programID machineID
      (TransferState.programLoaded (some p)) s
      = (TransferState.machineStarted (StartJob now1 now2 programID m), s2) := by
  have hc' : IsCompatibleWith p m.MachineType = true :=
    (IsCompatibleWith_eq_true_iff p m.MachineType).mpr hc
  simp [TransferProgram.step, hm, IsAvailable, hr, hc']

/-- The second step of a call that loads a machine that is not stopped. -/
theorem TransferProgram.step_loaded_unavailable {σ : Type}
    (programRepo : NCProgramRepository σ) (machineRepo : MachineRepository σ)
    (now1 now2 : Time) (programID : NCProgramID) (machineID : MachineID) (s s2 : σ)
    (p : Option NCProgram) (m : Machine)
    (hm : machineRepo.FindByID machineID s = ((some m, none), s2))
    (hr : m.Status.RunningState ≠ StateStopped) :
    TransferProgram.step programRepo machineRepo now1 now2 programID machineID
      (TransferState.programLoaded p) s
      = (TransferState.finished (Outcome.returned (some Error.ErrMachineNotAvailable)), s2) := by
  simp [TransferProgram.step, hm, IsAvailable, hr]

/-- The third step of a call on the in-memory store: the write succeeds. -/
theorem TransferProgram.step_started_mem (now1 now2 : Time)
    (programID : NCProgramID) (machineID : MachineID) (s : MemStore) (m' : Machine) :
    TransferProgram.step memProgramRepo memMachineRepo now1 now2 programID machineID
      (TransferState.machineStarted m') s
      = (TransferState.finished (Outcome.returned none), (memMachineRepo.Update m' s).2) := by
  simp [TransferProgram.step, memMachineRepo]

/-- A finished call takes no further step. -/
theorem TransferProgram.step_finished {σ : Type} (programRepo : NCProgramRepository σ)
    (machineRepo : MachineRepository σ) (now1 now2 : Time)
    (programID : NCProgramID) (machineID : MachineID) (s : σ) (o : Outcome (Option Error)) :
    TransferProgram.step programRepo machineRepo now1 now2 programID machineID
      (TransferState.finished o) s = (TransferState.finished o, s) := rfl

/-- The running state is not the stopped state. -/
theorem stateRunning_ne_stopped : StateRunning ≠ StateStopped := by decide

/-- C14 (as amended): two `TransferProgram` calls A and B on the in-memory store, for
programs that are both registered and one machine that is stopped and compatible with
both. If A takes all its steps before B starts, A succeeds and B returns
`ErrMachineNotAvailable`; likewise with the roles exchanged. Nothing serialises the calls:
when they alternate step by step, so that both load the machine before either writes, both
succeed, and the store ends with the machine running B's program, the later write. -/
theorem two_transfers_on_one_machine (s : MemStore) (pA pB : NCProgramID) (mid : MachineID)
    (progA progB : NCProgram) (m : Machine) (a1 a2 b1 b2 : Time)
    (hA : memProgramRepo.FindByID pA s = ((some progA, none), s))
    (hB : memProgramRepo.FindByID pB s = ((some progB, none), s))
    (hM : memMachineRepo.FindByID mid s = ((some m, none), s))
    (hr : m.Status.RunningState = StateStopped)
    (hcA : m.MachineType ∈ progA.MachineCompatibility)
    (hcB : m.MachineType ∈ progB.MachineCompatibility) :
    ((interleave (TransferProgram.step memProgramRepo memMachineRepo a1 a2 pA mid)
          (TransferProgram.step memProgramRepo memMachineRepo b1 b2 pB mid)
          [false, false, false, true, true, true] TransferState.start TransferState.start s).1
        = TransferState.finished (Outcome.returned none) ∧
      (interleave (TransferProgram.step memProgramRepo memMachineRepo a1 a2 pA mid)
          (TransferProgram.step memProgramRepo memMachineRepo b1 b2 pB mid)
          [false, false, false, true, true, true] TransferState.start TransferState.start s).2.1
        = TransferState.finished (Outcome.returned (some Error.ErrMachineNotAvailable))) ∧
    ((interleave (TransferProgram.step memProgramRepo memMachineRepo a1 a2 pA mid)
          (TransferProgram.step memProgramRepo memMachineRepo b1 b2 pB mid)
          [true, true, true, false, false, false] TransferState.start TransferState.start s).1
        = TransferState.finished (Outcome.returned (some Error.ErrMachineNotAvailable)) ∧
      (interleave (TransferProgram.step memProgramRepo memMachineRepo a1 a2 pA mid)
          (TransferProgram.step memProgramRepo memMachineRepo b1 b2 pB mid)
          [true, true, true, false, false, false] TransferState.start TransferState.start s).2.1
        = TransferState.finished (Outcome.returned none)) ∧
    ((interleave (TransferProgram.step memProgramRepo memMachineRepo a1 a2 pA mid)
          (TransferProgram.step memProgramRepo memMachineRepo b1 b2 pB mid)
          [false, true, false, true, false, true] TransferState.start TransferState.start s).1
        = TransferState.finished (Outcome.returned none) ∧
      (interleave (TransferProgram.step memProgramRepo memMachineRepo a1 a2 pA mid)
          (TransferProgram.step memProgramRepo memMachineRepo b1 b2 pB mid)
          [false, true, false, true, false, true] TransferState.start TransferState.start s).2.1
        = TransferState.finished (Outcome.returned none) ∧
      (memMachineRepo.FindByID mid
          (interleave (TransferProgram.step memProgramRepo memMachineRepo a1 a2 pA mid)
            (TransferProgram.step memProgramRepo memMachineRepo b1 b2 pB mid)
            [false, true, false, true, false, true] TransferState.start TransferState.start
            s).2.2).1
        = (some (StartJob b1 b2 pB m), none)) := by
  have hrun : ∀ (t1 t2 : Time) (k : String),
      (StartJob t1 t2 k m).Status.RunningState ≠ StateStopped :=
    fun _ _ _ => stateRunning_ne_stopped
  -- the steps of A and of B on the initial store
  have a_1 := TransferProgram.step_start memProgramRepo memMachineRepo a1 a2 pA mid s s _ hA
  have b_1 := TransferProgram.step_start memProgramRepo memMachineRepo b1 b2 pB mid s s _ hB
  have a_2 := TransferProgram.step_loaded_passes memProgramRepo memMachineRepo a1 a2 pA mid
    s s progA m hM hr hcA
  have b_2 := TransferProgram.step_loaded_passes memProgramRepo memMachineRepo b1 b2 pB mid
    s s progB m hM hr hcB
  -- B after A has written
  have b_1' := TransferProgram.step_start memProgramRepo memMachineRepo b1 b2 pB mid _ _ _
    (memProgramRepo_FindByID_after_update s pB progB (StartJob a1 a2 pA m) hB)
  have b_2' := TransferProgram.step_loaded_unavailable memProgramRepo memMachineRepo b1 b2 pB
    mid _ _ (some progB) _
    (memMachineRepo_FindByID_after_update s mid m (StartJob a1 a2 pA m) hM rfl) (hrun a1 a2 pA)
  -- A after B has written
  have a_1' := TransferProgram.step_start memProgramRepo memMachineRepo a1 a2 pA mid _ _ _
    (memProgramRepo_FindByID_after_update s pA progA (StartJob b1 b2 pB m) hA)
  have a_2' := TransferProgram.step_loaded_unavailable memProgramRepo memMachineRepo a1 a2 pA
    mid _ _ (some progA) _
    (memMachineRepo_FindByID_after_update s mid m (StartJob b1 b2 pB m) hM rfl) (hrun b1 b2 pB)
  refine ⟨⟨?_, ?_⟩, ⟨?_, ?_⟩, ?_, ?_, ?_⟩
  · simp only [interleave, a_1, a_2, TransferProgram.step_started_mem, b_1', b_2',
      TransferProgram.step_finished]
  · simp only [interleave, a_1, a_2, TransferProgram.step_started_mem, b_1', b_2',
      TransferProgram.step_finished]
  · simp only [interleave, b_1, b_2, TransferProgram.step_started_mem, a_1', a_2',
      TransferProgram.step_finished]
  · simp only [interleave, b_1, b_2, TransferProgram.step_started_mem, a_1', a_2',
      TransferProgram.step_finished]
  · simp only [interleave, a_1, b_1, a_2, b_2, TransferProgram.step_started_mem]
  · simp only [interleave, a_1, b_1, a_2, b_2, TransferProgram.step_started_mem]
  · simp only [interleave, a_1, b_1, a_2, b_2, TransferProgram.step_started_mem]
    have h1 := memMachineRepo_FindByID_after_update s mid m (StartJob a1 a2 pA m) hM rfl
    have h2 := memMachineRepo_FindByID_after_update _ mid (StartJob a1 a2 pA m)
      (StartJob b1 b2 pB m) h1 rfl
    rw [h2]

/-- Witness of C14 as amended, on the sample shop: the mill-only program and the
lathe-and-mill program both target the stopped mill. -/
theorem two_transfers_on_one_machine_witness :
    (interleave (TransferProgram.step memProgramRepo memMachineRepo ⟨70⟩ ⟨71⟩ "ncprog-mill"
          "m-mill")
        (TransferProgram.step memProgramRepo memMachineRepo ⟨72⟩ ⟨73⟩ "ncprog-any" "m-mill")
        [false, false, false, true, true, true] TransferState.start TransferState.start
        sampleShop).1 = TransferState.finished (Outcome.returned none) ∧
    (interleave (TransferProgram.step memProgramRepo memMachineRepo ⟨70⟩ ⟨71⟩ "ncprog-mill"
          "m-mill")
        (TransferProgram.step memProgramRepo memMachineRepo ⟨72⟩ ⟨73⟩ "ncprog-any" "m-mill")
        [false, false, false, true, true, true] TransferState.start TransferState.start
        sampleShop).2.1
      = TransferState.finished (Outcome.returned (some Error.ErrMachineNotAvailable)) :=
  (two_transfers_on_one_machine sampleShop "ncprog-mill" "ncprog-any" "m-mill"
    sampleMillProgram sampleAnyProgram sampleMill ⟨70⟩ ⟨71⟩ ⟨72⟩ ⟨73⟩ rfl rfl rfl rfl
    (by decide) (by decide)).1

/-- Counterexample to C14 as stated: in the sample shop the mill is stopped and compatible
with both programs, and under the alternating interleaving both calls return nil. -/
theorem two_transfers_both_succeed_counterexample :
    sampleMill.Status.RunningState = StateStopped ∧
    sampleMill.MachineType ∈ sampleMillProgram.MachineCompatibility ∧
    sampleMill.MachineType ∈ sampleAnyProgram.MachineCompatibility ∧
    (interleave (TransferProgram.step memProgramRepo memMachineRepo ⟨70⟩ ⟨71⟩ "ncprog-mill"
          "m-mill")
        (TransferProgram.step memProgramRepo memMachineRepo ⟨72⟩ ⟨73⟩ "ncprog-any" "m-mill")
        [false, true, false, true, false, true] TransferState.start TransferState.start
        sampleShop).1 = TransferState.finished (Outcome.returned none) ∧
    (interleave (TransferProgram.step memProgramRepo memMachineRepo ⟨70⟩ ⟨71⟩ "ncprog-mill"
          "m-mill")
        (TransferProgram.step memProgramRepo memMachineRepo ⟨72⟩ ⟨73⟩ "ncprog-any" "m-mill")
        [false, true, false, true, false, true] TransferState.start TransferState.start
        sampleShop).2.1 = TransferState.finished (Outcome.returned none) := by
  refine ⟨rfl, by decide, by decide, rfl, rfl⟩

/-! ### Program selection -/

/-- The selection loop returns the first program of the list that is compatible. -/
theorem SelectOptimalProgram.loop_first (machineType : String) (l : List NCProgram)
    (i : Nat) (hi : i < l.length)
    (hc : machineType ∈ l[i].MachineCompatibility)
    (hlt : ∀ (j : Nat) (hj : j < l.length), j < i → machineType ∉ l[j].MachineCompatibility) :
    SelectOptimalProgram.loop machineType l = (some l[i], none) := by
  induction l generalizing i with
  | nil => simp at hi
  | cons q rest ih =>
    cases i with
    | zero =>
      have hq : IsCompatibleWith q machineType = true :=
        (IsCompatibleWith_eq_true_iff q machineType).mpr (by simpa using hc)
      simp [SelectOptimalProgram.loop, hq]
    | succ k =>
      have hq : IsCompatibleWith q machineType = false := by
        rw [← Bool.not_eq_true, IsCompatibleWith_eq_true_iff]
        simpa using hlt 0 (Nat.succ_pos _) (Nat.succ_pos k)
      have hk : k < rest.length := Nat.lt_of_succ_lt_succ hi
      have hrest := ih k hk (by simpa using hc)
        (fun j hj hjk => by
          have := hlt (j + 1) (Nat.succ_lt_succ hj) (Nat.succ_lt_succ hjk)
          simpa using this)
      simp [SelectOptimalProgram.loop, hq, hrest]

/-- The selection loop ends in `ErrNCProgramNotFound` exactly when no program of the list
is compatible, and then it returns no program. -/
theorem SelectOptimalProgram.loop_not_found (machineType : String) (l : List NCProgram) :
    ((SelectOptimalProgram.loop machineType l).2 = some Error.ErrNCProgramNotFound ↔
      ∀ p ∈ l, machineType ∉ p.MachineCompatibility) ∧
    ((∀ p ∈ l, machineType ∉ p.MachineCompatibility) →
      SelectOptimalProgram.loop machineType l = (none, some Error.ErrNCProgramNotFound)) := by
  induction l with
  | nil => simp [SelectOptimalProgram.loop]
  | cons q rest ih =>
    by_cases hq : IsCompatibleWith q machineType = true
    · have hmem := (IsCompatibleWith_eq_true_iff q machineType).mp hq
      simp [SelectOptimalProgram.loop, hq, hmem]
    · have hmem : machineType ∉ q.MachineCompatibility :=
        fun h => hq ((IsCompatibleWith_eq_true_iff q machineType).mpr h)
      simp only [SelectOptimalProgram.loop, hq, Bool.false_eq_true, if_false, List.mem_cons,
        forall_eq_or_imp, hmem, not_false_eq_true, true_and]
      exact ih

/-- C15: when `FindAll` returns a list of programs, `SelectOptimalProgram` returns the
program of lowest index whose compatibility list contains `machineType`; its error is
`ErrNCProgramNotFound` exactly when no program of the list (the empty list included) is
compatible, and then no program is returned; and the whole run is the same for every
`partID`. -/
theorem SelectOptimalProgram_first_compatible {σ : Type} (programRepo : NCProgramRepository σ)
    (partID machineType : String) (s s1 : σ) (programs : List NCProgram)
    (hf : programRepo.FindAll s = ((programs, none), s1)) :
    (∀ (i : Nat) (hi : i < programs.length),
      machineType ∈ programs[i].MachineCompatibility →
      (∀ (j : Nat) (hj : j < programs.length), j < i →
        machineType ∉ programs[j].MachineCompatibility) →
      (SelectOptimalProgram programRepo partID machineType s).result
        = (some programs[i], none)) ∧
    ((SelectOptimalProgram programRepo partID machineType s).result.2
        = some Error.ErrNCProgramNotFound ↔
      ∀ p ∈ programs, machineType ∉ p.MachineCompatibility) ∧
    ((∀ p ∈ programs, machineType ∉ p.MachineCompatibility) →
      (SelectOptimalProgram programRepo partID machineType s).result
        = (none, some Error.ErrNCProgramNotFound)) ∧
    (∀ partID' : String,
      SelectOptimalProgram programRepo partID' machineType s
        = SelectOptimalProgram programRepo partID machineType s) := by
  have hres : (SelectOptimalProgram programRepo partID machineType s).result
      = SelectOptimalProgram.loop machineType programs := by
    simp [SelectOptimalProgram, hf]
  refine ⟨?_, ?_, ?_, fun _ => rfl⟩
  · intro i hi hc hlt
    rw [hres]
    exact SelectOptimalProgram.loop_first machineType programs i hi hc hlt
  · rw [hres]
    exact (SelectOptimalProgram.loop_not_found machineType programs).1
  · rw [hres]
    exact (SelectOptimalProgram.loop_not_found machineType programs).2

/-- Witness of C15, on the sample shop, whose programs are lathe-only, mill-only and
lathe-and-mill in that order: a mill gets the program at index 1, not the one at index 2,
and a grinder gets `ErrNCProgramNotFound`. -/
theorem SelectOptimalProgram_first_compatible_witness :
    (SelectOptimalProgram memProgramRepo "part-7" "mill" sampleShop).result
      = (some sampleMillProgram, none) ∧
    (SelectOptimalProgram memProgramRepo "part-7" "grinder" sampleShop).result
      = (none, some Error.ErrNCProgramNotFound) :=
  ⟨(SelectOptimalProgram_first_compatible memProgramRepo "part-7" "mill" sampleShop sampleShop
      [sampleProgram, sampleMillProgram, sampleAnyProgram] rfl).1 1 (by decide) (by decide)
      (by decide),
    (SelectOptimalProgram_first_compatible memProgramRepo "part-7" "grinder" sampleShop
      sampleShop [sampleProgram, sampleMillProgram, sampleAnyProgram] rfl).2.2.1 (by decide)⟩

/-- C16, the code at the failing input: with a program repository, or a machine
repository, whose lookup fails with the storage error "connection refused",
`TransferProgram` returns `ErrNCProgramNotFound`, respectively `ErrMachineNotFound`, and
not the storage error. -/
theorem TransferProgram_masks_storage_failure :
    (unreachableProgramRepo.FindByID "ncprog-mill" sampleShop).1
      = (none, some (Error.Storage "connection refused")) ∧
    (TransferProgram unreachableProgramRepo memMachineRepo ⟨70⟩ ⟨71⟩ "ncprog-mill" "m-mill"
        sampleShop).result = Outcome.returned (some Error.ErrNCProgramNotFound) ∧
    (unreachableMachineRepo.FindByID "m-mill" sampleShop).1
      = (none, some (Error.Storage "connection refused")) ∧
    (TransferProgram memProgramRepo unreachableMachineRepo ⟨70⟩ ⟨71⟩ "ncprog-mill" "m-mill"
        sampleShop).result = Outcome.returned (some Error.ErrMachineNotFound) ∧
    Error.Storage "connection refused" ≠ Error.ErrNCProgramNotFound ∧
    Error.Storage "connection refused" ≠ Error.ErrMachineNotFound := by
  refine ⟨rfl, rfl, rfl, rfl, ?_, ?_⟩ <;> exact fun h => Error.noConfusion h

end NC

/-! ## Theorems: float64 rounding -/

namespace Float64

/-- An integer is its own nearest integer. -/
theorem rne_intCast (n : ℤ) : rne (n : ℚ) = n := by
  simp [rne]

/-- The nearest integer is the floor or the one above it. -/
theorem rne_floor_or (x : ℚ) : rne x = ⌊x⌋ ∨ rne x = ⌊x⌋ + 1 := by
  unfold rne; split_ifs <;> simp

/-- Rounding to the nearest integer keeps the order. -/
theorem rne_mono {x y : ℚ} (h : x ≤ y) : rne x ≤ rne y := by
  have hf : ⌊x⌋ ≤ ⌊y⌋ := Int.floor_mono h
  rcases lt_or_eq_of_le hf with hlt | heq
  · have h1 : rne x ≤ ⌊x⌋ + 1 := by rcases rne_floor_or x with h | h <;> omega
    have h2 : ⌊y⌋ ≤ rne y := by rcases rne_floor_or y with h | h <;> omega
    omega
  · unfold rne
    rw [← heq]
    have hxy : x - ⌊x⌋ ≤ y - ⌊x⌋ := by linarith
    split_ifs <;> first | omega | (exfalso; linarith)

/-- Rounding to the nearest integer, ties to even, is symmetric about zero. -/
theorem rne_neg (x : ℚ) : rne (-x) = -rne x := by
  by_cases hx : (⌊x⌋ : ℚ) = x
  · rw [← hx, ← Int.cast_neg, rne_intCast, rne_intCast]
  · have hlt : (⌊x⌋ : ℚ) < x := lt_of_le_of_ne (Int.floor_le x) hx
    have hfl : ⌊-x⌋ = -⌊x⌋ - 1 := by
      rw [Int.floor_eq_iff]
      have := Int.lt_floor_add_one x
      push_cast
      constructor <;> linarith
    unfold rne
    rw [hfl]
    push_cast
    split_ifs <;> first | omega | (exfalso; linarith)

/-- The nearest integer is at most one half away. -/
theorem abs_rne_sub_le (x : ℚ) : |(rne x : ℚ) - x| ≤ 1 / 2 := by
  have h1 := Int.floor_le x
  have h2 := Int.lt_floor_add_one x
  unfold rne
  rw [abs_le]
  split_ifs <;> push_cast <;> constructor <;> linarith

/-- An integer less than one half away is the nearest one. -/
theorem rne_eq_of_abs_sub_lt {x : ℚ} {n : ℤ} (h : |x - n| < 1 / 2) : rne x = n := by
  rw [abs_lt] at h
  have h3 := abs_rne_sub_le x
  rw [abs_le] at h3
  have b1 : ((rne x : ℤ) : ℚ) - n < 1 := by linarith [h.1, h.2, h3.1, h3.2]
  have b2 : (n : ℚ) - (rne x : ℤ) < 1 := by linarith [h.1, h.2, h3.1, h3.2]
  have a1 : rne x - n < 1 := by exact_mod_cast b1
  have a2 : n - rne x < 1 := by exact_mod_cast b2
  omega

/-- Powers of two are positive. -/
theorem two_zpow_pos (k : ℤ) : (0 : ℚ) < 2 ^ k := zpow_pos (by norm_num) k

/-- The unit in the last place does not depend on the sign. -/
theorem ulpExp_neg (x : ℚ) : ulpExp (-x) = ulpExp x := by
  simp [ulpExp]

/-- Rounding is symmetric about zero. -/
theorem roundQ_neg (x : ℚ) : roundQ (-x) = -roundQ x := by
  unfold roundQ
  rw [ulpExp_neg, neg_div, rne_neg]
  push_cast
  ring

/-- Rounding keeps the sign. -/
theorem roundQ_nonneg {x : ℚ} (h : 0 ≤ x) : 0 ≤ roundQ x := by
  unfold roundQ
  have h1 : (0 : ℚ) ≤ x / 2 ^ ulpExp x := div_nonneg h (two_zpow_pos _).le
  have h2 : rne ((0 : ℤ) : ℚ) ≤ rne (x / 2 ^ ulpExp x) := rne_mono (by simpa using h1)
  rw [rne_intCast] at h2
  have h3 : (0 : ℚ) ≤ (rne (x / 2 ^ ulpExp x) : ℚ) := by exact_mod_cast h2
  exact mul_nonneg h3 (two_zpow_pos _).le

/-- A value at most a multiple of the unit in the last place rounds to at most it. -/
theorem roundQ_le_mul {x : ℚ} {n : ℤ} (h : x ≤ n * 2 ^ ulpExp x) :
    roundQ x ≤ n * 2 ^ ulpExp x := by
  unfold roundQ
  have h1 : x / 2 ^ ulpExp x ≤ (n : ℚ) := by
    rw [div_le_iff₀ (two_zpow_pos _)]; exact h
  have h2 := rne_mono h1
  rw [rne_intCast] at h2
  have h3 : (rne (x / 2 ^ ulpExp x) : ℚ) ≤ (n : ℚ) := by exact_mod_cast h2
  exact mul_le_mul_of_nonneg_right h3 (two_zpow_pos _).le

/-- A value at least a multiple of the unit in the last place rounds to at least it. -/
theorem mul_le_roundQ {x : ℚ} {n : ℤ} (h : n * 2 ^ ulpExp x ≤ x) :
    n * 2 ^ ulpExp x ≤ roundQ x := by
  unfold roundQ
  have h1 : (n : ℚ) ≤ x / 2 ^ ulpExp x := by
    rw [le_div_iff₀ (two_zpow_pos _)]; exact h
  have h2 := rne_mono h1
  rw [rne_intCast] at h2
  have h3 : (n : ℚ) ≤ (rne (x / 2 ^ ulpExp x) : ℚ) := by exact_mod_cast h2
  exact mul_le_mul_of_nonneg_right h3 (two_zpow_pos _).le

/-- A power of two at or above the unit in the last place is a multiple of it. -/
theorem two_zpow_eq_mul {k u : ℤ} (h : u ≤ k) :
    ∃ n : ℤ, (2 : ℚ) ^ k = n * 2 ^ u := by
  obtain ⟨m, hm⟩ := Int.eq_ofNat_of_zero_le (sub_nonneg.mpr h)
  refine ⟨2 ^ m, ?_⟩
  have hk : k = (m : ℤ) + u := by omega
  rw [hk, zpow_add₀ (by norm_num : (2 : ℚ) ≠ 0)]
  push_cast
  simp [zpow_natCast]

/-- A value at most a power of two of its own binade or above rounds to at most it. -/
theorem roundQ_le_two_zpow {x : ℚ} {k : ℤ} (hk : ulpExp x ≤ k) (h : x ≤ 2 ^ k) :
    roundQ x ≤ 2 ^ k := by
  obtain ⟨n, hn⟩ := two_zpow_eq_mul hk
  rw [hn] at h ⊢
  exact roundQ_le_mul h

/-- A value at least a power of two down to its unit in the last place rounds to at least it. -/
theorem two_zpow_le_roundQ {x : ℚ} {k : ℤ} (hk : ulpExp x ≤ k) (h : 2 ^ k ≤ x) :
    2 ^ k ≤ roundQ x := by
  obtain ⟨n, hn⟩ := two_zpow_eq_mul hk
  rw [hn] at h ⊢
  exact mul_le_roundQ h

/-- Rounding keeps the order, for positive values. -/
theorem roundQ_mono_of_pos {x y : ℚ} (hx : 0 < x) (h : x ≤ y) : roundQ x ≤ roundQ y := by
  have hy : 0 < y := lt_of_lt_of_le hx h
  have hlog : Int.log 2 x ≤ Int.log 2 y := Int.log_mono_right hx h
  have hux : ulpExp x = max (Int.log 2 x - 52) (-1074) := by
    unfold ulpExp; rw [abs_of_pos hx]
  have huy : ulpExp y = max (Int.log 2 y - 52) (-1074) := by
    unfold ulpExp; rw [abs_of_pos hy]
  have hu : ulpExp x ≤ ulpExp y := by rw [hux, huy]; omega
  rcases eq_or_lt_of_le hu with heq | hlt
  · unfold roundQ
    rw [← heq]
    have h1 : x / 2 ^ ulpExp x ≤ y / 2 ^ ulpExp x :=
      div_le_div_of_nonneg_right h (two_zpow_pos _).le
    have h3 : (rne (x / 2 ^ ulpExp x) : ℚ) ≤ (rne (y / 2 ^ ulpExp x) : ℚ) := by
      exact_mod_cast rne_mono h1
    exact mul_le_mul_of_nonneg_right h3 (two_zpow_pos _).le
  · have hlt2 : Int.log 2 x + 1 ≤ Int.log 2 y := by rw [hux, huy] at hlt; omega
    have hk1 : ulpExp x ≤ Int.log 2 y := by rw [hux, huy] at hlt; rw [hux]; omega
    have hk2 : ulpExp y ≤ Int.log 2 y := by rw [hux, huy] at hlt; rw [huy]; omega
    have hxle : x ≤ 2 ^ Int.log 2 y := by
      have h1 : x < (2 : ℚ) ^ (Int.log 2 x + 1) := by
        exact_mod_cast Int.lt_zpow_succ_log_self (by norm_num : 1 < 2) x
      have h2 : (2 : ℚ) ^ (Int.log 2 x + 1) ≤ 2 ^ Int.log 2 y :=
        zpow_le_zpow_right₀ (by norm_num) hlt2
      linarith
    have hyge : (2 : ℚ) ^ Int.log 2 y ≤ y := by
      exact_mod_cast Int.zpow_log_le_self (by norm_num : 1 < 2) hy
    exact le_trans (roundQ_le_two_zpow hk1 hxle) (two_zpow_le_roundQ hk2 hyge)

/-- Rounding to the nearest float64 keeps the order. -/
theorem roundQ_mono {x y : ℚ} (h : x ≤ y) : roundQ x ≤ roundQ y := by
  rcases lt_or_le 0 x with hx | hx
  · exact roundQ_mono_of_pos hx h
  · rcases le_or_lt 0 y with hy | hy
    · have h1 : 0 ≤ roundQ (-x) := roundQ_nonneg (by linarith)
      rw [roundQ_neg] at h1
      have h2 := roundQ_nonneg hy
      linarith
    · have h1 : roundQ (-y) ≤ roundQ (-x) := roundQ_mono_of_pos (by linarith) (by linarith)
      rw [roundQ_neg, roundQ_neg] at h1
      linarith


/-- Zero is a float64. -/
theorem roundQ_zero : roundQ 0 = 0 := by
  simp [roundQ, rne]

/-- The binary exponent of a value, from its binade. -/
theorem log_abs_eq {x : ℚ} {e : ℤ} (h1 : 2 ^ e ≤ |x|) (h2 : |x| < 2 ^ (e + 1)) :
    Int.log 2 |x| = e := by
  have hpos : 0 < |x| := lt_of_lt_of_le (two_zpow_pos e) h1
  have a1 : e ≤ Int.log 2 |x| := by
    rw [← Int.zpow_le_iff_le_log (by norm_num : 1 < 2) hpos]; exact_mod_cast h1
  have a2 : Int.log 2 |x| < e + 1 := by
    rw [← Int.lt_zpow_iff_log_lt (by norm_num : 1 < 2) hpos]; exact_mod_cast h2
  omega

/-- The float64 nearest to a value of the normal range, from its binade and the nearest
integer multiple of the unit in the last place. -/
theorem roundQ_eq {x : ℚ} (e n : ℤ) (he : -1022 ≤ e) (h1 : 2 ^ e ≤ |x|)
    (h2 : |x| < 2 ^ (e + 1)) (hn : |x / 2 ^ (e - 52) - n| < 1 / 2) :
    roundQ x = n * 2 ^ (e - 52) := by
  have hu : ulpExp x = e - 52 := by
    unfold ulpExp; rw [log_abs_eq h1 h2]; omega
  unfold roundQ
  rw [hu, rne_eq_of_abs_sub_lt hn]

/-- A value with at most 53 significant bits above the least exponent is a float64. -/
theorem roundQ_of_representable (m k : ℤ) (hm : |m| < 2 ^ 53) (hk : -1074 ≤ k) :
    roundQ (m * 2 ^ k) = m * 2 ^ k := by
  rcases eq_or_ne m 0 with h0 | h0
  · subst h0; simp [roundQ_zero]
  · have hmq : |(m : ℚ)| < 2 ^ 53 := by exact_mod_cast hm
    have habs : |(m : ℚ) * 2 ^ k| = |(m : ℚ)| * 2 ^ k := by
      rw [abs_mul, abs_of_pos (two_zpow_pos k)]
    have hpos : 0 < |(m : ℚ) * 2 ^ k| := by
      rw [habs]; exact mul_pos (abs_pos.mpr (by exact_mod_cast h0)) (two_zpow_pos k)
    have hlt : |(m : ℚ) * 2 ^ k| < 2 ^ (53 + k) := by
      rw [habs, zpow_add₀ (by norm_num : (2 : ℚ) ≠ 0)]
      have e53 : (2 : ℚ) ^ (53 : ℤ) = 2 ^ 53 := by norm_num
      rw [e53]
      exact mul_lt_mul_of_pos_right hmq (two_zpow_pos k)
    have hlog : Int.log 2 |(m : ℚ) * 2 ^ k| < 53 + k := by
      rw [← Int.lt_zpow_iff_log_lt (by norm_num : 1 < 2) hpos]; exact_mod_cast hlt
    have hu : ulpExp ((m : ℚ) * 2 ^ k) ≤ k := by unfold ulpExp; omega
    obtain ⟨n, hn⟩ := two_zpow_eq_mul hu
    have hx : (m : ℚ) * 2 ^ k = ((m * n : ℤ) : ℚ) * 2 ^ ulpExp ((m : ℚ) * 2 ^ k) := by
      push_cast; rw [mul_assoc, ← hn]
    apply le_antisymm
    · calc roundQ ((m : ℚ) * 2 ^ k)
          ≤ ((m * n : ℤ) : ℚ) * 2 ^ ulpExp ((m : ℚ) * 2 ^ k) := roundQ_le_mul hx.le
        _ = (m : ℚ) * 2 ^ k := hx.symm
    · calc (m : ℚ) * 2 ^ k
          = ((m * n : ℤ) : ℚ) * 2 ^ ulpExp ((m : ℚ) * 2 ^ k) := hx
        _ ≤ roundQ ((m : ℚ) * 2 ^ k) := mul_le_roundQ hx.ge

/-- An integer below 2⁵³ in size is a float64. -/
theorem roundQ_intCast (m : ℤ) (hm : |m| < 2 ^ 53) : roundQ (m : ℚ) = m := by
  have := roundQ_of_representable m 0 hm (by norm_num)
  simpa using this

/-- The rounding error is at most half a unit in the last place. -/
theorem abs_roundQ_sub_le (x : ℚ) : |roundQ x - x| ≤ 2 ^ ulpExp x / 2 := by
  have h := abs_rne_sub_le (x / 2 ^ ulpExp x)
  have hp := two_zpow_pos (ulpExp x)
  have : roundQ x - x = ((rne (x / 2 ^ ulpExp x) : ℚ) - x / 2 ^ ulpExp x) * 2 ^ ulpExp x := by
    unfold roundQ; field_simp
  rw [this, abs_mul, abs_of_pos hp]
  calc |(rne (x / 2 ^ ulpExp x) : ℚ) - x / 2 ^ ulpExp x| * 2 ^ ulpExp x
      ≤ 1 / 2 * 2 ^ ulpExp x := mul_le_mul_of_nonneg_right h hp.le
    _ = 2 ^ ulpExp x / 2 := by ring

/-- In the normal range the rounding error is at most 2⁻⁵³ of the value. -/
theorem abs_roundQ_sub_le_mul {x : ℚ} (hx : 2 ^ (-1022 : ℤ) ≤ |x|) :
    |roundQ x - x| ≤ 2 ^ (-53 : ℤ) * |x| := by
  have hpos : 0 < |x| := lt_of_lt_of_le (two_zpow_pos _) hx
  have hlog : -1022 ≤ Int.log 2 |x| := by
    rw [← Int.zpow_le_iff_le_log (by norm_num : 1 < 2) hpos]; exact_mod_cast hx
  have hu : ulpExp x = Int.log 2 |x| - 52 := by unfold ulpExp; omega
  have hle : (2 : ℚ) ^ Int.log 2 |x| ≤ |x| := by
    exact_mod_cast Int.zpow_log_le_self (by norm_num : 1 < 2) hpos
  have h := abs_roundQ_sub_le x
  rw [hu] at h
  have e1 : (2 : ℚ) ^ (Int.log 2 |x| - 52) / 2 = 2 ^ (-53 : ℤ) * 2 ^ Int.log 2 |x| := by
    rw [show Int.log 2 |x| - 52 = Int.log 2 |x| + (-52) by ring,
      zpow_add₀ (by norm_num : (2 : ℚ) ≠ 0)]
    norm_num
    ring
  rw [e1] at h
  have : (2 : ℚ) ^ (-53 : ℤ) * 2 ^ Int.log 2 |x| ≤ 2 ^ (-53 : ℤ) * |x| :=
    mul_le_mul_of_nonneg_left hle (two_zpow_pos _).le
  linarith

/-- The largest finite float64 is positive. -/
theorem maxFinite_pos : 0 < maxFinite := by norm_num [maxFinite]

/-- A result whose rounding is within the finite range is that finite value. -/
theorem ofRat_of_le {x : ℚ} (h : |roundQ x| ≤ maxFinite) : ofRat x = fin (roundQ x) := by
  unfold ofRat
  rw [if_neg (not_lt.mpr h)]

/-- The float64 of a value of the normal range, from its binade and the nearest multiple
of the unit in the last place. -/
theorem ofRat_eq_fin {x : ℚ} (e n : ℤ) (he : -1022 ≤ e) (he2 : e ≤ 1023) (hn53 : |n| < 2 ^ 53)
    (h1 : 2 ^ e ≤ |x|) (h2 : |x| < 2 ^ (e + 1)) (hn : |x / 2 ^ (e - 52) - n| < 1 / 2) :
    ofRat x = fin (n * 2 ^ (e - 52)) := by
  have hr := roundQ_eq e n he h1 h2 hn
  have hle : |roundQ x| ≤ maxFinite := by
    rw [hr, abs_mul, abs_of_pos (two_zpow_pos _)]
    have a1 : |(n : ℚ)| ≤ 2 ^ 53 - 1 := by
      have : |n| ≤ 2 ^ 53 - 1 := by omega
      exact_mod_cast this
    have a2 : (2 : ℚ) ^ (e - 52) ≤ 2 ^ (971 : ℤ) :=
      zpow_le_zpow_right₀ (by norm_num) (by omega)
    have a3 : (2 : ℚ) ^ (971 : ℤ) = 2 ^ 971 := by norm_num
    rw [a3] at a2
    unfold maxFinite
    exact mul_le_mul a1 a2 (two_zpow_pos _).le (by norm_num)
  rw [ofRat_of_le hle, hr]

/-- The two comparisons of the band test on finite values: the rounded difference is finite and within the tolerance. -/
theorem band_iff (a b t : ℚ) :
    (ge (sub (fin a) (fin b)) (neg (fin t)) = true ∧ le (sub (fin a) (fin b)) (fin t) = true) ↔
      (|roundQ (a - b)| ≤ t ∧ |roundQ (a - b)| ≤ maxFinite) := by
  by_cases h : maxFinite < |roundQ (a - b)|
  · have hs : sub (fin a) (fin b) = inf (decide (a - b < 0)) := by
      simp [sub, ofRat, h]
    rw [hs]
    constructor
    · rintro ⟨h1, h2⟩
      simp [ge, le, neg] at h1 h2
      linarith
    · rintro ⟨-, h2⟩
      exact absurd h2 (not_le.mpr h)
  · have hs : sub (fin a) (fin b) = fin (roundQ (a - b)) := by
      simp [sub, ofRat, h]
    rw [hs]
    simp only [ge, le, neg, decide_eq_true_eq, abs_le]
    constructor
    · rintro ⟨h1, h2⟩
      exact ⟨⟨h1, h2⟩, abs_le.mp (not_lt.mp h)⟩
    · rintro ⟨⟨h1, h2⟩, -⟩
      exact ⟨h1, h2⟩

/-- A value within a float64 bound rounds to within it. -/
theorem abs_roundQ_le_of_abs_le {x t : ℚ} (ht : roundQ t = t) (h : |x| ≤ t) :
    |roundQ x| ≤ t := by
  rw [abs_le] at h ⊢
  constructor
  · have := roundQ_mono h.1
    rw [roundQ_neg, ht] at this
    exact this
  · have := roundQ_mono h.2
    rw [ht] at this
    exact this

/-- Below the normal range the unit in the last place is 2⁻¹⁰⁷⁴. -/
theorem ulpExp_of_lt {x : ℚ} (h0 : x ≠ 0) (h : |x| < 2 ^ (-1022 : ℤ)) : ulpExp x = -1074 := by
  have hpos : 0 < |x| := abs_pos.mpr h0
  have hlog : Int.log 2 |x| < -1022 := by
    rw [← Int.lt_zpow_iff_log_lt (by norm_num : 1 < 2) hpos]; exact_mod_cast h
  unfold ulpExp
  omega

/-- A value whose rounding is within `t` is itself within `t` widened by the rounding
error: a relative 2⁻⁵², or 2⁻¹⁰⁷⁵ in the subnormal range. -/
theorem abs_le_of_abs_roundQ_le {x t : ℚ} (h : |roundQ x| ≤ t) :
    |x| ≤ t * (1 + 2 ^ (-52 : ℤ)) + 2 ^ (-1075 : ℤ) := by
  have ht : 0 ≤ t := le_trans (abs_nonneg _) h
  have htri : |x| ≤ |roundQ x| + |roundQ x - x| := by
    have := abs_sub_abs_le_abs_sub x (roundQ x)
    rw [abs_sub_comm x (roundQ x)] at this
    linarith
  have e52 : (2 : ℚ) ^ (-52 : ℤ) = 1 / 4503599627370496 := by norm_num
  have e53 : (2 : ℚ) ^ (-53 : ℤ) = 1 / 9007199254740992 := by norm_num
  have p1075 : (0 : ℚ) < 2 ^ (-1075 : ℤ) := two_zpow_pos _
  rcases eq_or_ne x 0 with h0 | h0
  · subst h0
    simp only [abs_zero]
    rw [e52]
    positivity
  rcases le_or_lt ((2 : ℚ) ^ (-1022 : ℤ)) |x| with hbig | hsmall
  · have herr := abs_roundQ_sub_le_mul hbig
    rw [e53] at herr
    rw [e52]
    have hx : 0 ≤ |x| := abs_nonneg x
    nlinarith
  · have hu := ulpExp_of_lt h0 hsmall
    have herr := abs_roundQ_sub_le x
    rw [hu] at herr
    have e2 : (2 : ℚ) ^ (-1074 : ℤ) / 2 = 2 ^ (-1075 : ℤ) := by
      rw [show (-1074 : ℤ) = -1075 + 1 by norm_num, zpow_add₀ (by norm_num : (2 : ℚ) ≠ 0)]
      norm_num
    rw [e2] at herr
    rw [e52]
    have : 0 ≤ t * (1 / 4503599627370496) := by positivity
    generalize (2 : ℚ) ^ (-1075 : ℤ) = c at herr ⊢
    generalize |roundQ x - x| = d at herr htri
    generalize |roundQ x| = r at h htri
    linarith

/-- A NaN among the measured value, the target and the tolerance fails the band test. -/
theorem band_nan (x y z : Float64) (h : x = nan ∨ y = nan ∨ z = nan) :
    (ge (sub x y) (neg z) && le (sub x y) z) = false := by
  rcases h with h | h | h
  · subst h
    simp [sub, le, ge]
  · subst h
    cases x <;> simp [sub, le, ge]
  · subst h
    cases hs : sub x y <;> simp [le, ge, neg]

/-- One is a float64. -/
theorem roundQ_one : roundQ 1 = 1 := by
  have := roundQ_intCast 1 (by norm_num)
  simpa using this

/-- One hundred is a float64. -/
theorem roundQ_hundred : roundQ 100 = 100 := by
  have := roundQ_intCast 100 (by norm_num)
  simpa using this

/-- The literal 100. -/
theorem ofRat_hundred : ofRat 100 = fin 100 := by
  rw [ofRat_of_le (by rw [roundQ_hundred]; norm_num [maxFinite]), roundQ_hundred]

/-- Rounding keeps a value between two float64 values between them. -/
theorem roundQ_mem_Icc {x lo hi : ℚ} (hlo : roundQ lo = lo) (hhi : roundQ hi = hi)
    (h1 : lo ≤ x) (h2 : x ≤ hi) : lo ≤ roundQ x ∧ roundQ x ≤ hi := by
  constructor
  · have := roundQ_mono h1
    rwa [hlo] at this
  · have := roundQ_mono h2
    rwa [hhi] at this

/-- The conversion of a Go `int`, which is below 2⁶³ in size, is finite. -/
theorem ofInt_eq_fin (n : ℤ) (h : |n| ≤ 2 ^ 63) : ofInt n = fin (roundQ n) := by
  have h63 : roundQ ((2 : ℚ) ^ 63) = 2 ^ 63 := by
    have h := roundQ_of_representable 1 63 (by norm_num) (by norm_num)
    have e : (2 : ℚ) ^ (63 : ℤ) = 2 ^ 63 := by norm_num
    rwa [Int.cast_one, one_mul, e] at h
  have hq : |(n : ℚ)| ≤ 2 ^ 63 := by exact_mod_cast h
  have hle := abs_roundQ_le_of_abs_le h63 hq
  unfold ofInt
  exact ofRat_of_le (le_trans hle (by norm_num [maxFinite]))

/-- The conversion of an integer below 2⁵³ in size is exact. -/
theorem ofInt_of_lt (n : ℤ) (h : |n| < 2 ^ 53) : ofInt n = fin n := by
  rw [ofInt_eq_fin n (by omega), roundQ_intCast n h]

/-- The pass rate of `p` passed samples out of `n`, as the code computes it, is a finite
value between 0 and 100. -/
theorem passRate_bounds (p n : ℤ) (hp : 0 ≤ p) (hpn : p ≤ n) (hn : 0 < n) (hn63 : n ≤ 2 ^ 63) :
    ∃ r : ℚ, mul (div (ofInt p) (ofInt n)) (ofRat 100) = fin r ∧ 0 ≤ r ∧ r ≤ 100 := by
  have hP : ofInt p = fin (roundQ p) := ofInt_eq_fin p (by rw [abs_of_nonneg hp]; omega)
  have hN : ofInt n = fin (roundQ n) := ofInt_eq_fin n (by rw [abs_of_pos hn]; omega)
  have hpq : (0 : ℚ) ≤ (p : ℚ) := by exact_mod_cast hp
  have hpnq : (p : ℚ) ≤ (n : ℚ) := by exact_mod_cast hpn
  have hn1 : (1 : ℚ) ≤ (n : ℚ) := by exact_mod_cast hn
  have hP0 : 0 ≤ roundQ p := roundQ_nonneg hpq
  have hPN : roundQ p ≤ roundQ n := roundQ_mono hpnq
  have hN1 : 1 ≤ roundQ n := by
    have := roundQ_mono hn1
    rwa [roundQ_one] at this
  have hNne : roundQ (n : ℚ) ≠ 0 := by linarith
  have hq0 : 0 ≤ roundQ p / roundQ n := div_nonneg hP0 (by linarith)
  have hq1 : roundQ p / roundQ n ≤ 1 := by
    rw [div_le_one (by linarith)]; exact hPN
  obtain ⟨a0, a1⟩ := roundQ_mem_Icc roundQ_zero roundQ_one hq0 hq1
  have hdiv : div (ofInt p) (ofInt n) = fin (roundQ (roundQ p / roundQ n)) := by
    rw [hP, hN]
    simp only [div, hNne, if_false]
    apply ofRat_of_le
    rw [abs_of_nonneg a0]
    exact le_trans a1 (by norm_num [maxFinite])
  have hm0 : 0 ≤ roundQ (roundQ p / roundQ n) * 100 := by positivity
  have hm1 : roundQ (roundQ p / roundQ n) * 100 ≤ 100 := by linarith
  obtain ⟨b0, b1⟩ := roundQ_mem_Icc roundQ_zero roundQ_hundred hm0 hm1
  refine ⟨roundQ (roundQ (roundQ p / roundQ n) * 100), ?_, b0, b1⟩
  rw [hdiv, ofRat_hundred]
  simp only [mul]
  apply ofRat_of_le
  rw [abs_of_nonneg b0]
  exact le_trans b1 (by norm_num [maxFinite])

/-- For fewer than 2⁵³ samples the conversions are exact: the pass rate is the quotient
rounded, times 100, rounded again, within a relative 2⁻⁵¹ of `100·p/n`. -/
theorem passRate_eq (p n : ℤ) (hp : 0 ≤ p) (hpn : p ≤ n) (hn : 0 < n) (hn53 : n < 2 ^ 53) :
    mul (div (ofInt p) (ofInt n)) (ofRat 100) = fin (roundQ (roundQ ((p : ℚ) / n) * 100)) ∧
    |roundQ (roundQ ((p : ℚ) / n) * 100) - 100 * (p : ℚ) / n|
      ≤ 2 ^ (-51 : ℤ) * (100 * (p : ℚ) / n) := by
  have hP : roundQ (p : ℚ) = p := roundQ_intCast p (by rw [abs_of_nonneg hp]; omega)
  have hN : roundQ (n : ℚ) = n := roundQ_intCast n (by rw [abs_of_pos hn]; omega)
  obtain ⟨r, hr, -, -⟩ := passRate_bounds p n hp hpn hn (by omega)
  have hnq : (0 : ℚ) < (n : ℚ) := by exact_mod_cast hn
  have hform : mul (div (ofInt p) (ofInt n)) (ofRat 100)
      = ofRat (roundQ ((p : ℚ) / n) * 100) := by
    have hpq : (0 : ℚ) ≤ (p : ℚ) := by exact_mod_cast hp
    have hpnq : (p : ℚ) ≤ (n : ℚ) := by exact_mod_cast hpn
    have hq0 : 0 ≤ (p : ℚ) / n := div_nonneg hpq hnq.le
    have hq1 : (p : ℚ) / n ≤ 1 := by rw [div_le_one hnq]; exact hpnq
    obtain ⟨a0, a1⟩ := roundQ_mem_Icc roundQ_zero roundQ_one hq0 hq1
    rw [ofInt_of_lt p (by rw [abs_of_nonneg hp]; omega),
      ofInt_of_lt n (by rw [abs_of_pos hn]; omega), ofRat_hundred]
    simp only [div, hnq.ne', if_false]
    rw [ofRat_of_le (by rw [abs_of_nonneg a0]; exact le_trans a1 (by norm_num [maxFinite]))]
    simp only [mul]
  constructor
  · rw [hform] at hr ⊢
    unfold ofRat at hr ⊢
    by_cases h : maxFinite < |roundQ (roundQ ((p : ℚ) / n) * 100)|
    · rw [if_pos h] at hr
      exact Float64.noConfusion hr
    · rw [if_neg h]
  · rcases eq_or_lt_of_le hp with h0 | hpos
    · rw [← h0]
      simp [roundQ_zero]
    · have hp1 : (1 : ℚ) ≤ (p : ℚ) := by exact_mod_cast hpos
      have hn53q : (n : ℚ) < 2 ^ 53 := by exact_mod_cast hn53
      have e53 : (2 : ℚ) ^ (-53 : ℤ) = 1 / 9007199254740992 := by norm_num
      have e51 : (2 : ℚ) ^ (-51 : ℤ) = 1 / 2251799813685248 := by norm_num
      have hqlow : (2 : ℚ) ^ (-53 : ℤ) ≤ (p : ℚ) / n := by
        rw [e53, le_div_iff₀ hnq]
        norm_num at hn53q ⊢
        linarith
      have hqpos : 0 < (p : ℚ) / n := lt_of_lt_of_le (two_zpow_pos _) hqlow
      have h53r : roundQ ((2 : ℚ) ^ (-53 : ℤ)) = 2 ^ (-53 : ℤ) := by
        have := roundQ_of_representable 1 (-53) (by norm_num) (by norm_num)
        simpa using this
      have hr1low : (2 : ℚ) ^ (-53 : ℤ) ≤ roundQ ((p : ℚ) / n) := by
        have := roundQ_mono hqlow
        rwa [h53r] at this
      have hr1pos : 0 < roundQ ((p : ℚ) / n) := lt_of_lt_of_le (two_zpow_pos _) hr1low
      have hbig1 : (2 : ℚ) ^ (-1022 : ℤ) ≤ |(p : ℚ) / n| := by
        rw [abs_of_pos hqpos]
        exact le_trans (zpow_le_zpow_right₀ (by norm_num) (by norm_num)) hqlow
      have hbig2 : (2 : ℚ) ^ (-1022 : ℤ) ≤ |roundQ ((p : ℚ) / n) * 100| := by
        rw [abs_of_pos (by positivity)]
        have : (2 : ℚ) ^ (-1022 : ℤ) ≤ 2 ^ (-53 : ℤ) :=
          zpow_le_zpow_right₀ (by norm_num) (by norm_num)
        nlinarith
      have herr1 := abs_roundQ_sub_le_mul hbig1
      have herr2 := abs_roundQ_sub_le_mul hbig2
      rw [abs_of_pos hqpos] at herr1
      rw [abs_of_pos (by positivity : 0 < roundQ ((p : ℚ) / n) * 100)] at herr2
      rw [e53] at herr1 herr2
      rw [e51, mul_div_assoc]
      rw [abs_le] at herr1 herr2 ⊢
      generalize roundQ (roundQ ((p : ℚ) / n) * 100) = r2 at herr2 ⊢
      generalize roundQ ((p : ℚ) / n) = r1 at herr1 herr2 hr1pos ⊢
      generalize (p : ℚ) / n = q at herr1 hqpos ⊢
      constructor <;> nlinarith [herr1.1, herr1.2, herr2.1, herr2.2]

/-! ### The float64 values of decimal literals and of sample results -/

/-- The literal 3.07. -/
theorem ofRat_307_100 : ofRat (307 / 100) = fin (6913025428013711 / 2251799813685248) := by
  rw [ofRat_eq_fin (1) (6913025428013711) (by norm_num) (by norm_num) (by norm_num)
    (by norm_num [abs_of_pos]) (by norm_num [abs_of_pos]) (by norm_num [abs_lt])]
  norm_num

/-- The literal 42.63. -/
theorem ofRat_4263_100 : ofRat (4263 / 100) = fin (5999639128587633 / 140737488355328) := by
  rw [ofRat_eq_fin (5) (5999639128587633) (by norm_num) (by norm_num) (by norm_num)
    (by norm_num [abs_of_pos]) (by norm_num [abs_of_pos]) (by norm_num [abs_lt])]
  norm_num

/-- The literal 39.56. -/
theorem ofRat_3956_100 : ofRat (3956 / 100) = fin (695946879917097 / 17592186044416) := by
  rw [ofRat_eq_fin (5) (5567575039336776) (by norm_num) (by norm_num) (by norm_num)
    (by norm_num [abs_of_pos]) (by norm_num [abs_of_pos]) (by norm_num [abs_lt])]
  norm_num

/-- The difference 3.07 − 42.63 is rounded to −39.56. -/
theorem ofRat_sub_307_4263 : ofRat (6913025428013711 / 2251799813685248 - 5999639128587633 / 140737488355328) = fin (-(695946879917097 / 17592186044416)) := by
  rw [ofRat_eq_fin (5) (-5567575039336776) (by norm_num) (by norm_num) (by norm_num)
    (by norm_num [abs_of_neg]) (by norm_num [abs_of_neg]) (by norm_num [abs_lt])]
  norm_num

/-- The literal 10.05. -/
theorem ofRat_1005_100 : ofRat (1005 / 100) = fin (2828823515942093 / 281474976710656) := by
  rw [ofRat_eq_fin (3) (5657647031884186) (by norm_num) (by norm_num) (by norm_num)
    (by norm_num [abs_of_pos]) (by norm_num [abs_of_pos]) (by norm_num [abs_lt])]
  norm_num

/-- The literal 10. -/
theorem ofRat_10 : ofRat (10) = fin (10) := by
  rw [ofRat_eq_fin (3) (5629499534213120) (by norm_num) (by norm_num) (by norm_num)
    (by norm_num [abs_of_pos]) (by norm_num [abs_of_pos]) (by norm_num [abs_lt])]
  norm_num

/-- The literal 0.05. -/
theorem ofRat_5_100 : ofRat (5 / 100) = fin (3602879701896397 / 72057594037927936) := by
  rw [ofRat_eq_fin (-5) (7205759403792794) (by norm_num) (by norm_num) (by norm_num)
    (by norm_num [abs_of_pos]) (by norm_num [abs_of_pos]) (by norm_num [abs_lt])]
  norm_num

/-- The difference 10.05 − 10 is exact, and above 0.05. -/
theorem ofRat_sub_1005_10 : ofRat (2828823515942093 / 281474976710656 - 10) = fin (14073748835533 / 281474976710656) := by
  rw [ofRat_eq_fin (-5) (7205759403792896) (by norm_num) (by norm_num) (by norm_num)
    (by norm_num [abs_of_pos]) (by norm_num [abs_of_pos]) (by norm_num [abs_lt])]
  norm_num

/-- The literal 0.1. -/
theorem ofRat_1_10 : ofRat (1 / 10) = fin (3602879701896397 / 36028797018963968) := by
  rw [ofRat_eq_fin (-4) (7205759403792794) (by norm_num) (by norm_num) (by norm_num)
    (by norm_num [abs_of_pos]) (by norm_num [abs_of_pos]) (by norm_num [abs_lt])]
  norm_num

/-- The literal 1.1. -/
theorem ofRat_11_10 : ofRat (11 / 10) = fin (2476979795053773 / 2251799813685248) := by
  rw [ofRat_eq_fin (0) (4953959590107546) (by norm_num) (by norm_num) (by norm_num)
    (by norm_num [abs_of_pos]) (by norm_num [abs_of_pos]) (by norm_num [abs_lt])]
  norm_num

/-- The literal 1.0. -/
theorem ofRat_1 : ofRat (1) = fin (1) := by
  rw [ofRat_eq_fin (0) (4503599627370496) (by norm_num) (by norm_num) (by norm_num)
    (by norm_num [abs_of_pos]) (by norm_num [abs_of_pos]) (by norm_num [abs_lt])]
  norm_num

/-- The difference 0.1 − 1.1 is rounded to −1. -/
theorem ofRat_sub_1_11 : ofRat (3602879701896397 / 36028797018963968 - 2476979795053773 / 2251799813685248) = fin ((-1)) := by
  rw [ofRat_eq_fin (0) (-4503599627370496) (by norm_num) (by norm_num) (by norm_num)
    (by norm_num [abs_of_neg]) (by norm_num [abs_of_neg]) (by norm_num [abs_lt])]
  norm_num

/-- The quotient 11/20 in float64. -/
theorem roundQ_11_20 : roundQ (11 / 20) = 2476979795053773 / 4503599627370496 := by
  rw [roundQ_eq (-1) (4953959590107546) (by norm_num) (by norm_num [abs_of_pos]) (by norm_num [abs_of_pos])
    (by norm_num [abs_lt])]
  norm_num

/-- The quotient 11/20 in float64, times 100, in float64: 55.00000000000001. -/
theorem roundQ_11_20_mul_100 : roundQ (2476979795053773 / 4503599627370496 * 100) = 7740561859543041 / 140737488355328 := by
  rw [roundQ_eq (5) (7740561859543041) (by norm_num) (by norm_num [abs_of_pos]) (by norm_num [abs_of_pos])
    (by norm_num [abs_lt])]
  norm_num

/-- The literal 1.67. -/
theorem roundQ_167_100 : roundQ (167 / 100) = 940126422213591 / 562949953421312 := by
  rw [roundQ_eq (0) (7521011377708728) (by norm_num) (by norm_num [abs_of_pos]) (by norm_num [abs_of_pos])
    (by norm_num [abs_lt])]
  norm_num

/-- The literal 0.5. -/
theorem roundQ_1_2 : roundQ (1 / 2) = 1 / 2 := by
  rw [roundQ_eq (-1) (4503599627370496) (by norm_num) (by norm_num [abs_of_pos]) (by norm_num [abs_of_pos])
    (by norm_num [abs_lt])]
  norm_num

/-- The literal 0.1. -/
theorem roundQ_1_10 : roundQ (1 / 10) = 3602879701896397 / 36028797018963968 := by
  rw [roundQ_eq (-4) (7205759403792794) (by norm_num) (by norm_num [abs_of_pos]) (by norm_num [abs_of_pos])
    (by norm_num [abs_lt])]
  norm_num

/-- The literal 0.05. -/
theorem roundQ_1_20 : roundQ (1 / 20) = 3602879701896397 / 72057594037927936 := by
  rw [roundQ_eq (-5) (7205759403792794) (by norm_num) (by norm_num [abs_of_pos]) (by norm_num [abs_of_pos])
    (by norm_num [abs_lt])]
  norm_num

/-- The literal 0.2. -/
theorem roundQ_1_5 : roundQ (1 / 5) = 3602879701896397 / 18014398509481984 := by
  rw [roundQ_eq (-3) (7205759403792794) (by norm_num) (by norm_num [abs_of_pos]) (by norm_num [abs_of_pos])
    (by norm_num [abs_lt])]
  norm_num

/-- The literal 0.17. -/
theorem roundQ_17_100 : roundQ (17 / 100) = 6124895493223875 / 36028797018963968 := by
  rw [roundQ_eq (-3) (6124895493223875) (by norm_num) (by norm_num [abs_of_pos]) (by norm_num [abs_of_pos])
    (by norm_num [abs_lt])]
  norm_num

/-- The literal 0.085. -/
theorem roundQ_17_200 : roundQ (17 / 200) = 6124895493223875 / 72057594037927936 := by
  rw [roundQ_eq (-4) (6124895493223875) (by norm_num) (by norm_num [abs_of_pos]) (by norm_num [abs_of_pos])
    (by norm_num [abs_lt])]
  norm_num

/-- The literal 0.89. -/
theorem roundQ_89_100 : roundQ (89 / 100) = 8016407336719483 / 9007199254740992 := by
  rw [roundQ_eq (-1) (8016407336719483) (by norm_num) (by norm_num [abs_of_pos]) (by norm_num [abs_of_pos])
    (by norm_num [abs_lt])]
  norm_num

/-- The literal 1.37. -/
theorem roundQ_137_100 : roundQ (137 / 100) = 1542482872374395 / 1125899906842624 := by
  rw [roundQ_eq (0) (6169931489497580) (by norm_num) (by norm_num [abs_of_pos]) (by norm_num [abs_of_pos])
    (by norm_num [abs_lt])]
  norm_num

/-- The literal 1.57. -/
theorem roundQ_157_100 : roundQ (157 / 100) = 7070651414971679 / 4503599627370496 := by
  rw [roundQ_eq (0) (7070651414971679) (by norm_num) (by norm_num [abs_of_pos]) (by norm_num [abs_of_pos])
    (by norm_num [abs_lt])]
  norm_num

/-- The literal 1.77. -/
theorem roundQ_177_100 : roundQ (177 / 100) = 3985685670222889 / 2251799813685248 := by
  rw [roundQ_eq (0) (7971371340445778) (by norm_num) (by norm_num [abs_of_pos]) (by norm_num [abs_of_pos])
    (by norm_num [abs_lt])]
  norm_num

end Float64

/-! ## Theorems: inspections -/

namespace Quality

/-- The loop of `CreateInspection` appends one result per measurement, in order, with the
measurement's own fields and the band test as `Pass`. -/
theorem CreateInspection.loop_results (clock : Nat → Time) (k : Nat)
    (ms : List MeasurementInput) (inspection : Inspection) :
    (CreateInspection.loop clock k ms inspection).Results
      = inspection.Results ++ ms.map (fun m =>
          { ParameterName := m.ParameterName
            MeasuredValue := m.MeasuredValue
            TargetValue := m.TargetValue
            Tolerance := m.Tolerance
            Unit := m.Unit
            Pass :=
              Float64.ge (Float64.sub m.MeasuredValue m.TargetValue) (Float64.neg m.Tolerance) &&
                Float64.le (Float64.sub m.MeasuredValue m.TargetValue) m.Tolerance }) := by
  induction ms generalizing k inspection with
  | nil => simp [CreateInspection.loop]
  | cons m rest ih =>
    rw [CreateInspection.loop, ih]
    simp [AddMeasurement]

/-- The loop of `Complete` answers true exactly when every result passed. -/
theorem Complete.loop_all_pass_iff (l : List MeasurementResult) :
    Complete.loop l = true ↔ ∀ r ∈ l, r.Pass = true := by
  induction l with
  | nil => simp [Complete.loop]
  | cons r rest ih =>
    cases hr : r.Pass <;> simp [Complete.loop, hr, ih]

/-- After `Complete` the final result is pass or fail according to the results held. -/
theorem Complete_FinalResult (now : Time) (i : Inspection) :
    ((Complete now i).FinalResult = ResultPass ↔ ∀ r ∈ i.Results, r.Pass = true) ∧
    ((Complete now i).FinalResult = ResultFail ↔ ∃ r ∈ i.Results, r.Pass = false) := by
  have hne : ResultFail ≠ ResultPass := by decide
  by_cases h : Complete.loop i.Results = true
  · have hall := (Complete.loop_all_pass_iff i.Results).mp h
    have hex : ¬ ∃ r ∈ i.Results, r.Pass = false := by
      rintro ⟨r, hr, hf⟩
      rw [hall r hr] at hf
      exact Bool.noConfusion hf
    simp only [Complete, h, if_true, true_iff]
    exact ⟨hall, ⟨fun e => absurd e.symm hne, fun e => absurd e hex⟩⟩
  · have hall : ¬ ∀ r ∈ i.Results, r.Pass = true :=
      fun hall => h ((Complete.loop_all_pass_iff i.Results).mpr hall)
    have hex : ∃ r ∈ i.Results, r.Pass = false := by
      by_contra hn
      apply hall
      intro r hr
      cases hp : r.Pass
      · exact absurd ⟨r, hr, hp⟩ hn
      · rfl
    simp only [Complete, h, Bool.false_eq_true, if_false, true_iff]
    exact ⟨⟨fun e => absurd e hne, fun e => absurd e hall⟩, hex⟩

/-- The run of `CreateInspection` spelled out: one `Save` of the completed inspection,
whose results are the measurements with their band tests. -/
theorem CreateInspection_run {σ : Type} (repo : InspectionRepository σ) (clock : Nat → Time)
    (format : Time → String) (input : CreateInspectionInput) (s : σ) :
    ∃ insp : Inspection,
      insp = Complete (clock (2 + input.Measurements.length))
        (CreateInspection.loop clock 2 input.Measurements
          (NewInspection (clock 0) (format (clock 1)) input.ProductionOrderID input.LotNumber
            input.InspectorID)) ∧
      insp.Results = input.Measurements.map (fun m =>
          { ParameterName := m.ParameterName
            MeasuredValue := m.MeasuredValue
            TargetValue := m.TargetValue
            Tolerance := m.Tolerance
            Unit := m.Unit
            Pass :=
              Float64.ge (Float64.sub m.MeasuredValue m.TargetValue) (Float64.neg m.Tolerance) &&
                Float64.le (Float64.sub m.MeasuredValue m.TargetValue) m.Tolerance }) ∧
      (CreateInspection repo clock format input s).calls = [RepoCall.Save insp] ∧
      (CreateInspection repo clock format input s).state = (repo.Save insp s).2 ∧
      ((repo.Save insp s).1 = none →
        (CreateInspection repo clock format input s).result
          = (some (convertToInspectionOutput insp), none)) ∧
      (∀ err, (repo.Save insp s).1 = some err →
        (CreateInspection repo clock format input s).result = (none, some err)) := by
  refine ⟨_, rfl, ?_, ?_, ?_, ?_, ?_⟩
  · simp [Complete, CreateInspection.loop_results, NewInspection]
  all_goals simp only [CreateInspection]
  all_goals
    rcases hsave : repo.Save (Complete (clock (2 + input.Measurements.length))
      (CreateInspection.loop clock 2 input.Measurements
        (NewInspection (clock 0) (format (clock 1)) input.ProductionOrderID input.LotNumber
          input.InspectorID))) s with ⟨e, s'⟩
    cases e <;> simp

/-- The band test of `CreateInspection` on one measurement, as the code computes it: both
comparisons on the float64 difference. With finite values it holds exactly when the
rounded difference is finite and within the tolerance; the exact difference is then within
the tolerance when the tolerance is a float64 and the difference is exactly within it, and
conversely within the tolerance widened by the rounding error. -/
theorem bandTest_spec (m : MeasurementInput) :
    ((Float64.ge (Float64.sub m.MeasuredValue m.TargetValue) (Float64.neg m.Tolerance) &&
        Float64.le (Float64.sub m.MeasuredValue m.TargetValue) m.Tolerance) = true ↔
      (Float64.ge (Float64.sub m.MeasuredValue m.TargetValue) (Float64.neg m.Tolerance) = true ∧
        Float64.le (Float64.sub m.MeasuredValue m.TargetValue) m.Tolerance = true)) ∧
    (∀ a b t : ℚ, m.MeasuredValue = Float64.fin a → m.TargetValue = Float64.fin b →
      m.Tolerance = Float64.fin t →
      (((Float64.ge (Float64.sub m.MeasuredValue m.TargetValue) (Float64.neg m.Tolerance) &&
          Float64.le (Float64.sub m.MeasuredValue m.TargetValue) m.Tolerance) = true ↔
        (|Float64.roundQ (a - b)| ≤ t ∧ |Float64.roundQ (a - b)| ≤ Float64.maxFinite)) ∧
      (Float64.Representable t → |a - b| ≤ t →
        (Float64.ge (Float64.sub m.MeasuredValue m.TargetValue) (Float64.neg m.Tolerance) &&
          Float64.le (Float64.sub m.MeasuredValue m.TargetValue) m.Tolerance) = true) ∧
      ((Float64.ge (Float64.sub m.MeasuredValue m.TargetValue) (Float64.neg m.Tolerance) &&
          Float64.le (Float64.sub m.MeasuredValue m.TargetValue) m.Tolerance) = true →
        |a - b| ≤ t * (1 + 2 ^ (-52 : ℤ)) + 2 ^ (-1075 : ℤ)) ∧
      (t < 0 →
        (Float64.ge (Float64.sub m.MeasuredValue m.TargetValue) (Float64.neg m.Tolerance) &&
          Float64.le (Float64.sub m.MeasuredValue m.TargetValue) m.Tolerance) = false))) ∧
    ((m.MeasuredValue = Float64.nan ∨ m.TargetValue = Float64.nan ∨
        m.Tolerance = Float64.nan) →
      (Float64.ge (Float64.sub m.MeasuredValue m.TargetValue) (Float64.neg m.Tolerance) &&
        Float64.le (Float64.sub m.MeasuredValue m.TargetValue) m.Tolerance) = false) := by
  refine ⟨by simp, ?_, Float64.band_nan _ _ _⟩
  intro a b t ha hb ht
  rw [ha, hb, ht]
  have hiff : ((Float64.ge (Float64.sub (Float64.fin a) (Float64.fin b))
          (Float64.neg (Float64.fin t)) &&
        Float64.le (Float64.sub (Float64.fin a) (Float64.fin b)) (Float64.fin t)) = true ↔
      (|Float64.roundQ (a - b)| ≤ t ∧ |Float64.roundQ (a - b)| ≤ Float64.maxFinite)) := by
    rw [Bool.and_eq_true]
    exact Float64.band_iff a b t
  refine ⟨hiff, ?_, ?_, ?_⟩
  · intro hrep hin
    have h1 := Float64.abs_roundQ_le_of_abs_le hrep.1 hin
    refine hiff.mpr ⟨h1, le_trans h1 (le_trans (le_abs_self t) hrep.2)⟩
  · intro hp
    exact Float64.abs_le_of_abs_roundQ_le (hiff.mp hp).1
  · intro hneg
    rw [← Bool.not_eq_true]
    intro hp
    exact absurd (le_trans (abs_nonneg _) (hiff.mp hp).1) (not_le.mpr hneg)

/-- The band tests of the two samples written in decimals: 3.07 against 42.63 ± 39.56
passes, its rounded difference being −39.56; 10.05 against 10 ± 0.05 fails, its difference
being above 0.05. -/
theorem bandTest_decimal_samples :
    (Float64.ge (Float64.sub sampleRounded.MeasuredValue sampleRounded.TargetValue)
        (Float64.neg sampleRounded.Tolerance) &&
      Float64.le (Float64.sub sampleRounded.MeasuredValue sampleRounded.TargetValue)
        sampleRounded.Tolerance) = true ∧
    (Float64.ge (Float64.sub sampleDecimalEdge.MeasuredValue sampleDecimalEdge.TargetValue)
        (Float64.neg sampleDecimalEdge.Tolerance) &&
      Float64.le (Float64.sub sampleDecimalEdge.MeasuredValue sampleDecimalEdge.TargetValue)
        sampleDecimalEdge.Tolerance) = false := by
  constructor
  · simp only [sampleRounded, Float64.ofRat_307_100, Float64.ofRat_4263_100,
      Float64.ofRat_3956_100, Float64.sub, Float64.ofRat_sub_307_4263, Float64.neg,
      Float64.ge, Float64.le]
    norm_num
  · simp only [sampleDecimalEdge, Float64.ofRat_1005_100, Float64.ofRat_10,
      Float64.ofRat_5_100, Float64.sub, Float64.ofRat_sub_1005_10, Float64.neg,
      Float64.ge, Float64.le]
    norm_num

/-- The band test of the runout sample, 0.1 against 1.1 ± 1.0, passes: its rounded
difference is −1. -/
theorem bandTest_runout_sample :
    (Float64.ge (Float64.sub sampleRunout.MeasuredValue sampleRunout.TargetValue)
        (Float64.neg sampleRunout.Tolerance) &&
      Float64.le (Float64.sub sampleRunout.MeasuredValue sampleRunout.TargetValue)
        sampleRunout.Tolerance) = true := by
  simp only [sampleRunout, Float64.ofRat_1_10, Float64.ofRat_11_10, Float64.ofRat_1,
    Float64.sub, Float64.ofRat_sub_1_11, Float64.neg, Float64.ge, Float64.le]
  norm_num

/-- C17 (as amended): for every measurement passed to `CreateInspection`, the `Pass` flag
recorded at the same position of the saved inspection is true exactly when the float64
difference `measured − target` is `≥ −tolerance` and `≤ tolerance`. For finite values that
is exactly when the exact difference, rounded to the nearest float64, is finite and at
most the tolerance in size. So a measurement whose exact deviation is within the band of a
float64 tolerance, the band edge included, passes; a measurement that passes has its
exact deviation within the tolerance widened by the rounding error, a relative 2⁻⁵² plus
2⁻¹⁰⁷⁵; a measurement with a negative tolerance fails, and so does one with a NaN. -/
theorem CreateInspection_pass_iff_rounded_deviation_within_band {σ : Type}
    (repo : InspectionRepository σ) (clock : Nat → Time) (format : Time → String)
    (input : CreateInspectionInput) (s : σ) :
    ∃ insp : Inspection,
      (CreateInspection repo clock format input s).calls = [RepoCall.Save insp] ∧
      insp.Results.length = input.Measurements.length ∧
      ∀ (i : Nat) (m : MeasurementInput) (r : MeasurementResult),
        input.Measurements[i]? = some m → insp.Results[i]? = some r →
        (r.Pass = true ↔
          (Float64.ge (Float64.sub m.MeasuredValue m.TargetValue) (Float64.neg m.Tolerance)
              = true ∧
            Float64.le (Float64.sub m.MeasuredValue m.TargetValue) m.Tolerance = true)) ∧
        (∀ a b t : ℚ, m.MeasuredValue = Float64.fin a → m.TargetValue = Float64.fin b →
          m.Tolerance = Float64.fin t →
          (r.Pass = true ↔
            (|Float64.roundQ (a - b)| ≤ t ∧ |Float64.roundQ (a - b)| ≤ Float64.maxFinite)) ∧
          (Float64.Representable t → |a - b| ≤ t → r.Pass = true) ∧
          (r.Pass = true → |a - b| ≤ t * (1 + 2 ^ (-52 : ℤ)) + 2 ^ (-1075 : ℤ)) ∧
          (t < 0 → r.Pass = false)) ∧
        ((m.MeasuredValue = Float64.nan ∨ m.TargetValue = Float64.nan ∨
            m.Tolerance = Float64.nan) → r.Pass = false) := by
  obtain ⟨insp, -, hres, hcalls, -, -, -⟩ := CreateInspection_run repo clock format input s
  refine ⟨insp, hcalls, by simp [hres], ?_⟩
  intro i m r hm hr
  rw [hres, List.getElem?_map, hm] at hr
  simp only [Option.map_some', Option.some.injEq] at hr
  subst hr
  exact bandTest_spec m

/-- Witness of C17 as amended: the request with measurements on the band edge, outside
the band, with a negative tolerance and with a NaN is saved with `Pass` flags true, false,
false, false. -/
theorem CreateInspection_pass_iff_rounded_deviation_within_band_witness :
    ∃ insp : Inspection,
      (CreateInspection memRepo sampleClock sampleFormat sampleInput []).calls
        = [RepoCall.Save insp] ∧
      insp.Results.map (fun r => r.Pass) = [true, false, false, false] := by
  obtain ⟨insp, hc, hl, h⟩ :=
    CreateInspection_pass_iff_rounded_deviation_within_band memRepo sampleClock sampleFormat
      sampleInput []
  refine ⟨insp, hc, ?_⟩
  have hl4 : insp.Results.length = 4 := hl
  obtain ⟨r0, rest, hr⟩ := List.exists_cons_of_length_eq_add_one hl4
  have hl3 : rest.length = 3 := by simpa [hr] using hl4
  obtain ⟨r1, r2, r3, hr'⟩ := List.length_eq_three.mp hl3
  subst hr'
  have h0 := h 0 sampleOnEdge r0 rfl (by simp [hr])
  have h1 := h 1 sampleOutside r1 rfl (by simp [hr])
  have h2 := h 2 sampleNegativeTolerance r2 rfl (by simp [hr])
  have h3 := h 3 sampleNaN r3 rfl (by simp [hr])
  have hrep : Float64.Representable (1 / 16) := by
    constructor
    · have := Float64.roundQ_of_representable 1 (-4) (by norm_num) (by norm_num)
      norm_num at this
      exact this
    · norm_num [Float64.maxFinite, abs_of_pos]
  have p0 : r0.Pass = true :=
    (h0.2.1 (161 / 16) 10 (1 / 16) rfl rfl rfl).2.1 hrep (by norm_num [abs_of_pos])
  have p1 : r1.Pass = false := by
    rw [← Bool.not_eq_true]
    intro hp
    have hb := (h1.2.1 (15 / 8) (3 / 2) (1 / 4) rfl rfl rfl).2.2.1 hp
    have e1 : (2 : ℚ) ^ (-52 : ℤ) ≤ 1 / 8 := by norm_num
    have e2 : (2 : ℚ) ^ (-1075 : ℤ) ≤ 2 ^ (-5 : ℤ) :=
      zpow_le_zpow_right₀ (by norm_num) (by norm_num)
    have e3 : (2 : ℚ) ^ (-5 : ℤ) = 1 / 32 := by norm_num
    have e4 : |(15 / 8 : ℚ) - 3 / 2| = 3 / 8 := by norm_num [abs_of_pos]
    rw [e4] at hb
    rw [e3] at e2
    generalize (2 : ℚ) ^ (-52 : ℤ) = x at hb e1
    generalize (2 : ℚ) ^ (-1075 : ℤ) = y at hb e2
    linarith
  have p2 : r2.Pass = false :=
    (h2.2.1 50 50 (-1 / 128) rfl rfl rfl).2.2.2 (by norm_num)
  have p3 : r3.Pass = false := h3.2.2 (Or.inl rfl)
  simp [hr, p0, p1, p2, p3]

/-- Counterexample to C17 as stated: the request with the two measurements written in
decimals. The first, 3.07 against 42.63 ± 39.56, has its float64 values, read as exact
numbers, outside the band: measured − target is below −tolerance; yet the recorded `Pass`
is true. -/
theorem CreateInspection_pass_outside_exact_band_counterexample :
    ∃ (insp : Inspection) (a b t : ℚ),
      (CreateInspection memRepo sampleClock sampleFormat sampleDecimalInput []).calls
        = [RepoCall.Save insp] ∧
      sampleDecimalInput.Measurements[0]? = some sampleRounded ∧
      sampleRounded.MeasuredValue = Float64.fin a ∧
      sampleRounded.TargetValue = Float64.fin b ∧
      sampleRounded.Tolerance = Float64.fin t ∧
      a - b < -t ∧
      ¬ (a - b ≥ -t ∧ a - b ≤ t) ∧
      ¬ |a - b| ≤ t ∧
      insp.Results.map (fun r => r.Pass) = [true, false] := by
  obtain ⟨insp, -, hres, hcalls, -, -, -⟩ :=
    CreateInspection_run memRepo sampleClock sampleFormat sampleDecimalInput []
  have hlt : (6913025428013711 / 2251799813685248 : ℚ) - 5999639128587633 / 140737488355328
      < -(695946879917097 / 17592186044416) := by norm_num
  refine ⟨insp, 6913025428013711 / 2251799813685248, 5999639128587633 / 140737488355328,
    695946879917097 / 17592186044416, hcalls, rfl, ?_, ?_, ?_, hlt, ?_, ?_, ?_⟩
  · simp only [sampleRounded, Float64.ofRat_307_100]
  · simp only [sampleRounded, Float64.ofRat_4263_100]
  · simp only [sampleRounded, Float64.ofRat_3956_100]
  · intro h
    exact absurd h.1 (not_le.mpr hlt)
  · intro h
    exact absurd (abs_le.mp h).1 (not_le.mpr hlt)
  · rw [hres]
    simp only [sampleDecimalInput, List.map_cons, List.map_nil, bandTest_decimal_samples.1,
      bandTest_decimal_samples.2]

/-- C18 (as amended): `CreateInspection` makes exactly one repository call, `Save insp`,
where `insp` is completed, holds one result per input measurement, in input order, with the
measurement's parameter name, measured value, target, tolerance and unit, and has
`FinalResult` pass exactly when every input measurement passes the float64 band test, that
is when every recorded flag is true, and fail as soon as one does not. It is pass when
every measurement is finite with a float64 tolerance and an exact deviation within it, and
then every exact deviation is within its tolerance widened by the rounding error. When
`Save` succeeds the returned output shows that inspection: completed, the same final result
and the same results, flags included; when `Save` fails its error is returned. -/
theorem CreateInspection_saves_completed_inspection {σ : Type}
    (repo : InspectionRepository σ) (clock : Nat → Time) (format : Time → String)
    (input : CreateInspectionInput) (s : σ) :
    ∃ insp : Inspection,
      (CreateInspection repo clock format input s).calls = [RepoCall.Save insp] ∧
      insp.Status = InspectionStatusCompleted ∧
      insp.Results.map
          (fun r => (r.ParameterName, r.MeasuredValue, r.TargetValue, r.Tolerance, r.Unit))
        = input.Measurements.map
          (fun m => (m.ParameterName, m.MeasuredValue, m.TargetValue, m.Tolerance, m.Unit)) ∧
      (insp.FinalResult = ResultPass ↔
        ∀ m ∈ input.Measurements,
          (Float64.ge (Float64.sub m.MeasuredValue m.TargetValue) (Float64.neg m.Tolerance)
              = true ∧
            Float64.le (Float64.sub m.MeasuredValue m.TargetValue) m.Tolerance = true)) ∧
      (insp.FinalResult = ResultPass ↔ ∀ r ∈ insp.Results, r.Pass = true) ∧
      ((∃ m ∈ input.Measurements,
          ¬ (Float64.ge (Float64.sub m.MeasuredValue m.TargetValue) (Float64.neg m.Tolerance)
              = true ∧
            Float64.le (Float64.sub m.MeasuredValue m.TargetValue) m.Tolerance = true)) →
        insp.FinalResult = ResultFail) ∧
      ((∀ m ∈ input.Measurements, ∃ a b t : ℚ,
          m.MeasuredValue = Float64.fin a ∧ m.TargetValue = Float64.fin b ∧
          m.Tolerance = Float64.fin t ∧ Float64.Representable t ∧ |a - b| ≤ t) →
        insp.FinalResult = ResultPass) ∧
      (insp.FinalResult = ResultPass →
        ∀ m ∈ input.Measurements, ∀ a b t : ℚ,
          m.MeasuredValue = Float64.fin a → m.TargetValue = Float64.fin b →
          m.Tolerance = Float64.fin t →
          |a - b| ≤ t * (1 + 2 ^ (-52 : ℤ)) + 2 ^ (-1075 : ℤ)) ∧
      (CreateInspection repo clock format input s).state = (repo.Save insp s).2 ∧
      ((repo.Save insp s).1 = none →
        ∃ out : InspectionOutput,
          (CreateInspection repo clock format input s).result = (some out, none) ∧
          out.Status = InspectionStatusCompleted ∧
          out.FinalResult = insp.FinalResult ∧
          out.Measurements.map (fun r =>
              (r.ParameterName, r.MeasuredValue, r.TargetValue, r.Tolerance, r.Unit, r.Pass))
            = insp.Results.map (fun r =>
              (r.ParameterName, r.MeasuredValue, r.TargetValue, r.Tolerance, r.Unit, r.Pass))) ∧
      (∀ err, (repo.Save insp s).1 = some err →
        (CreateInspection repo clock format input s).result = (none, some err)) := by
  obtain ⟨insp, hdef, hres, hcalls, hstate, hok, herr⟩ :=
    CreateInspection_run repo clock format input s
  have hstatus : insp.Status = InspectionStatusCompleted := by rw [hdef]; rfl
  have hfinal := Complete_FinalResult (clock (2 + input.Measurements.length))
    (CreateInspection.loop clock 2 input.Measurements
      (NewInspection (clock 0) (format (clock 1)) input.ProductionOrderID input.LotNumber
        input.InspectorID))
  rw [← hdef] at hfinal
  have hsame : (CreateInspection.loop clock 2 input.Measurements
      (NewInspection (clock 0) (format (clock 1)) input.ProductionOrderID input.LotNumber
        input.InspectorID)).Results = insp.Results := by rw [hdef]; rfl
  rw [hsame] at hfinal
  have hpass : insp.FinalResult = ResultPass ↔
      ∀ m ∈ input.Measurements,
        (Float64.ge (Float64.sub m.MeasuredValue m.TargetValue) (Float64.neg m.Tolerance)
            = true ∧
          Float64.le (Float64.sub m.MeasuredValue m.TargetValue) m.Tolerance = true) := by
    rw [hfinal.1, hres]
    simp
  refine ⟨insp, hcalls, hstatus, ?_, hpass, hfinal.1, ?_, ?_, ?_, hstate, ?_, herr⟩
  · rw [hres, List.map_map]
    rfl
  · rintro ⟨m, hm, hout⟩
    rw [hfinal.2, hres]
    refine ⟨_, List.mem_map_of_mem _ hm, ?_⟩
    simpa using hout
  · intro hall
    rw [hpass]
    intro m hm
    obtain ⟨a, b, t, ha, hb, ht, hrep, hin⟩ := hall m hm
    exact (bandTest_spec m).1.mp (((bandTest_spec m).2.1 a b t ha hb ht).2.1 hrep hin)
  · intro hp m hm a b t ha hb ht
    exact ((bandTest_spec m).2.1 a b t ha hb ht).2.2.1
      ((bandTest_spec m).1.mpr (hpass.mp hp m hm))
  · intro hnone
    refine ⟨convertToInspectionOutput insp, hok hnone, hstatus, rfl, ?_⟩
    simp [convertToInspectionOutput, List.map_map, Function.comp_def]

/-- Witness of C18 as amended: on the in-memory store the request with one measurement on
its band edge comes back completed with final result pass, the request with a failing
measurement with final result fail, and on the read-only store the error of `Save` comes
back. -/
theorem CreateInspection_saves_completed_inspection_witness :
    (∃ out : InspectionOutput,
      (CreateInspection memRepo sampleClock sampleFormat sampleGoodInput []).result
        = (some out, none) ∧
      out.Status = InspectionStatusCompleted ∧ out.FinalResult = ResultPass) ∧
    (∃ insp : Inspection,
      (CreateInspection memRepo sampleClock sampleFormat sampleInput []).calls
        = [RepoCall.Save insp] ∧ insp.FinalResult = ResultFail) ∧
    (CreateInspection readOnlyRepo sampleClock sampleFormat sampleInput []).result
      = (none, some (Error.Storage "read-only transaction")) := by
  obtain ⟨i1, -, -, -, -, -, -, hp1, -, -, hok1, -⟩ :=
    CreateInspection_saves_completed_inspection memRepo sampleClock sampleFormat
      sampleGoodInput []
  obtain ⟨i2, hc2, -, -, -, -, hf2, -, -, -, -, -⟩ :=
    CreateInspection_saves_completed_inspection memRepo sampleClock sampleFormat
      sampleInput []
  obtain ⟨i3, -, -, -, -, -, -, -, -, -, -, herr3⟩ :=
    CreateInspection_saves_completed_inspection readOnlyRepo sampleClock sampleFormat
      sampleInput []
  have hrep : Float64.Representable (1 / 16) := by
    constructor
    · have := Float64.roundQ_of_representable 1 (-4) (by norm_num) (by norm_num)
      norm_num at this
      exact this
    · norm_num [Float64.maxFinite, abs_of_pos]
  refine ⟨?_, ⟨i2, hc2, hf2 ⟨sampleNaN, by simp [sampleInput], ?_⟩⟩, herr3 _ rfl⟩
  · obtain ⟨out, hres, hst, hfr, -⟩ := hok1 rfl
    refine ⟨out, hres, hst, hfr.trans (hp1 ?_)⟩
    intro m hm
    have hm' : m = sampleOnEdge := by simpa [sampleGoodInput] using hm
    subst hm'
    exact ⟨161 / 16, 10, 1 / 16, rfl, rfl, rfl, hrep, by norm_num [abs_of_pos]⟩
  · intro h
    have := h.2
    simp [sampleNaN, Float64.sub, Float64.le] at this

/-- Counterexample to C18 as stated: the request whose only measurement is 0.1 against
1.1 ± 1.0. Its float64 values, read as exact numbers, are out of tolerance: measured −
target is below −tolerance; yet the saved inspection has `FinalResult` pass. -/
theorem CreateInspection_final_pass_with_measurement_out_of_tolerance_counterexample :
    ∃ (insp : Inspection) (a b t : ℚ),
      (CreateInspection memRepo sampleClock sampleFormat sampleRunoutInput []).calls
        = [RepoCall.Save insp] ∧
      sampleRunoutInput.Measurements = [sampleRunout] ∧
      sampleRunout.MeasuredValue = Float64.fin a ∧
      sampleRunout.TargetValue = Float64.fin b ∧
      sampleRunout.Tolerance = Float64.fin t ∧
      a - b < -t ∧
      ¬ (a - b ≥ -t ∧ a - b ≤ t) ∧
      insp.Status = InspectionStatusCompleted ∧
      insp.FinalResult = ResultPass := by
  obtain ⟨insp, hdef, hres, hcalls, -, -, -⟩ :=
    CreateInspection_run memRepo sampleClock sampleFormat sampleRunoutInput []
  have hlt : (3602879701896397 / 36028797018963968 : ℚ) - 2476979795053773 / 2251799813685248
      < -1 := by norm_num
  have hfinal := Complete_FinalResult
    (sampleClock (2 + sampleRunoutInput.Measurements.length))
    (CreateInspection.loop sampleClock 2 sampleRunoutInput.Measurements
      (NewInspection (sampleClock 0) (sampleFormat (sampleClock 1))
        sampleRunoutInput.ProductionOrderID sampleRunoutInput.LotNumber
        sampleRunoutInput.InspectorID))
  rw [← hdef] at hfinal
  have hsame : (CreateInspection.loop sampleClock 2 sampleRunoutInput.Measurements
      (NewInspection (sampleClock 0) (sampleFormat (sampleClock 1))
        sampleRunoutInput.ProductionOrderID sampleRunoutInput.LotNumber
        sampleRunoutInput.InspectorID)).Results = insp.Results := by rw [hdef]; rfl
  rw [hsame, hres] at hfinal
  refine ⟨insp, 3602879701896397 / 36028797018963968, 2476979795053773 / 2251799813685248, 1,
    hcalls, rfl, ?_, ?_, ?_, hlt, ?_, ?_, ?_⟩
  · simp only [sampleRunout, Float64.ofRat_1_10]
  · simp only [sampleRunout, Float64.ofRat_11_10]
  · simp only [sampleRunout, Float64.ofRat_1]
  · intro h
    exact absurd h.1 (not_le.mpr hlt)
  · rw [hdef]; rfl
  · rw [hfinal.1]
    intro r hr
    simp only [sampleRunoutInput, List.map_cons, List.map_nil, List.mem_singleton] at hr
    rw [hr]
    exact bandTest_runout_sample

/-! ### Sequences of calls on one inspection -/

/-- Calls made one list after another. -/
theorem callOps_append (a b : List InspectionOp) (i : Inspection) :
    callOps (a ++ b) i = callOps b (callOps a i) := by
  induction a generalizing i with
  | nil => rfl
  | cons op rest ih => simp [callOps, ih]

/-- No call takes an inspection out of the completed status. -/
theorem callOps_keeps_completed (ops : List InspectionOp) (i : Inspection)
    (h : i.Status = InspectionStatusCompleted) :
    (callOps ops i).Status = InspectionStatusCompleted := by
  induction ops generalizing i with
  | nil => exact h
  | cons op rest ih =>
    cases op with
    | AddMeasurement now result => exact ih _ h
    | Complete now => exact ih _ rfl

/-- After a sequence with a `Complete` call in it the inspection is completed. -/
theorem callOps_completed_of_mem (ops : List InspectionOp) (i : Inspection)
    (h : ∃ t, InspectionOp.Complete t ∈ ops) :
    (callOps ops i).Status = InspectionStatusCompleted := by
  induction ops generalizing i with
  | nil => simp at h
  | cons op rest ih =>
    cases op with
    | Complete now => exact callOps_keeps_completed rest _ rfl
    | AddMeasurement now result =>
      obtain ⟨t, ht⟩ := h
      have ht' : InspectionOp.Complete t ∈ rest := by simpa using ht
      exact ih _ ⟨t, ht'⟩

/-- A run of `AddMeasurement` calls appends the results and touches neither the status nor
the final result. -/
theorem callOps_adds (post : List (Time × MeasurementResult)) (i : Inspection) :
    (callOps (post.map (fun x => InspectionOp.AddMeasurement x.1 x.2)) i).FinalResult
      = i.FinalResult ∧
    (callOps (post.map (fun x => InspectionOp.AddMeasurement x.1 x.2)) i).Results
      = i.Results ++ post.map (fun x => x.2) := by
  induction post generalizing i with
  | nil => simp [callOps]
  | cons x rest ih =>
    obtain ⟨h1, h2⟩ := ih (AddMeasurement x.1 x.2 i)
    simp only [List.map_cons, callOps, InspectionOp.call, h1, h2]
    simp [AddMeasurement]

/-- C19 (as amended): take an inspection from `NewInspection` through any finite sequence
of `AddMeasurement` and `Complete` calls. If the sequence has a `Complete` call, the status
is completed at the end. The final result is the one computed by the last `Complete` call:
with `pre` the calls before it and `post` the `AddMeasurement` calls after it, the final
result is pass exactly when every result held after `pre` passed, and fail exactly when
one of them failed, while the results held at the end are those plus the ones added by
`post`. So when the last call is `Complete`, the final result is pass exactly when every
result now held passed, and fail otherwise. -/
theorem Inspection_final_result_as_of_last_Complete (now : Time)
    (stamp productionOrderID lotNumber inspectorID : String) :
    (∀ ops : List InspectionOp, (∃ t, InspectionOp.Complete t ∈ ops) →
      (callOps ops (NewInspection now stamp productionOrderID lotNumber inspectorID)).Status
        = InspectionStatusCompleted) ∧
    (∀ (pre : List InspectionOp) (t : Time) (post : List (Time × MeasurementResult)),
      ((callOps (pre ++ [InspectionOp.Complete t] ++
            post.map (fun x => InspectionOp.AddMeasurement x.1 x.2))
          (NewInspection now stamp productionOrderID lotNumber inspectorID)).FinalResult
          = ResultPass ↔
        ∀ r ∈ (callOps pre
          (NewInspection now stamp productionOrderID lotNumber inspectorID)).Results,
          r.Pass = true) ∧
      ((callOps (pre ++ [InspectionOp.Complete t] ++
            post.map (fun x => InspectionOp.AddMeasurement x.1 x.2))
          (NewInspection now stamp productionOrderID lotNumber inspectorID)).FinalResult
          = ResultFail ↔
        ∃ r ∈ (callOps pre
          (NewInspection now stamp productionOrderID lotNumber inspectorID)).Results,
          r.Pass = false) ∧
      (callOps (pre ++ [InspectionOp.Complete t] ++
            post.map (fun x => InspectionOp.AddMeasurement x.1 x.2))
          (NewInspection now stamp productionOrderID lotNumber inspectorID)).Results
        = (callOps pre
            (NewInspection now stamp productionOrderID lotNumber inspectorID)).Results
          ++ post.map (fun x => x.2)) ∧
    (∀ (pre : List InspectionOp) (t : Time),
      ((callOps (pre ++ [InspectionOp.Complete t])
          (NewInspection now stamp productionOrderID lotNumber inspectorID)).FinalResult
          = ResultPass ↔
        ∀ r ∈ (callOps (pre ++ [InspectionOp.Complete t])
          (NewInspection now stamp productionOrderID lotNumber inspectorID)).Results,
          r.Pass = true) ∧
      ((callOps (pre ++ [InspectionOp.Complete t])
          (NewInspection now stamp productionOrderID lotNumber inspectorID)).FinalResult
          = ResultFail ↔
        ∃ r ∈ (callOps (pre ++ [InspectionOp.Complete t])
          (NewInspection now stamp productionOrderID lotNumber inspectorID)).Results,
          r.Pass = false)) := by
  refine ⟨fun ops h => callOps_completed_of_mem ops _ h, ?_, ?_⟩
  · intro pre t post
    have hadds := callOps_adds post (Complete t (callOps pre
      (NewInspection now stamp productionOrderID lotNumber inspectorID)))
    have hfin := Complete_FinalResult t (callOps pre
      (NewInspection now stamp productionOrderID lotNumber inspectorID))
    have hrun : callOps (pre ++ [InspectionOp.Complete t] ++
          post.map (fun x => InspectionOp.AddMeasurement x.1 x.2))
        (NewInspection now stamp productionOrderID lotNumber inspectorID)
        = callOps (post.map (fun x => InspectionOp.AddMeasurement x.1 x.2))
          (Complete t (callOps pre
            (NewInspection now stamp productionOrderID lotNumber inspectorID))) := by
      rw [callOps_append, callOps_append]
      rfl
    rw [hrun, hadds.1, hadds.2]
    exact ⟨hfin.1, hfin.2, rfl⟩
  · intro pre t
    have hfin := Complete_FinalResult t (callOps pre
      (NewInspection now stamp productionOrderID lotNumber inspectorID))
    have hrun : callOps (pre ++ [InspectionOp.Complete t])
        (NewInspection now stamp productionOrderID lotNumber inspectorID)
        = Complete t (callOps pre
            (NewInspection now stamp productionOrderID lotNumber inspectorID)) := by
      rw [callOps_append]
      rfl
    rw [hrun]
    exact hfin

/-- Witness of C19 as amended: a failed result is added, `Complete` is called, and a
passed result is added afterwards; the inspection is completed with final result fail. -/
theorem Inspection_final_result_as_of_last_Complete_witness :
    (callOps [InspectionOp.AddMeasurement ⟨11⟩ sampleFailedResult, InspectionOp.Complete ⟨12⟩,
        InspectionOp.AddMeasurement ⟨13⟩ samplePassedResult]
      (NewInspection ⟨10⟩ "20240101120000" "order-A-1" "lot-1" "insp-7")).Status
      = InspectionStatusCompleted ∧
    (callOps ([InspectionOp.AddMeasurement ⟨11⟩ sampleFailedResult] ++
        [InspectionOp.Complete ⟨12⟩] ++
        [((⟨13⟩ : Time), samplePassedResult)].map
          (fun x => InspectionOp.AddMeasurement x.1 x.2))
      (NewInspection ⟨10⟩ "20240101120000" "order-A-1" "lot-1" "insp-7")).FinalResult
      = ResultFail :=
  ⟨(Inspection_final_result_as_of_last_Complete ⟨10⟩ "20240101120000" "order-A-1" "lot-1"
      "insp-7").1 _ ⟨⟨12⟩, by simp⟩,
    ((Inspection_final_result_as_of_last_Complete ⟨10⟩ "20240101120000" "order-A-1" "lot-1"
      "insp-7").2.1 [InspectionOp.AddMeasurement ⟨11⟩ sampleFailedResult] ⟨12⟩
      [(⟨13⟩, samplePassedResult)]).2.1.mpr
      ⟨sampleFailedResult, by simp [callOps, InspectionOp.call, AddMeasurement, NewInspection],
        rfl⟩⟩

/-- Counterexample to C19 as stated: `Complete` on a new inspection, then `AddMeasurement`
of a failed result. `Complete` has been called, the status is completed and the final
result is pass, yet a result now held has `Pass = false`. -/
theorem Inspection_stale_final_result_counterexample :
    (callOps [InspectionOp.Complete ⟨11⟩, InspectionOp.AddMeasurement ⟨12⟩ sampleFailedResult]
      (NewInspection ⟨10⟩ "20240101120000" "order-A-1" "lot-1" "insp-7")).Status
      = InspectionStatusCompleted ∧
    (callOps [InspectionOp.Complete ⟨11⟩, InspectionOp.AddMeasurement ⟨12⟩ sampleFailedResult]
      (NewInspection ⟨10⟩ "20240101120000" "order-A-1" "lot-1" "insp-7")).FinalResult
      = ResultPass ∧
    ¬ (∀ r ∈ (callOps
        [InspectionOp.Complete ⟨11⟩, InspectionOp.AddMeasurement ⟨12⟩ sampleFailedResult]
        (NewInspection ⟨10⟩ "20240101120000" "order-A-1" "lot-1" "insp-7")).Results,
      r.Pass = true) := by
  refine ⟨rfl, rfl, fun h => ?_⟩
  have hf := h sampleFailedResult
    (by simp [callOps, InspectionOp.call, AddMeasurement, Complete, NewInspection])
  simp [sampleFailedResult] at hf

/-! ### Defect analysis -/

/-- What the outer loop of `AnalyzeDefects` does to the counters: the passed inspections
go to `PassedSamples`, the others to `FailedSamples`, and the lot number, the total and
the pass rate are not touched. -/
theorem AnalyzeDefects.loop_counts (a : DefectAnalysis) (l : List Inspection) :
    (AnalyzeDefects.loop a l).LotNumber = a.LotNumber ∧
    (AnalyzeDefects.loop a l).TotalSamples = a.TotalSamples ∧
    (AnalyzeDefects.loop a l).PassRate = a.PassRate ∧
    (AnalyzeDefects.loop a l).PassedSamples
      = a.PassedSamples + (l.countP (fun i => decide (i.FinalResult = ResultPass)) : Nat) ∧
    (AnalyzeDefects.loop a l).FailedSamples
      = a.FailedSamples + ((l.length : Int)
          - (l.countP (fun i => decide (i.FinalResult = ResultPass)) : Nat)) := by
  induction l generalizing a with
  | nil => simp [AnalyzeDefects.loop]
  | cons i rest ih =>
    by_cases hp : i.FinalResult = ResultPass
    · have hpass : IsPassed i = true := by simp [IsPassed, hp]
      obtain ⟨h1, h2, h3, h4, h5⟩ := ih { a with PassedSamples := a.PassedSamples + 1 }
      simp only [AnalyzeDefects.loop, hpass, if_true, h1, h2, h3, h4, h5, List.length_cons,
        List.countP_cons, hp, decide_True]
      refine ⟨trivial, trivial, trivial, ?_, ?_⟩
      · push_cast
        ring
      · push_cast
        ring
    · have hpass : IsPassed i = false := by simp [IsPassed, hp]
      obtain ⟨h1, h2, h3, h4, h5⟩ := ih
        { a with
          FailedSamples := a.FailedSamples + 1
          DefectTypes := AnalyzeDefects.countDefects a.DefectTypes i.Results }
      simp only [AnalyzeDefects.loop, hpass, Bool.false_eq_true, if_false, h1, h2, h3, h4, h5,
        List.length_cons, List.countP_cons, hp, decide_False]
      refine ⟨trivial, trivial, trivial, ?_, ?_⟩
      · simp
      · push_cast
        ring

/-- The run of `AnalyzeDefects` on a non-empty lot: the counters of the loop, and the pass
rate as the float64 quotient of the two converted counters, times 100. -/
theorem AnalyzeDefects_nonempty {σ : Type} (repo : InspectionRepository σ)
    (lotNumber : String) (s s1 : σ) (inspections : List Inspection)
    (hf : repo.FindByLotNumber lotNumber s = ((inspections, none), s1))
    (hne : inspections ≠ []) :
    ∃ a : DefectAnalysis,
      (AnalyzeDefects repo lotNumber s).result = (some a, none) ∧
      a.TotalSamples = inspections.length ∧
      a.PassedSamples
        = (inspections.countP (fun i => decide (i.FinalResult = ResultPass)) : Nat) ∧
      a.FailedSamples = (inspections.length : Int)
        - (inspections.countP (fun i => decide (i.FinalResult = ResultPass)) : Nat) ∧
      a.PassRate
        = Float64.mul
            (Float64.div
              (Float64.ofInt
                (inspections.countP (fun i => decide (i.FinalResult = ResultPass)) : Nat))
              (Float64.ofInt (inspections.length : Int)))
            (Float64.ofRat 100) := by
  have hlen : ¬ inspections.length = 0 := fun h => hne (List.length_eq_zero.mp h)
  obtain ⟨-, h2, -, h4, h5⟩ := AnalyzeDefects.loop_counts
    { LotNumber := lotNumber
      TotalSamples := inspections.length
      PassedSamples := 0
      FailedSamples := 0
      PassRate := Float64.fin 0
      DefectTypes := fun _ => none } inspections
  simp only [zero_add] at h2 h4 h5
  have hres : (AnalyzeDefects repo lotNumber s).result =
      (some { AnalyzeDefects.loop
                { LotNumber := lotNumber
                  TotalSamples := inspections.length
                  PassedSamples := 0
                  FailedSamples := 0
                  PassRate := Float64.fin 0
                  DefectTypes := fun _ => none } inspections with
              PassRate :=
                Float64.mul
                  (Float64.div
                    (Float64.ofInt (AnalyzeDefects.loop
                      { LotNumber := lotNumber
                        TotalSamples := inspections.length
                        PassedSamples := 0
                        FailedSamples := 0
                        PassRate := Float64.fin 0
                        DefectTypes := fun _ => none } inspections).PassedSamples)
                    (Float64.ofInt (AnalyzeDefects.loop
                      { LotNumber := lotNumber
                        TotalSamples := inspections.length
                        PassedSamples := 0
                        FailedSamples := 0
                        PassRate := Float64.fin 0
                        DefectTypes := fun _ => none } inspections).TotalSamples))
                  (Float64.ofRat 100) },
        none) := by
    simp only [AnalyzeDefects, hf, hlen, if_false]
  refine ⟨_, hres, h2, h4, h5, ?_⟩
  simp only [h2, h4]

/-- C20 (as amended): when the repository returns the inspections of the lot,
`AnalyzeDefects` fails with `ErrInspectionNotFound` exactly when there are none; for
`n > 0` inspections it returns `TotalSamples = n`, `PassedSamples` the number of
inspections whose `FinalResult` is pass and `FailedSamples = TotalSamples − PassedSamples`,
so that the passed and failed samples add up to the total. `PassRate` is the float64
quotient `float64(PassedSamples) / float64(TotalSamples)`, times 100 in float64: for a
slice of a length a Go `int` can hold it is a finite value between 0 and 100, and for fewer
than 2⁵³ inspections it is `PassedSamples / TotalSamples` rounded to the nearest float64,
times 100, rounded again, which is within a relative 2⁻⁵¹ of
`100 × PassedSamples / TotalSamples`. -/
theorem AnalyzeDefects_counts_and_rounded_pass_rate {σ : Type}
    (repo : InspectionRepository σ) (lotNumber : String)
    (s s1 : σ) (inspections : List Inspection)
    (hf : repo.FindByLotNumber lotNumber s = ((inspections, none), s1)) :
    ((AnalyzeDefects repo lotNumber s).result.2 = some Error.ErrInspectionNotFound ↔
      inspections = []) ∧
    (inspections = [] →
      (AnalyzeDefects repo lotNumber s).result.1 = none) ∧
    (inspections ≠ [] →
      ∃ a : DefectAnalysis,
        (AnalyzeDefects repo lotNumber s).result.1 = some a ∧
        (AnalyzeDefects repo lotNumber s).result.2 = none ∧
        a.TotalSamples = inspections.length ∧
        a.PassedSamples
          = (inspections.countP (fun i => decide (i.FinalResult = ResultPass)) : Nat) ∧
        a.FailedSamples = a.TotalSamples - a.PassedSamples ∧
        a.PassedSamples + a.FailedSamples = a.TotalSamples ∧
        a.PassRate
          = Float64.mul
              (Float64.div (Float64.ofInt a.PassedSamples) (Float64.ofInt a.TotalSamples))
              (Float64.ofRat 100) ∧
        (inspections.length < 2 ^ 63 →
          ∃ r : ℚ, a.PassRate = Float64.fin r ∧ 0 ≤ r ∧ r ≤ 100) ∧
        (inspections.length < 2 ^ 53 →
          a.PassRate
            = Float64.fin (Float64.roundQ
                (Float64.roundQ ((a.PassedSamples : ℚ) / (a.TotalSamples : ℚ)) * 100)) ∧
          |Float64.roundQ
                (Float64.roundQ ((a.PassedSamples : ℚ) / (a.TotalSamples : ℚ)) * 100)
              - 100 * (a.PassedSamples : ℚ) / (a.TotalSamples : ℚ)|
            ≤ 2 ^ (-51 : ℤ) * (100 * (a.PassedSamples : ℚ) / (a.TotalSamples : ℚ)))) := by
  have hempty : inspections = [] →
      (AnalyzeDefects repo lotNumber s).result = (none, some Error.ErrInspectionNotFound) := by
    intro h
    simp [AnalyzeDefects, hf, h]
  have hfull : inspections ≠ [] → (AnalyzeDefects repo lotNumber s).result.2 = none := by
    intro hne
    obtain ⟨a, hres, -⟩ := AnalyzeDefects_nonempty repo lotNumber s s1 inspections hf hne
    rw [hres]
  refine ⟨⟨fun h => ?_, fun h => by rw [hempty h]⟩, fun h => by rw [hempty h], ?_⟩
  · by_contra hne
    rw [hfull hne] at h
    exact Option.noConfusion h
  · intro hne
    obtain ⟨a, hres, ht, hp, hfl, hrate⟩ :=
      AnalyzeDefects_nonempty repo lotNumber s s1 inspections hf hne
    have hlen : 0 < inspections.length := List.length_pos.mpr hne
    have hle : inspections.countP (fun i => decide (i.FinalResult = ResultPass))
        ≤ inspections.length := List.countP_le_length _
    have hp0 : (0 : ℤ)
        ≤ (inspections.countP (fun i => decide (i.FinalResult = ResultPass)) : Nat) :=
      Int.natCast_nonneg _
    have hpn : ((inspections.countP (fun i => decide (i.FinalResult = ResultPass)) : Nat) : ℤ)
        ≤ (inspections.length : ℤ) := by exact_mod_cast hle
    have hn0 : (0 : ℤ) < (inspections.length : ℤ) := by exact_mod_cast hlen
    refine ⟨a, by rw [hres], by rw [hres], ht, hp, ?_, ?_, ?_, ?_, ?_⟩
    · rw [hfl, ht, hp]
    · rw [hfl, ht, hp]
      ring
    · rw [hrate, ht, hp]
    · intro h63
      have h63' : (inspections.length : ℤ) ≤ 2 ^ 63 := by
        have : ((inspections.length : ℕ) : ℤ) < ((2 ^ 63 : ℕ) : ℤ) := by exact_mod_cast h63
        push_cast at this
        exact this.le
      rw [hrate]
      exact Float64.passRate_bounds _ _ hp0 hpn hn0 h63'
    · intro h53
      have h53' : (inspections.length : ℤ) < 2 ^ 53 := by
        have : ((inspections.length : ℕ) : ℤ) < ((2 ^ 53 : ℕ) : ℤ) := by exact_mod_cast h53
        push_cast at this
        exact this
      rw [hrate, ht, hp]
      exact Float64.passRate_eq _ _ hp0 hpn hn0 h53'

/-- Witness of C20 as amended: lot `lot-1` of the sample store has three inspections, two
of them passed: the pass rate is a float64 between 0 and 100 within a relative 2⁻⁵¹ of
200/3; the unknown lot `lot-9` gives `ErrInspectionNotFound`. -/
theorem AnalyzeDefects_counts_and_rounded_pass_rate_witness :
    (∃ (a : DefectAnalysis) (r : ℚ),
      (AnalyzeDefects memRepo "lot-1" sampleInspections).result.1 = some a ∧
      a.TotalSamples = 3 ∧ a.PassedSamples = 2 ∧ a.FailedSamples = 1 ∧
      a.PassRate = Float64.fin r ∧ 0 ≤ r ∧ r ≤ 100 ∧
      |r - 200 / 3| ≤ 2 ^ (-51 : ℤ) * (200 / 3)) ∧
    (AnalyzeDefects memRepo "lot-9" sampleInspections).result.2
      = some Error.ErrInspectionNotFound := by
  constructor
  · obtain ⟨a, hres, -, ht, hp, hfl, -, -, hb, hr⟩ :=
      (AnalyzeDefects_counts_and_rounded_pass_rate memRepo "lot-1" sampleInspections
        sampleInspections
        [sampleInspection [samplePassedResult],
          sampleInspection [samplePassedResult, sampleFailedResult],
          sampleInspection []] rfl).2.2 (by simp)
    have ht3 : a.TotalSamples = 3 := ht
    have hp2 : a.PassedSamples = 2 := by
      rw [hp]
      simp [List.countP_cons, sampleInspection, Complete, Complete.loop, samplePassedResult,
        sampleFailedResult, ResultPass, ResultFail]
    obtain ⟨r, hr1, hr2, hr3⟩ := hb (by norm_num)
    obtain ⟨hq1, hq2⟩ := hr (by norm_num)
    have hrr : r = Float64.roundQ
        (Float64.roundQ ((a.PassedSamples : ℚ) / (a.TotalSamples : ℚ)) * 100) := by
      rw [hr1] at hq1
      exact Float64.fin.inj hq1
    refine ⟨a, r, hres, ht3, hp2, ?_, hr1, hr2, hr3, ?_⟩
    · rw [hfl, ht3, hp2]
      rfl
    · rw [hrr]
      rw [ht3, hp2] at hq2 ⊢
      norm_num at hq2 ⊢
      exact hq2
  · exact (AnalyzeDefects_counts_and_rounded_pass_rate memRepo "lot-9" sampleInspections
      sampleInspections [] rfl).1.mpr rfl

/-- Counterexample to C20 as stated: lot `lot-4` has twenty inspections, eleven of them
passed, so `100 × PassedSamples / TotalSamples` is 55, itself a float64; the returned
`PassRate` is 55.00000000000001, the float64 next above it. -/
theorem AnalyzeDefects_pass_rate_not_exact_counterexample :
    ∃ a : DefectAnalysis,
      (AnalyzeDefects memRepo "lot-4" sampleRoundingLot).result = (some a, none) ∧
      a.TotalSamples = 20 ∧ a.PassedSamples = 11 ∧ a.FailedSamples = 9 ∧
      (100 * (a.PassedSamples : ℚ) / (a.TotalSamples : ℚ) = 55) ∧
      Float64.ofRat 55 = Float64.fin 55 ∧
      a.PassRate = Float64.fin (7740561859543041 / 140737488355328) ∧
      a.PassRate ≠ Float64.fin (100 * (a.PassedSamples : ℚ) / (a.TotalSamples : ℚ)) := by
  obtain ⟨a, hres, ht, hp, hfl, hrate⟩ :=
    AnalyzeDefects_nonempty memRepo "lot-4" sampleRoundingLot sampleRoundingLot
      sampleRoundingLot rfl (by simp [sampleRoundingLot])
  have hlen : sampleRoundingLot.length = 20 := rfl
  have hcnt : sampleRoundingLot.countP (fun i => decide (i.FinalResult = ResultPass)) = 11 := by
    simp [sampleRoundingLot, List.countP_append, List.countP_replicate, sampleInspection,
      Complete, Complete.loop, samplePassedResult, sampleFailedResult, ResultPass, ResultFail]
  rw [hlen] at ht
  rw [hcnt] at hp
  rw [hlen, hcnt] at hfl hrate
  simp only [Nat.cast_ofNat] at ht hp hfl hrate
  have ht20 : a.TotalSamples = 20 := ht
  have hp11 : a.PassedSamples = 11 := hp
  have hval : a.PassRate = Float64.fin (7740561859543041 / 140737488355328) := by
    rw [hrate, (Float64.passRate_eq 11 20 (by norm_num) (by norm_num) (by norm_num)
      (by norm_num)).1]
    have e : ((11 : ℤ) : ℚ) / ((20 : ℤ) : ℚ) = 11 / 20 := by norm_num
    rw [e, Float64.roundQ_11_20, Float64.roundQ_11_20_mul_100]
  have h55 : Float64.ofRat 55 = Float64.fin 55 := by
    have := Float64.ofInt_of_lt 55 (by norm_num)
    simpa [Float64.ofInt] using this
  refine ⟨a, hres, ht20, hp11, ?_, ?_, h55, hval, ?_⟩
  · rw [hfl]
    norm_num
  · rw [ht20, hp11]
    norm_num
  · rw [hval, ht20, hp11]
    intro h
    have := Float64.fin.inj h
    norm_num at this

end Quality

/-! ## Theorems: delayed orders -/

namespace Production

/-- A transition call on a delayed or cancelled order leaves it delayed or cancelled. -/
theorem call_of_delayed_or_cancelled (t : Transition) (now : Time) (po : ProductionOrder)
    (h : po.Status = StatusDelayed ∨ po.Status = StatusCancelled) :
    (t.call now po).1.Status = StatusDelayed ∨ (t.call now po).1.Status = StatusCancelled := by
  rcases h with h | h
  · have h1 : po.Status ≠ StatusPlanned := by rw [h]; decide
    have h2 : po.Status ≠ StatusInProgress := by rw [h]; decide
    have h3 : po.Status ≠ StatusCompleted := by rw [h]; decide
    have h4 : po.Status ≠ StatusCancelled := by rw [h]; decide
    cases t
    · have hcall : Transition.Start.call now po = (po, some Error.ErrInvalidStateTransition) := by
        simp [Transition.call, Start, h1]
      rw [hcall]
      exact Or.inl h
    · have hcall : Transition.Complete.call now po
          = (po, some Error.ErrInvalidStateTransition) := by
        simp [Transition.call, Complete, h2]
      rw [hcall]
      exact Or.inl h
    · have hcall : Transition.Delay.call now po = (po, some Error.ErrInvalidStateTransition) := by
        simp [Transition.call, Delay, h1, h2]
      rw [hcall]
      exact Or.inl h
    · right
      simp [Transition.call, Cancel, h3, h4]
  · rw [call_of_terminal t now po (Or.inr h)]
    exact Or.inr h

/-- Every order seen along a sequence of calls on a delayed or cancelled order is delayed or
cancelled. -/
theorem callAll_of_delayed_or_cancelled (calls : List (Transition × Time))
    (po : ProductionOrder)
    (h : po.Status = StatusDelayed ∨ po.Status = StatusCancelled) :
    ∀ r ∈ callAll calls po, r.1.Status = StatusDelayed ∨ r.1.Status = StatusCancelled := by
  induction calls generalizing po with
  | nil => simp [callAll]
  | cons c rest ih =>
    obtain ⟨t, now⟩ := c
    intro r hr
    simp only [callAll, List.mem_cons] at hr
    rcases hr with hr | hr
    · rw [hr]
      exact call_of_delayed_or_cancelled t now po h
    · exact ih _ (call_of_delayed_or_cancelled t now po h) r hr

/-- C27: on a delayed order `Start`, `Complete` and `Delay` return
`ErrInvalidStateTransition` and `Cancel` succeeds, leaving it cancelled; and along any
finite sequence of transition calls on a delayed order the status is delayed or cancelled
after every call, so it is never in_progress and never completed. -/
theorem delayed_is_dead_end :
    (∀ (now : Time) (po : ProductionOrder), po.Status = StatusDelayed →
      (Start now po).2 = some Error.ErrInvalidStateTransition ∧
      (Complete now po).2 = some Error.ErrInvalidStateTransition ∧
      (Delay now po).2 = some Error.ErrInvalidStateTransition ∧
      (Cancel now po).2 = none ∧
      (Cancel now po).1.Status = StatusCancelled) ∧
    (∀ (po : ProductionOrder) (calls : List (Transition × Time)),
      po.Status = StatusDelayed →
      ∀ r ∈ callAll calls po,
        (r.1.Status = StatusDelayed ∨ r.1.Status = StatusCancelled) ∧
        r.1.Status ≠ StatusInProgress ∧ r.1.Status ≠ StatusCompleted) := by
  constructor
  · intro now po h
    have h1 : po.Status ≠ StatusPlanned := by rw [h]; decide
    have h2 : po.Status ≠ StatusInProgress := by rw [h]; decide
    have h3 : po.Status ≠ StatusCompleted := by rw [h]; decide
    have h4 : po.Status ≠ StatusCancelled := by rw [h]; decide
    simp [Start, Complete, Delay, Cancel, h1, h2, h3, h4]
  · intro po calls h r hr
    have hs := callAll_of_delayed_or_cancelled calls po (Or.inl h) r hr
    refine ⟨hs, ?_, ?_⟩
    · rcases hs with hs | hs <;> rw [hs] <;> decide
    · rcases hs with hs | hs <;> rw [hs] <;> decide

/-- Witness of C27: on a delayed sample order `Start` fails and `Cancel` succeeds, and
after each of the calls Start, Complete, Delay, Cancel, Start the order is neither
in_progress nor completed. -/
theorem delayed_is_dead_end_witness :
    (Start ⟨200⟩ (sampleOrder StatusDelayed)).2 = some Error.ErrInvalidStateTransition ∧
    (Cancel ⟨200⟩ (sampleOrder StatusDelayed)).2 = none ∧
    (∀ r ∈ callAll [(Transition.Start, ⟨1⟩), (Transition.Complete, ⟨2⟩),
        (Transition.Delay, ⟨3⟩), (Transition.Cancel, ⟨4⟩), (Transition.Start, ⟨5⟩)]
        (sampleOrder StatusDelayed),
      (r.1.Status = StatusDelayed ∨ r.1.Status = StatusCancelled) ∧
      r.1.Status ≠ StatusInProgress ∧ r.1.Status ≠ StatusCompleted) :=
  ⟨(delayed_is_dead_end.1 ⟨200⟩ (sampleOrder StatusDelayed) rfl).1,
    (delayed_is_dead_end.1 ⟨200⟩ (sampleOrder StatusDelayed) rfl).2.2.2.1,
    delayed_is_dead_end.2 (sampleOrder StatusDelayed) _ rfl⟩

end Production

/-! ## Theorems: inspections without measurements, and the defect map -/

namespace Quality

/-- C28: `Complete` on an inspection whose `Results` list is empty sets `FinalResult` to
pass and `Status` to completed; so `CreateInspection` with an empty measurement list saves
an inspection with no results that is completed with final result pass, and, when `Save`
succeeds, returns it as such. -/
theorem empty_inspection_passes :
    (∀ (now : Time) (i : Inspection), i.Results = [] →
      (Complete now i).FinalResult = ResultPass ∧
      (Complete now i).Status = InspectionStatusCompleted) ∧
    (∀ (σ : Type) (repo : InspectionRepository σ) (clock : Nat → Time)
        (format : Time → String) (input : CreateInspectionInput) (s : σ),
      input.Measurements = [] →
      ∃ insp : Inspection,
        (CreateInspection repo clock format input s).calls = [RepoCall.Save insp] ∧
        insp.Results = [] ∧
        insp.Status = InspectionStatusCompleted ∧
        insp.FinalResult = ResultPass ∧
        ((repo.Save insp s).1 = none →
          ∃ out : InspectionOutput,
            (CreateInspection repo clock format input s).result = (some out, none) ∧
            out.Status = InspectionStatusCompleted ∧
            out.FinalResult = ResultPass ∧
            out.Measurements = [])) := by
  have hc : ∀ (now : Time) (i : Inspection), i.Results = [] →
      (Complete now i).FinalResult = ResultPass ∧
      (Complete now i).Status = InspectionStatusCompleted := by
    intro now i h
    simp [Complete, h, Complete.loop]
  refine ⟨hc, ?_⟩
  intro σ repo clock format input s hm
  obtain ⟨insp, hdef, hres, hcalls, -, hok, -⟩ := CreateInspection_run repo clock format input s
  have hempty : insp.Results = [] := by rw [hres, hm]; rfl
  have hloop : (CreateInspection.loop clock 2 input.Measurements
      (NewInspection (clock 0) (format (clock 1)) input.ProductionOrderID input.LotNumber
        input.InspectorID)).Results = [] := by
    rw [← hempty, hdef]
    rfl
  have hfin := hc (clock (2 + input.Measurements.length)) _ hloop
  rw [← hdef] at hfin
  refine ⟨insp, hcalls, hempty, hfin.2, hfin.1, fun hnone => ?_⟩
  refine ⟨convertToInspectionOutput insp, hok hnone, hfin.2, hfin.1, ?_⟩
  simp [convertToInspectionOutput, hempty]

/-- Witness of C28: the empty request on the in-memory store comes back completed with
final result pass and no measurements. -/
theorem empty_inspection_passes_witness :
    (Complete ⟨12⟩ (NewInspection ⟨10⟩ "20240101120000" "order-A-1" "lot-1" "insp-7")).FinalResult
      = ResultPass ∧
    (∃ out : InspectionOutput,
      (CreateInspection memRepo sampleClock sampleFormat sampleEmptyInput []).result
        = (some out, none) ∧
      out.Status = InspectionStatusCompleted ∧ out.FinalResult = ResultPass ∧
      out.Measurements = []) := by
  refine ⟨(empty_inspection_passes.1 ⟨12⟩ _ rfl).1, ?_⟩
  obtain ⟨insp, -, -, -, -, hok⟩ :=
    empty_inspection_passes.2 _ memRepo sampleClock sampleFormat sampleEmptyInput [] rfl
  exact hok rfl

/-- The inner loop of `AnalyzeDefects` adds, for each parameter name, the number of failed
results of that name; a name with none keeps its entry, or its absence. -/
theorem AnalyzeDefects.countDefects_apply (m : String → Option Int)
    (l : List MeasurementResult) (p : String) :
    AnalyzeDefects.countDefects m l p
      = if l.countP (fun r => decide (r.ParameterName = p) && !r.Pass) = 0 then m p
        else some ((m p).getD 0
          + (l.countP (fun r => decide (r.ParameterName = p) && !r.Pass) : Nat)) := by
  induction l generalizing m with
  | nil => simp [AnalyzeDefects.countDefects]
  | cons r rest ih =>
    cases hpass : r.Pass
    · by_cases hname : r.ParameterName = p
      · simp only [AnalyzeDefects.countDefects, hpass, Bool.not_false, if_true, ih,
          List.countP_cons, hname, decide_True, Bool.and_self, mapIncrement]
        by_cases hc : List.countP (fun r => decide (r.ParameterName = p) && !r.Pass) rest = 0
        · simp [hc]
        · simp only [hc, if_false, Nat.add_eq_zero, one_ne_zero, and_false, Option.getD_some,
            Option.some.injEq]
          push_cast
          ring
      · have hname' : ¬ p = r.ParameterName := fun e => hname e.symm
        simp [AnalyzeDefects.countDefects, hpass, ih, List.countP_cons, hname, hname',
          mapIncrement]
    · simp [AnalyzeDefects.countDefects, hpass, ih, List.countP_cons]

/-- The outer loop of `AnalyzeDefects` adds, for each parameter name, the number of failed
results of that name held by the inspections that did not pass. -/
theorem AnalyzeDefects.loop_defectTypes (a : DefectAnalysis) (l : List Inspection)
    (p : String) :
    (AnalyzeDefects.loop a l).DefectTypes p
      = if (l.map (fun i => if i.FinalResult = ResultPass then 0
            else i.Results.countP (fun r => decide (r.ParameterName = p) && !r.Pass))).sum = 0
        then a.DefectTypes p
        else some ((a.DefectTypes p).getD 0
          + ((l.map (fun i => if i.FinalResult = ResultPass then 0
              else i.Results.countP
                (fun r => decide (r.ParameterName = p) && !r.Pass))).sum : Nat)) := by
  induction l generalizing a with
  | nil => simp [AnalyzeDefects.loop]
  | cons i rest ih =>
    by_cases hp : i.FinalResult = ResultPass
    · have hpass : IsPassed i = true := by simp [IsPassed, hp]
      simp only [AnalyzeDefects.loop, hpass, if_true, ih, List.map_cons, List.sum_cons, hp,
        zero_add]
    · have hpass : IsPassed i = false := by simp [IsPassed, hp]
      simp only [AnalyzeDefects.loop, hpass, Bool.false_eq_true, if_false, ih, List.map_cons,
        List.sum_cons, hp, AnalyzeDefects.countDefects_apply]
      by_cases h1 : List.countP (fun r => decide (r.ParameterName = p) && !r.Pass) i.Results = 0
      · simp [h1]
      · by_cases h2 : (List.map (fun i => if i.FinalResult = ResultPass then 0
            else List.countP (fun r => decide (r.ParameterName = p) && !r.Pass) i.Results)
            rest).sum = 0
        · simp [h1, h2]
        · simp only [h1, h2, if_false, Nat.add_eq_zero, and_self, Option.getD_some,
            Option.some.injEq]
          push_cast
          ring

/-- C21: for a non-empty lot, the `DefectTypes` map returned by `AnalyzeDefects` assigns to
each parameter name the number of results with that name and `Pass = false` held by the
lot's inspections whose `FinalResult` is not pass; a name for which that number is zero is
absent from the map, and only such a name is. Every failed result of a failed inspection is
counted under its own name, so one inspection can feed several counters. -/
theorem AnalyzeDefects_defect_types {σ : Type} (repo : InspectionRepository σ)
    (lotNumber : String) (s s1 : σ) (inspections : List Inspection)
    (hf : repo.FindByLotNumber lotNumber s = ((inspections, none), s1))
    (hne : inspections ≠ []) :
    ∃ a : DefectAnalysis,
      (AnalyzeDefects repo lotNumber s).result.1 = some a ∧
      (AnalyzeDefects repo lotNumber s).result.2 = none ∧
      ∀ p : String,
        (a.DefectTypes p = none ↔
          (inspections.map (fun i => if i.FinalResult = ResultPass then 0
            else i.Results.countP
              (fun r => decide (r.ParameterName = p) && !r.Pass))).sum = 0) ∧
        ((inspections.map (fun i => if i.FinalResult = ResultPass then 0
            else i.Results.countP
              (fun r => decide (r.ParameterName = p) && !r.Pass))).sum ≠ 0 →
          a.DefectTypes p = some (((inspections.map (fun i =>
            if i.FinalResult = ResultPass then 0
            else i.Results.countP
              (fun r => decide (r.ParameterName = p) && !r.Pass))).sum : Nat) : Int)) := by
  have hlen : ¬ inspections.length = 0 := fun h => hne (List.length_eq_zero.mp h)
  have hres : (AnalyzeDefects repo lotNumber s).result =
      (some { AnalyzeDefects.loop
                { LotNumber := lotNumber
                  TotalSamples := inspections.length
                  PassedSamples := 0
                  FailedSamples := 0
                  PassRate := Float64.fin 0
                  DefectTypes := fun _ => none } inspections with
              PassRate :=
                Float64.mul
                  (Float64.div
                    (Float64.ofInt (AnalyzeDefects.loop
                      { LotNumber := lotNumber
                        TotalSamples := inspections.length
                        PassedSamples := 0
                        FailedSamples := 0
                        PassRate := Float64.fin 0
                        DefectTypes := fun _ => none } inspections).PassedSamples)
                    (Float64.ofInt (AnalyzeDefects.loop
                      { LotNumber := lotNumber
                        TotalSamples := inspections.length
                        PassedSamples := 0
                        FailedSamples := 0
                        PassRate := Float64.fin 0
                        DefectTypes := fun _ => none } inspections).TotalSamples))
                  (Float64.ofRat 100) },
        none) := by
    simp only [AnalyzeDefects, hf, hlen, if_false]
  refine ⟨_, by rw [hres], by rw [hres], fun p => ?_⟩
  simp only [AnalyzeDefects.loop_defectTypes]
  by_cases hc : (inspections.map (fun i => if i.FinalResult = ResultPass then 0
      else i.Results.countP (fun r => decide (r.ParameterName = p) && !r.Pass))).sum = 0
  · simp [hc]
  · simp [hc]

/-- Witness of C21, on the sample lot `lot-3`: roughness failed in two failed
inspections, the diameter in one of them, and nothing else failed; the passed diameter of a
failed inspection is not counted. -/
theorem AnalyzeDefects_defect_types_witness :
    ∃ a : DefectAnalysis,
      (AnalyzeDefects memRepo "lot-3" sampleDefectLot).result.1 = some a ∧
      a.DefectTypes "roughness" = some 2 ∧
      a.DefectTypes "diameter" = some 1 ∧
      a.DefectTypes "length" = none := by
  obtain ⟨a, hres, -, h⟩ :=
    AnalyzeDefects_defect_types memRepo "lot-3" sampleDefectLot sampleDefectLot sampleDefectLot
      rfl (by simp [sampleDefectLot])
  refine ⟨a, hres, ?_, ?_, ?_⟩
  · have h2 := (h "roughness").2
    simp [sampleDefectLot, sampleInspection, Complete, Complete.loop, NewInspection,
      samplePassedResult, sampleFailedResult, sampleFailedDiameter, ResultPass, ResultFail,
      List.countP_cons] at h2
    exact h2
  · have h2 := (h "diameter").2
    simp [sampleDefectLot, sampleInspection, Complete, Complete.loop, NewInspection,
      samplePassedResult, sampleFailedResult, sampleFailedDiameter, ResultPass, ResultFail,
      List.countP_cons] at h2
    exact h2
  · apply (h "length").1.mpr
    simp [sampleDefectLot, sampleInspection, Complete, Complete.loop, NewInspection,
      samplePassedResult, sampleFailedResult, sampleFailedDiameter, ResultPass, ResultFail,
      List.countP_cons]

end Quality

/-! ## Theorems: the quality feedback controller -/

namespace Seed

/-- The integral loop adds the errors of the records to the running value. -/
theorem calculatePIDCorrection.loop_eq (l : List ControlRecord) (integral : ℚ) :
    calculatePIDCorrection.loop l integral = integral + (l.map (fun r => r.Error)).sum := by
  induction l generalizing integral with
  | nil => simp [calculatePIDCorrection.loop]
  | cons r rest ih =>
    simp only [calculatePIDCorrection.loop, ih, List.map_cons, List.sum_cons]
    ring

/-- The run of `ProcessInspectionFeedback` once the inspection is loaded and its payload
decoded: nothing more inside the dead-band; outside it the determined action is executed
and, when that succeeds, one record is appended. -/
theorem ProcessInspectionFeedback_run {σ : Type} (env : Env σ) (now : Time)
    (qfc : QualityFeedbackController) (inspectionID : String) (s s1 : σ)
    (inspection : Inspection) (measuredData : String → Option JSONValue) (e : ℚ)
    (hq : env.QueryInspection inspectionID s = ((inspection, none), s1))
    (hu : env.Unmarshal inspection.MeasuredValues = (measuredData, none))
    (hE : qfc.targetCpk - ProcessInspectionFeedback.cpk measuredData = e) :
    (|e| ≤ 1 / 10 →
      (ProcessInspectionFeedback env now qfc inspectionID s).result = (qfc, none) ∧
      (ProcessInspectionFeedback env now qfc inspectionID s).state = s1 ∧
      (ProcessInspectionFeedback env now qfc inspectionID s).calls
        = [DBCall.QueryInspection inspectionID]) ∧
    (|e| > 1 / 10 →
      (ProcessInspectionFeedback env now qfc inspectionID s).state
        = (executeCorrectiveAction env
            (determineCorrectiveAction env inspection e (calculatePIDCorrection qfc e)) s1).state ∧
      (ProcessInspectionFeedback env now qfc inspectionID s).calls
        = DBCall.QueryInspection inspectionID :: (executeCorrectiveAction env
            (determineCorrectiveAction env inspection e (calculatePIDCorrection qfc e)) s1).calls ∧
      ((executeCorrectiveAction env
          (determineCorrectiveAction env inspection e (calculatePIDCorrection qfc e)) s1).result
          = none →
        (ProcessInspectionFeedback env now qfc inspectionID s).result
          = ({ qfc with
                controlHistory := qfc.controlHistory ++
                  [{ Timestamp := now
                     Error := e
                     Output := calculatePIDCorrection qfc e
                     Action := (determineCorrectiveAction env inspection e
                       (calculatePIDCorrection qfc e)).ActionType }] }, none)) ∧
      (∀ err, (executeCorrectiveAction env
          (determineCorrectiveAction env inspection e (calculatePIDCorrection qfc e)) s1).result
          = some err →
        (ProcessInspectionFeedback env now qfc inspectionID s).result
          = (qfc, some (Error.Wrapped "failed to execute corrective action" err)))) := by
  subst hE
  constructor
  · intro he
    have he' : ¬ |qfc.targetCpk - ProcessInspectionFeedback.cpk measuredData| > 1 / 10 :=
      not_lt.mpr he
    simp only [ProcessInspectionFeedback, getInspection, hq, hu]
    rw [if_neg he']
    exact ⟨rfl, rfl, rfl⟩
  · intro he
    simp only [ProcessInspectionFeedback, getInspection, hq, hu]
    rw [if_pos he]
    rcases hx : (executeCorrectiveAction env
      (determineCorrectiveAction env inspection
        (qfc.targetCpk - ProcessInspectionFeedback.cpk measuredData)
        (calculatePIDCorrection qfc
          (qfc.targetCpk - ProcessInspectionFeedback.cpk measuredData))) s1) with ⟨r, st, cs⟩
    cases r <;> simp

/-- C22: when the inspection is loaded and its payload decoded, and the control error
`e = targetCpk − cpk` satisfies `|e| ≤ 0.1`, boundaries included,
`ProcessInspectionFeedback` returns nil with the controller, its history included, as it
was, and its only database statement is the inspection query: no corrective action is
executed. -/
theorem ProcessInspectionFeedback_dead_band {σ : Type} (env : Env σ) (now : Time)
    (qfc : QualityFeedbackController) (inspectionID : String) (s s1 : σ)
    (inspection : Inspection) (measuredData : String → Option JSONValue) (e : ℚ)
    (hq : env.QueryInspection inspectionID s = ((inspection, none), s1))
    (hu : env.Unmarshal inspection.MeasuredValues = (measuredData, none))
    (hE : qfc.targetCpk - ProcessInspectionFeedback.cpk measuredData = e)
    (he : |e| ≤ 1 / 10) :
    (ProcessInspectionFeedback env now qfc inspectionID s).result.2 = none ∧
    (ProcessInspectionFeedback env now qfc inspectionID s).result.1 = qfc ∧
    (ProcessInspectionFeedback env now qfc inspectionID s).result.1.controlHistory
      = qfc.controlHistory ∧
    (ProcessInspectionFeedback env now qfc inspectionID s).calls
      = [DBCall.QueryInspection inspectionID] ∧
    (ProcessInspectionFeedback env now qfc inspectionID s).state = s1 := by
  obtain ⟨h1, h2, h3⟩ :=
    (ProcessInspectionFeedback_run env now qfc inspectionID s s1 inspection measuredData e
      hq hu hE).1 he
  rw [h1]
  exact ⟨rfl, rfl, rfl, h3, h2⟩

/-- Witness of C22: the default controller on the sample inspection with `cpk` 1.57, whose
error, 1.67 − 1.57 in float64, is 0.09999999999999987. -/
theorem ProcessInspectionFeedback_dead_band_witness :
    |(450359962737049 / 4503599627370496 : ℚ)| ≤ 1 / 10 ∧
    NewQualityFeedbackController.targetCpk - ProcessInspectionFeedback.cpk sampleDataEdge
      = 450359962737049 / 4503599627370496 ∧
    (ProcessInspectionFeedback sampleEnv ⟨500⟩ NewQualityFeedbackController "INSP-EDGE"
        sampleDB).result = (NewQualityFeedbackController, none) ∧
    (ProcessInspectionFeedback sampleEnv ⟨500⟩ NewQualityFeedbackController "INSP-EDGE"
        sampleDB).calls = [DBCall.QueryInspection "INSP-EDGE"] := by
  have he : |(450359962737049 / 4503599627370496 : ℚ)| ≤ 1 / 10 := by
    norm_num [abs_of_pos]
  have hE : NewQualityFeedbackController.targetCpk - ProcessInspectionFeedback.cpk sampleDataEdge
      = 450359962737049 / 4503599627370496 := by
    simp only [ProcessInspectionFeedback.cpk, sampleDataEdge, NewQualityFeedbackController,
      if_true, Float64.roundQ_167_100, Float64.roundQ_157_100]
    norm_num
  have h := ProcessInspectionFeedback_dead_band sampleEnv ⟨500⟩ NewQualityFeedbackController
    "INSP-EDGE" sampleDB sampleDB (sampleInspection "INSP-EDGE" samplePayloadEdge)
    sampleDataEdge (450359962737049 / 4503599627370496) rfl rfl hE he
  exact ⟨he, hE, Prod.ext h.2.1 h.1, h.2.2.2.1⟩

/-- C23: for every gains, history and error, in exact arithmetic, `calculatePIDCorrection`
returns `Kp·e + Ki·(sum of the Error fields of the history) + Kd·(e − Error of the last
record)`, the last term being 0 when the history is empty; with gains (0.5, 0.1, 0.05),
empty history and `e = 0.3` the correction is 0.15. -/
theorem calculatePIDCorrection_spec :
    (∀ (qfc : QualityFeedbackController) (e : ℚ) (init : List ControlRecord)
        (last : ControlRecord),
      qfc.controlHistory = init ++ [last] →
      calculatePIDCorrection qfc e
        = qfc.pidGains.Kp * e
          + qfc.pidGains.Ki * (qfc.controlHistory.map (fun r => r.Error)).sum
          + qfc.pidGains.Kd * (e - last.Error)) ∧
    (∀ (qfc : QualityFeedbackController) (e : ℚ),
      qfc.controlHistory = [] →
      calculatePIDCorrection qfc e
        = qfc.pidGains.Kp * e
          + qfc.pidGains.Ki * (qfc.controlHistory.map (fun r => r.Error)).sum + 0) ∧
    (∀ target : ℚ,
      calculatePIDCorrection
        { targetCpk := target
          pidGains :=
            { Kp := 1 / 2
              Ki := 1 / 10
              Kd := 1 / 20 }
          controlHistory := [] } (3 / 10) = 3 / 20) ∧
    calculatePIDCorrection NewQualityFeedbackController (3 / 10) = 3 / 20 := by
  refine ⟨?_, ?_, ?_, ?_⟩
  · intro qfc e init last h
    have hlen : qfc.controlHistory.length > 0 := by simp [h]
    have hlast : (qfc.controlHistory.get ⟨qfc.controlHistory.length - 1, by omega⟩) = last := by
      simp [h]
    simp only [calculatePIDCorrection, calculatePIDCorrection.loop_eq, hlen, dif_pos, hlast]
    ring
  · intro qfc e h
    simp only [calculatePIDCorrection, calculatePIDCorrection.loop_eq, h, List.length_nil,
      gt_iff_lt, lt_self_iff_false, dif_neg, not_false_eq_true, List.map_nil, List.sum_nil]
    ring
  · intro target
    norm_num [calculatePIDCorrection, calculatePIDCorrection.loop]
  · norm_num [calculatePIDCorrection, calculatePIDCorrection.loop, NewQualityFeedbackController,
      Float64.roundQ_1_2]

/-- Witness of C23: gains (0.5, 0.1, 0.05) read exactly, history with errors 0.2 and 0.4,
error 0.3: `0.5·0.3 + 0.1·0.6 + 0.05·(0.3 − 0.4) = 0.205`. -/
theorem calculatePIDCorrection_spec_witness :
    calculatePIDCorrection
      { targetCpk := 167 / 100
        pidGains :=
          { Kp := 1 / 2
            Ki := 1 / 10
            Kd := 1 / 20 }
        controlHistory :=
          [⟨⟨1⟩, 1 / 5, 1 / 10, "cutting_condition_tuning"⟩,
            ⟨⟨2⟩, 2 / 5, 1 / 4, "tool_offset_adjustment"⟩] } (3 / 10) = 41 / 200 := by
  rw [calculatePIDCorrection_spec.1 _ (3 / 10)
    [⟨⟨1⟩, 1 / 5, 1 / 10, "cutting_condition_tuning"⟩]
    ⟨⟨2⟩, 2 / 5, 1 / 4, "tool_offset_adjustment"⟩ rfl]
  norm_num

/-- The kind of the determined action depends on the size of the error alone. -/
theorem determineCorrectiveAction_ActionType {σ : Type} (env : Env σ)
    (inspection : Inspection) (e c : ℚ) :
    (determineCorrectiveAction env inspection e c).ActionType
      = if |e| > 1 / 2 then "major_nc_adjustment"
        else if |e| > 1 / 5 then "tool_offset_adjustment"
        else "cutting_condition_tuning" := by
  simp only [determineCorrectiveAction]
  split
  · split_ifs <;> rfl
  · split_ifs <;> rfl

/-- The determined action never names a program. -/
theorem determineCorrectiveAction_NCProgramID {σ : Type} (env : Env σ)
    (inspection : Inspection) (e c : ℚ) :
    (determineCorrectiveAction env inspection e c).NCProgramID = "" := by
  simp only [determineCorrectiveAction]
  split
  · split_ifs <;> rfl
  · split_ifs <;> rfl

/-- The parameters of the determined action when the payload names none of the three
failure modes: those of the tier. -/
theorem determineCorrectiveAction_Parameters {σ : Type} (env : Env σ)
    (inspection : Inspection) (e c : ℚ)
    (hfm : ∀ fm, (env.Unmarshal inspection.MeasuredValues).1 "failure_mode"
        = some (JSONValue.string fm) →
      fm ≠ "diameter_oversize" ∧ fm ≠ "surface_roughness_excess" ∧
        fm ≠ "concentricity_error") :
    (determineCorrectiveAction env inspection e c).Parameters
      = if |e| > 1 / 2 then
          mapSet (mapSet (fun _ => none) "offset_adjustment" (c * (1 / 100)))
            "speed_adjustment" (c * (-5))
        else if |e| > 1 / 5 then mapSet (fun _ => none) "wear_offset" (c * (1 / 200))
        else mapSet (fun _ => none) "feed_rate_adjustment" (c * 2) := by
  simp only [determineCorrectiveAction]
  split
  · rename_i fm hfm'
    obtain ⟨h1, h2, h3⟩ := hfm fm hfm'
    simp only [h1, h2, h3, if_false]
    split_ifs <;> rfl
  · split_ifs <;> rfl

/-- Executing a cutting-condition tuning touches nothing and succeeds. -/
theorem executeCorrectiveAction_cutting {σ : Type} (env : Env σ) (action : CorrectiveAction)
    (s : σ) (h : action.ActionType = "cutting_condition_tuning") :
    executeCorrectiveAction env action s = ⟨none, s, []⟩ := by
  simp [executeCorrectiveAction, h, updateCuttingConditions]

/-- Executing a major NC adjustment is the program update: the `UPDATE` statement with the
formatted compensation and the action's program id, its error and the database after it. -/
theorem executeCorrectiveAction_major {σ : Type} (env : Env σ) (action : CorrectiveAction)
    (s : σ) (h : action.ActionType = "major_nc_adjustment") :
    (executeCorrectiveAction env action s).result
      = (env.ExecUpdateNCProgram
          (env.SprintfCompensation (mapGet action.Parameters "offset_adjustment")
            (mapGet action.Parameters "speed_adjustment")) action.NCProgramID s).1 ∧
    (executeCorrectiveAction env action s).state
      = (env.ExecUpdateNCProgram
          (env.SprintfCompensation (mapGet action.Parameters "offset_adjustment")
            (mapGet action.Parameters "speed_adjustment")) action.NCProgramID s).2 ∧
    (executeCorrectiveAction env action s).calls
      = [DBCall.ExecUpdateNCProgram
          (env.SprintfCompensation (mapGet action.Parameters "offset_adjustment")
            (mapGet action.Parameters "speed_adjustment")) action.NCProgramID] := by
  simp [executeCorrectiveAction, h, updateNCProgram]

/-- The two parameters a major NC adjustment is formatted from, whatever failure mode the
payload names. -/
theorem determineCorrectiveAction_major_parameters {σ : Type} (env : Env σ)
    (inspection : Inspection) (e c : ℚ) (he : |e| > 1 / 2) :
    mapGet (determineCorrectiveAction env inspection e c).Parameters "offset_adjustment"
      = c * (1 / 100) ∧
    mapGet (determineCorrectiveAction env inspection e c).Parameters "speed_adjustment"
      = c * (-5) := by
  simp only [determineCorrectiveAction, if_pos he]
  split
  · split_ifs <;> simp [mapGet, mapSet]
  · simp [mapGet, mapSet]

/-- C25: `determineCorrectiveAction` selects the kind by `|e|` alone: `|e| > 0.5` gives
major_nc_adjustment, `0.2 < |e| ≤ 0.5` gives tool_offset_adjustment, and `|e| ≤ 0.2`, so in
particular `0.1 < |e| ≤ 0.2`, gives cutting_condition_tuning; with `|e| = 0.3` the kind is
tool_offset_adjustment. When the payload names none of the failure modes, the parameters
are exactly `offset_adjustment = c × 0.01` and `speed_adjustment = c × −5.0` in the first
tier, `wear_offset = c × 0.005` in the second, `feed_rate_adjustment = c × 2.0` in the
third. -/
theorem determineCorrectiveAction_tiers {σ : Type} (env : Env σ) (inspection : Inspection)
    (e c : ℚ) :
    (|e| > 1 / 2 →
      (determineCorrectiveAction env inspection e c).ActionType = "major_nc_adjustment") ∧
    (1 / 5 < |e| → |e| ≤ 1 / 2 →
      (determineCorrectiveAction env inspection e c).ActionType = "tool_offset_adjustment") ∧
    (|e| ≤ 1 / 5 →
      (determineCorrectiveAction env inspection e c).ActionType
        = "cutting_condition_tuning") ∧
    (|e| = 3 / 10 →
      (determineCorrectiveAction env inspection e c).ActionType = "tool_offset_adjustment") ∧
    ((∀ fm, (env.Unmarshal inspection.MeasuredValues).1 "failure_mode"
          = some (JSONValue.string fm) →
        fm ≠ "diameter_oversize" ∧ fm ≠ "surface_roughness_excess" ∧
          fm ≠ "concentricity_error") →
      (|e| > 1 / 2 →
        ∀ k, (determineCorrectiveAction env inspection e c).Parameters k
          = if k = "speed_adjustment" then some (c * (-5))
            else if k = "offset_adjustment" then some (c * (1 / 100))
            else none) ∧
      (1 / 5 < |e| → |e| ≤ 1 / 2 →
        ∀ k, (determineCorrectiveAction env inspection e c).Parameters k
          = if k = "wear_offset" then some (c * (1 / 200)) else none) ∧
      (|e| ≤ 1 / 5 →
        ∀ k, (determineCorrectiveAction env inspection e c).Parameters k
          = if k = "feed_rate_adjustment" then some (c * 2) else none)) := by
  have hmajor : |e| > 1 / 2 →
      (determineCorrectiveAction env inspection e c).ActionType = "major_nc_adjustment" := by
    intro h
    rw [determineCorrectiveAction_ActionType, if_pos h]
  have htool : 1 / 5 < |e| → |e| ≤ 1 / 2 →
      (determineCorrectiveAction env inspection e c).ActionType = "tool_offset_adjustment" := by
    intro h1 h2
    rw [determineCorrectiveAction_ActionType, if_neg (not_lt.mpr h2), if_pos h1]
  have hcut : |e| ≤ 1 / 5 →
      (determineCorrectiveAction env inspection e c).ActionType
        = "cutting_condition_tuning" := by
    intro h
    have h2 : ¬ |e| > 1 / 2 := not_lt.mpr (le_trans h (by norm_num))
    rw [determineCorrectiveAction_ActionType, if_neg h2, if_neg (not_lt.mpr h)]
  refine ⟨hmajor, htool, hcut, ?_, ?_⟩
  · intro h
    exact htool (by rw [h]; norm_num) (by rw [h]; norm_num)
  · intro hfm
    rw [determineCorrectiveAction_Parameters env inspection e c hfm]
    refine ⟨fun h k => ?_, fun h1 h2 k => ?_, fun h k => ?_⟩
    · rw [if_pos h]
      rfl
    · rw [if_neg (not_lt.mpr h2), if_pos h1]
      rfl
    · have h2 : ¬ |e| > 1 / 2 := not_lt.mpr (le_trans h (by norm_num))
      rw [if_neg h2, if_neg (not_lt.mpr h)]
      rfl

/-- Witness of C25: on the sample inspection with `cpk` 1.37, error 0.3 and correction
0.15 give a tool offset adjustment whose only parameter is `wear_offset = 0.00075`; error
−0.78 gives a major adjustment and error 0.17 a cutting-condition tuning. -/
theorem determineCorrectiveAction_tiers_witness :
    (determineCorrectiveAction sampleEnv (sampleInspection "INSP-TOOL" samplePayloadTool)
      (3 / 10) (3 / 20)).ActionType = "tool_offset_adjustment" ∧
    (determineCorrectiveAction sampleEnv (sampleInspection "INSP-TOOL" samplePayloadTool)
      (3 / 10) (3 / 20)).Parameters "wear_offset" = some (3 / 4000) ∧
    (determineCorrectiveAction sampleEnv (sampleInspection "INSP-TOOL" samplePayloadTool)
      (3 / 10) (3 / 20)).Parameters "feed_rate_adjustment" = none ∧
    (determineCorrectiveAction sampleEnv (sampleInspection "INSP-TOOL" samplePayloadTool)
      (-(39 / 50)) (3 / 20)).ActionType = "major_nc_adjustment" ∧
    (determineCorrectiveAction sampleEnv (sampleInspection "INSP-TOOL" samplePayloadTool)
      (17 / 100) (3 / 20)).ActionType = "cutting_condition_tuning" := by
  have hfm : ∀ fm, (sampleEnv.Unmarshal
      (sampleInspection "INSP-TOOL" samplePayloadTool).MeasuredValues).1 "failure_mode"
        = some (JSONValue.string fm) →
      fm ≠ "diameter_oversize" ∧ fm ≠ "surface_roughness_excess" ∧
        fm ≠ "concentricity_error" := by
    intro fm h
    have hu : sampleEnv.Unmarshal (sampleInspection "INSP-TOOL" samplePayloadTool).MeasuredValues
        = (sampleDataTool, none) := rfl
    rw [hu] at h
    simp [sampleDataTool] at h
  have h3 : |(3 / 10 : ℚ)| = 3 / 10 := by norm_num [abs_of_pos]
  have t := determineCorrectiveAction_tiers sampleEnv
    (sampleInspection "INSP-TOOL" samplePayloadTool) (3 / 10) (3 / 20)
  have p := (t.2.2.2.2 hfm).2.1 (by rw [h3]; norm_num) (by rw [h3]; norm_num)
  refine ⟨t.2.2.2.1 h3, ?_, ?_, ?_, ?_⟩
  · rw [p "wear_offset"]
    norm_num
  · rw [p "feed_rate_adjustment"]
    simp
  · exact (determineCorrectiveAction_tiers sampleEnv
      (sampleInspection "INSP-TOOL" samplePayloadTool) (-(39 / 50)) (3 / 20)).1
      (by norm_num [abs_of_neg])
  · exact (determineCorrectiveAction_tiers sampleEnv
      (sampleInspection "INSP-TOOL" samplePayloadTool) (17 / 100) (3 / 20)).2.2.1
      (by norm_num [abs_of_pos])

/-- C26: when the inspection is loaded and its payload decoded, and the error `e`
satisfies `|e| > 0.1`: if executing the determined action succeeds, nil is returned and the
history afterwards is the previous history with one record appended, with `Error = e`,
`Output` the computed correction, `Action` the kind of the action and the clock reading as
`Timestamp`; if executing fails, that error is returned, wrapped, and the history is as
before. -/
theorem ProcessInspectionFeedback_history {σ : Type} (env : Env σ) (now : Time)
    (qfc : QualityFeedbackController) (inspectionID : String) (s s1 : σ)
    (inspection : Inspection) (measuredData : String → Option JSONValue) (e : ℚ)
    (hq : env.QueryInspection inspectionID s = ((inspection, none), s1))
    (hu : env.Unmarshal inspection.MeasuredValues = (measuredData, none))
    (hE : qfc.targetCpk - ProcessInspectionFeedback.cpk measuredData = e)
    (he : |e| > 1 / 10) :
    ((executeCorrectiveAction env
        (determineCorrectiveAction env inspection e (calculatePIDCorrection qfc e)) s1).result
        = none →
      (ProcessInspectionFeedback env now qfc inspectionID s).result.2 = none ∧
      (ProcessInspectionFeedback env now qfc inspectionID s).result.1.controlHistory
        = qfc.controlHistory ++
          [{ Timestamp := now
             Error := e
             Output := calculatePIDCorrection qfc e
             Action := (determineCorrectiveAction env inspection e
               (calculatePIDCorrection qfc e)).ActionType }]) ∧
    (∀ err, (executeCorrectiveAction env
        (determineCorrectiveAction env inspection e (calculatePIDCorrection qfc e)) s1).result
        = some err →
      (ProcessInspectionFeedback env now qfc inspectionID s).result.2
        = some (Error.Wrapped "failed to execute corrective action" err) ∧
      (ProcessInspectionFeedback env now qfc inspectionID s).result.1.controlHistory
        = qfc.controlHistory) := by
  obtain ⟨-, -, hok, herr⟩ :=
    (ProcessInspectionFeedback_run env now qfc inspectionID s s1 inspection measuredData e
      hq hu hE).2 he
  constructor
  · intro h
    rw [hok h]
    exact ⟨rfl, rfl⟩
  · intro err h
    rw [herr err h]
    exact ⟨rfl, rfl⟩

/-- Witness of C26: the default controller on the sample inspection with `cpk` 1.37, whose
error, 1.67 − 1.37 in float64, is 0.2999999999999998. On the working database one record is
appended; on the read-only database the insert fails, an error is returned and the history
stays empty. -/
theorem ProcessInspectionFeedback_history_witness :
    |(337769972052787 / 1125899906842624 : ℚ)| > 1 / 10 ∧
    (ProcessInspectionFeedback sampleEnv ⟨500⟩ NewQualityFeedbackController "INSP-TOOL"
        sampleDB).result.2 = none ∧
    (ProcessInspectionFeedback sampleEnv ⟨500⟩ NewQualityFeedbackController "INSP-TOOL"
        sampleDB).result.1.controlHistory
      = [⟨⟨500⟩, 337769972052787 / 1125899906842624, 337769972052787 / 2251799813685248,
          "tool_offset_adjustment"⟩] ∧
    (ProcessInspectionFeedback sampleReadOnlyEnv ⟨500⟩ NewQualityFeedbackController "INSP-TOOL"
        sampleDB).result.2
      = some (Error.Wrapped "failed to execute corrective action"
          (Error.Storage "read-only transaction")) ∧
    (ProcessInspectionFeedback sampleReadOnlyEnv ⟨500⟩ NewQualityFeedbackController "INSP-TOOL"
        sampleDB).result.1.controlHistory = [] := by
  have he : |(337769972052787 / 1125899906842624 : ℚ)| > 1 / 10 := by norm_num [abs_of_pos]
  have hE : NewQualityFeedbackController.targetCpk - ProcessInspectionFeedback.cpk sampleDataTool
      = 337769972052787 / 1125899906842624 := by
    simp only [ProcessInspectionFeedback.cpk, sampleDataTool, NewQualityFeedbackController,
      if_true, Float64.roundQ_167_100, Float64.roundQ_137_100]
    norm_num
  have hc : calculatePIDCorrection NewQualityFeedbackController
      (337769972052787 / 1125899906842624) = 337769972052787 / 2251799813685248 := by
    norm_num [calculatePIDCorrection, calculatePIDCorrection.loop, NewQualityFeedbackController,
      Float64.roundQ_1_2]
  have ht : ∀ env : Env MemDB, (determineCorrectiveAction env
      (sampleInspection "INSP-TOOL" samplePayloadTool) (337769972052787 / 1125899906842624)
      (337769972052787 / 2251799813685248)).ActionType = "tool_offset_adjustment" := by
    intro env
    rw [determineCorrectiveAction_ActionType]
    norm_num [abs_of_pos]
  have h1 := ProcessInspectionFeedback_history sampleEnv ⟨500⟩ NewQualityFeedbackController
    "INSP-TOOL" sampleDB sampleDB (sampleInspection "INSP-TOOL" samplePayloadTool)
    sampleDataTool (337769972052787 / 1125899906842624) rfl rfl hE he
  have h2 := ProcessInspectionFeedback_history sampleReadOnlyEnv ⟨500⟩
    NewQualityFeedbackController "INSP-TOOL" sampleDB sampleDB
    (sampleInspection "INSP-TOOL" samplePayloadTool) sampleDataTool
    (337769972052787 / 1125899906842624) rfl rfl hE he
  rw [hc] at h1 h2
  have hx1 : (executeCorrectiveAction sampleEnv (determineCorrectiveAction sampleEnv
      (sampleInspection "INSP-TOOL" samplePayloadTool) (337769972052787 / 1125899906842624)
      (337769972052787 / 2251799813685248)) sampleDB).result = none := by
    simp [executeCorrectiveAction, ht, updateToolOffset, sampleEnv]
  have hx2 : (executeCorrectiveAction sampleReadOnlyEnv (determineCorrectiveAction
      sampleReadOnlyEnv (sampleInspection "INSP-TOOL" samplePayloadTool)
      (337769972052787 / 1125899906842624) (337769972052787 / 2251799813685248))
      sampleDB).result = some (Error.Storage "read-only transaction") := by
    simp [executeCorrectiveAction, ht, updateToolOffset, sampleReadOnlyEnv]
  obtain ⟨a1, a2⟩ := h1.1 hx1
  obtain ⟨b1, b2⟩ := h2.2 _ hx2
  rw [ht] at a2
  exact ⟨he, a1, a2, b1, b2⟩

/-- C24 (as amended): `ProcessInspectionFeedback` keeps no trace of the inspections it has
handled. Take two successive calls for the same inspection id that load the same
inspection, with error `e`. If `|e| ≤ 0.1` the second call leaves the history as the first
left it. If `|e| > 0.1` and both calls return nil, the first appends a record and the second
appends another one: both have `Error = e` and the same action kind, each has the clock
reading of its own call, and the history ends two records longer than it started. -/
theorem second_feedback_appends_again {σ : Type} (env : Env σ) (now1 now2 : Time)
    (qfc : QualityFeedbackController) (inspectionID : String) (s s1 s2 : σ)
    (inspection : Inspection) (measuredData : String → Option JSONValue) (e : ℚ)
    (hq1 : env.QueryInspection inspectionID s = ((inspection, none), s1))
    (hu : env.Unmarshal inspection.MeasuredValues = (measuredData, none))
    (hE : qfc.targetCpk - ProcessInspectionFeedback.cpk measuredData = e)
    (hq2 : env.QueryInspection inspectionID
        (ProcessInspectionFeedback env now1 qfc inspectionID s).state
      = ((inspection, none), s2)) :
    (|e| ≤ 1 / 10 →
      (ProcessInspectionFeedback env now2
          (ProcessInspectionFeedback env now1 qfc inspectionID s).result.1 inspectionID
          (ProcessInspectionFeedback env now1 qfc inspectionID s).state).result.1.controlHistory
        = (ProcessInspectionFeedback env now1 qfc inspectionID s).result.1.controlHistory) ∧
    (|e| > 1 / 10 →
      (ProcessInspectionFeedback env now1 qfc inspectionID s).result.2 = none →
      (ProcessInspectionFeedback env now2
          (ProcessInspectionFeedback env now1 qfc inspectionID s).result.1 inspectionID
          (ProcessInspectionFeedback env now1 qfc inspectionID s).state).result.2 = none →
      ∃ r1 r2 : ControlRecord,
        r1.Error = e ∧ r2.Error = e ∧ r1.Timestamp = now1 ∧ r2.Timestamp = now2 ∧
        r1.Action = r2.Action ∧
        (ProcessInspectionFeedback env now1 qfc inspectionID s).result.1.controlHistory
          = qfc.controlHistory ++ [r1] ∧
        (ProcessInspectionFeedback env now2
            (ProcessInspectionFeedback env now1 qfc inspectionID s).result.1 inspectionID
            (ProcessInspectionFeedback env now1 qfc inspectionID s).state).result.1.controlHistory
          = qfc.controlHistory ++ [r1, r2]) := by
  have run1 := ProcessInspectionFeedback_run env now1 qfc inspectionID s s1 inspection
    measuredData e hq1 hu hE
  constructor
  · intro he
    have hres1 := (run1.1 he).1
    have hE2 : (ProcessInspectionFeedback env now1 qfc inspectionID s).result.1.targetCpk
        - ProcessInspectionFeedback.cpk measuredData = e := by rw [hres1]; exact hE
    have run2 := ProcessInspectionFeedback_run env now2
      (ProcessInspectionFeedback env now1 qfc inspectionID s).result.1 inspectionID
      (ProcessInspectionFeedback env now1 qfc inspectionID s).state s2 inspection
      measuredData e hq2 hu hE2
    rw [(run2.1 he).1]
  · intro he hnil1 hnil2
    obtain ⟨-, -, hok1, herr1⟩ := run1.2 he
    have hres1 : (ProcessInspectionFeedback env now1 qfc inspectionID s).result
        = ({ qfc with
              controlHistory := qfc.controlHistory ++
                [{ Timestamp := now1
                   Error := e
                   Output := calculatePIDCorrection qfc e
                   Action := (determineCorrectiveAction env inspection e
                     (calculatePIDCorrection qfc e)).ActionType }] }, none) := by
      cases hx : (executeCorrectiveAction env
        (determineCorrectiveAction env inspection e (calculatePIDCorrection qfc e)) s1).result with
      | none => exact hok1 hx
      | some err =>
        rw [herr1 err hx] at hnil1
        exact Option.noConfusion hnil1
    have hE2 : (ProcessInspectionFeedback env now1 qfc inspectionID s).result.1.targetCpk
        - ProcessInspectionFeedback.cpk measuredData = e := by rw [hres1]; exact hE
    obtain ⟨-, -, hok2, herr2⟩ := (ProcessInspectionFeedback_run env now2
      (ProcessInspectionFeedback env now1 qfc inspectionID s).result.1 inspectionID
      (ProcessInspectionFeedback env now1 qfc inspectionID s).state s2 inspection
      measuredData e hq2 hu hE2).2 he
    cases hx : (executeCorrectiveAction env
      (determineCorrectiveAction env inspection e
        (calculatePIDCorrection
          (ProcessInspectionFeedback env now1 qfc inspectionID s).result.1 e)) s2).result with
    | some err =>
      rw [herr2 err hx] at hnil2
      exact Option.noConfusion hnil2
    | none =>
      refine ⟨{ Timestamp := now1
                Error := e
                Output := calculatePIDCorrection qfc e
                Action := (determineCorrectiveAction env inspection e
                  (calculatePIDCorrection qfc e)).ActionType },
        { Timestamp := now2
          Error := e
          Output := calculatePIDCorrection
            (ProcessInspectionFeedback env now1 qfc inspectionID s).result.1 e
          Action := (determineCorrectiveAction env inspection e
            (calculatePIDCorrection
              (ProcessInspectionFeedback env now1 qfc inspectionID s).result.1 e)).ActionType },
        rfl, rfl, rfl, rfl, ?_, ?_, ?_⟩
      · simp only [determineCorrectiveAction_ActionType]
      · rw [hres1]
      · rw [hok2 hx]
        simp only [hres1, List.append_assoc, List.singleton_append]

/-- The run of `ProcessInspectionFeedback` for an error in the lowest tier outside the
dead-band: the tuning is only logged, so the call returns nil, appends its record and sends
nothing but the query to the database. -/
theorem ProcessInspectionFeedback_cutting {σ : Type} (env : Env σ) (now : Time)
    (qfc : QualityFeedbackController) (inspectionID : String) (s s1 : σ)
    (inspection : Inspection) (measuredData : String → Option JSONValue) (e : ℚ)
    (hq : env.QueryInspection inspectionID s = ((inspection, none), s1))
    (hu : env.Unmarshal inspection.MeasuredValues = (measuredData, none))
    (hE : qfc.targetCpk - ProcessInspectionFeedback.cpk measuredData = e)
    (hlo : |e| > 1 / 10) (hhi : |e| ≤ 1 / 5) :
    (ProcessInspectionFeedback env now qfc inspectionID s).result
      = ({ qfc with
            controlHistory := qfc.controlHistory ++
              [{ Timestamp := now
                 Error := e
                 Output := calculatePIDCorrection qfc e
                 Action := "cutting_condition_tuning" }] }, none) ∧
    (ProcessInspectionFeedback env now qfc inspectionID s).state = s1 ∧
    (ProcessInspectionFeedback env now qfc inspectionID s).calls
      = [DBCall.QueryInspection inspectionID] := by
  have h2 : ¬ |e| > 1 / 2 := not_lt.mpr (le_trans hhi (by norm_num))
  have ht : (determineCorrectiveAction env inspection e (calculatePIDCorrection qfc e)).ActionType
      = "cutting_condition_tuning" := by
    rw [determineCorrectiveAction_ActionType, if_neg h2, if_neg (not_lt.mpr hhi)]
  have hx := executeCorrectiveAction_cutting env
    (determineCorrectiveAction env inspection e (calculatePIDCorrection qfc e)) s1 ht
  obtain ⟨hstate, hcalls, hok, -⟩ :=
    (ProcessInspectionFeedback_run env now qfc inspectionID s s1 inspection measuredData e
      hq hu hE).2 hlo
  rw [hx] at hstate hcalls hok
  refine ⟨?_, hstate, hcalls⟩
  rw [hok rfl, ht]

/-- The two sample runs behind the idempotence claim: the default controller handles the
sample inspection without `cpk`, then handles it again. The error, 1.67 − 1.5 in float64,
is 0.16999999999999993 both times. -/
theorem sample_feedback_twice :
    (ProcessInspectionFeedback sampleEnv ⟨500⟩ NewQualityFeedbackController "INSP-NOCPK"
        sampleDB).result
      = ({ NewQualityFeedbackController with
            controlHistory :=
              [⟨⟨500⟩, 95701492081623 / 562949953421312, 95701492081623 / 1125899906842624,
                "cutting_condition_tuning"⟩] },
          none) ∧
    (ProcessInspectionFeedback sampleEnv ⟨500⟩ NewQualityFeedbackController "INSP-NOCPK"
        sampleDB).state = sampleDB ∧
    (ProcessInspectionFeedback sampleEnv ⟨501⟩
        { NewQualityFeedbackController with
          controlHistory :=
            [⟨⟨500⟩, 95701492081623 / 562949953421312, 95701492081623 / 1125899906842624,
              "cutting_condition_tuning"⟩] }
        "INSP-NOCPK" sampleDB).result
      = ({ NewQualityFeedbackController with
            controlHistory :=
              [⟨⟨500⟩, 95701492081623 / 562949953421312, 95701492081623 / 1125899906842624,
                "cutting_condition_tuning"⟩,
                ⟨⟨501⟩, 95701492081623 / 562949953421312,
                  calculatePIDCorrection
                    { NewQualityFeedbackController with
                      controlHistory :=
                        [⟨⟨500⟩, 95701492081623 / 562949953421312,
                          95701492081623 / 1125899906842624, "cutting_condition_tuning"⟩] }
                    (95701492081623 / 562949953421312),
                  "cutting_condition_tuning"⟩] }, none) := by
  have hE : NewQualityFeedbackController.targetCpk
      - ProcessInspectionFeedback.cpk sampleDataNoCpk = 95701492081623 / 562949953421312 := by
    have hmiss : ProcessInspectionFeedback.cpk sampleDataNoCpk = 3 / 2 := by
      simp [ProcessInspectionFeedback.cpk, sampleDataNoCpk, calculateCpk]
    rw [hmiss]
    simp only [NewQualityFeedbackController, Float64.roundQ_167_100]
    norm_num
  have hlo : |(95701492081623 / 562949953421312 : ℚ)| > 1 / 10 := by norm_num [abs_of_pos]
  have hhi : |(95701492081623 / 562949953421312 : ℚ)| ≤ 1 / 5 := by norm_num [abs_of_pos]
  obtain ⟨a1, a2, -⟩ := ProcessInspectionFeedback_cutting sampleEnv ⟨500⟩
    NewQualityFeedbackController "INSP-NOCPK" sampleDB sampleDB
    (sampleInspection "INSP-NOCPK" samplePayloadNoCpk) sampleDataNoCpk
    (95701492081623 / 562949953421312) rfl rfl hE hlo hhi
  obtain ⟨b1, -, -⟩ := ProcessInspectionFeedback_cutting sampleEnv ⟨501⟩
    { NewQualityFeedbackController with
      controlHistory :=
        [⟨⟨500⟩, 95701492081623 / 562949953421312, 95701492081623 / 1125899906842624,
          "cutting_condition_tuning"⟩] }
    "INSP-NOCPK" sampleDB sampleDB
    (sampleInspection "INSP-NOCPK" samplePayloadNoCpk) sampleDataNoCpk
    (95701492081623 / 562949953421312) rfl rfl hE hlo hhi
  refine ⟨?_, a2, ?_⟩
  · rw [a1]
    norm_num [calculatePIDCorrection, calculatePIDCorrection.loop, NewQualityFeedbackController,
      Float64.roundQ_1_2]
  · rw [b1]
    rfl

/-- Witness of C24 as amended: the default controller handles the sample inspection
without `cpk` twice; the error is 0.16999999999999993 both times and the history grows to
one record and then to two. -/
theorem second_feedback_appends_again_witness :
    |(95701492081623 / 562949953421312 : ℚ)| > 1 / 10 ∧
    ∃ r1 r2 : ControlRecord,
      r1.Error = 95701492081623 / 562949953421312 ∧
      r2.Error = 95701492081623 / 562949953421312 ∧
      (ProcessInspectionFeedback sampleEnv ⟨500⟩ NewQualityFeedbackController "INSP-NOCPK"
          sampleDB).result.1.controlHistory = [r1] ∧
      (ProcessInspectionFeedback sampleEnv ⟨501⟩
          (ProcessInspectionFeedback sampleEnv ⟨500⟩ NewQualityFeedbackController "INSP-NOCPK"
            sampleDB).result.1 "INSP-NOCPK"
          (ProcessInspectionFeedback sampleEnv ⟨500⟩ NewQualityFeedbackController "INSP-NOCPK"
            sampleDB).state).result.1.controlHistory = [r1, r2] := by
  have hlo : |(95701492081623 / 562949953421312 : ℚ)| > 1 / 10 := by norm_num [abs_of_pos]
  have hE : NewQualityFeedbackController.targetCpk
      - ProcessInspectionFeedback.cpk sampleDataNoCpk = 95701492081623 / 562949953421312 := by
    have hmiss : ProcessInspectionFeedback.cpk sampleDataNoCpk = 3 / 2 := by
      simp [ProcessInspectionFeedback.cpk, sampleDataNoCpk, calculateCpk]
    rw [hmiss]
    simp only [NewQualityFeedbackController, Float64.roundQ_167_100]
    norm_num
  obtain ⟨t1, t2, t3⟩ := sample_feedback_twice
  have hq2 : sampleEnv.QueryInspection "INSP-NOCPK"
      (ProcessInspectionFeedback sampleEnv ⟨500⟩ NewQualityFeedbackController "INSP-NOCPK"
        sampleDB).state
      = ((sampleInspection "INSP-NOCPK" samplePayloadNoCpk, none), sampleDB) := by
    rw [t2]
    rfl
  obtain ⟨r1, r2, e1, e2, -, -, -, h1, h2⟩ :=
    (second_feedback_appends_again sampleEnv ⟨500⟩ ⟨501⟩ NewQualityFeedbackController
      "INSP-NOCPK" sampleDB sampleDB sampleDB
      (sampleInspection "INSP-NOCPK" samplePayloadNoCpk) sampleDataNoCpk
      (95701492081623 / 562949953421312)
      rfl rfl hE hq2).2 hlo (by rw [t1]) (by rw [t1, t2, t3])
  exact ⟨hlo, r1, r2, e1, e2, h1, h2⟩

/-- Counterexample to C24 as stated: the default controller handles the sample inspection
without `cpk`, and then the same, unchanged inspection again. After the first call the
history holds one record, after the second it holds two: the inspection is counted twice. -/
theorem second_feedback_not_idempotent_counterexample :
    (ProcessInspectionFeedback sampleEnv ⟨500⟩ NewQualityFeedbackController "INSP-NOCPK"
        sampleDB).result.1.controlHistory.length = 1 ∧
    (ProcessInspectionFeedback sampleEnv ⟨500⟩ NewQualityFeedbackController "INSP-NOCPK"
        sampleDB).state = sampleDB ∧
    (ProcessInspectionFeedback sampleEnv ⟨501⟩
        (ProcessInspectionFeedback sampleEnv ⟨500⟩ NewQualityFeedbackController "INSP-NOCPK"
          sampleDB).result.1 "INSP-NOCPK"
        (ProcessInspectionFeedback sampleEnv ⟨500⟩ NewQualityFeedbackController "INSP-NOCPK"
          sampleDB).state).result.1.controlHistory.length = 2 ∧
    (ProcessInspectionFeedback sampleEnv ⟨501⟩
        (ProcessInspectionFeedback sampleEnv ⟨500⟩ NewQualityFeedbackController "INSP-NOCPK"
          sampleDB).result.1 "INSP-NOCPK"
        (ProcessInspectionFeedback sampleEnv ⟨500⟩ NewQualityFeedbackController "INSP-NOCPK"
          sampleDB).state).result.1.controlHistory
      ≠ (ProcessInspectionFeedback sampleEnv ⟨500⟩ NewQualityFeedbackController "INSP-NOCPK"
          sampleDB).result.1.controlHistory := by
  obtain ⟨t1, t2, t3⟩ := sample_feedback_twice
  rw [t1, t2, t3]
  refine ⟨rfl, rfl, rfl, ?_⟩
  intro h
  have := congrArg List.length h
  simp at this

/-- The default controller on the sample inspection with `cpk` 1.77: the error, 1.67 − 1.77
in float64, is −0.10000000000000009, itself a float64 and outside the dead-band, so the
call acts and appends a record. -/
theorem sample_feedback_over :
    NewQualityFeedbackController.targetCpk - ProcessInspectionFeedback.cpk sampleDataOver
      = -(225179981368525 / 2251799813685248) ∧
    Float64.roundQ (-(225179981368525 / 2251799813685248))
      = -(225179981368525 / 2251799813685248) ∧
    |(-(225179981368525 / 2251799813685248) : ℚ)| > Float64.roundQ (1 / 10) ∧
    (ProcessInspectionFeedback sampleEnv ⟨500⟩ NewQualityFeedbackController "INSP-OVER"
        sampleDB).result.2 = none ∧
    (ProcessInspectionFeedback sampleEnv ⟨500⟩ NewQualityFeedbackController "INSP-OVER"
        sampleDB).result.1.controlHistory.length = 1 := by
  have hE : NewQualityFeedbackController.targetCpk - ProcessInspectionFeedback.cpk sampleDataOver
      = -(225179981368525 / 2251799813685248) := by
    simp only [ProcessInspectionFeedback.cpk, sampleDataOver, NewQualityFeedbackController,
      if_true, Float64.roundQ_167_100, Float64.roundQ_177_100]
    norm_num
  have hfl : Float64.roundQ (-(225179981368525 / 2251799813685248))
      = -(225179981368525 / 2251799813685248) := by
    have h := Float64.roundQ_of_representable (-225179981368525) (-51) (by norm_num)
      (by norm_num)
    norm_num at h
    norm_num
    exact h
  have hlo : |(-(225179981368525 / 2251799813685248) : ℚ)| > 1 / 10 := by
    norm_num [abs_of_neg]
  have hhi : |(-(225179981368525 / 2251799813685248) : ℚ)| ≤ 1 / 5 := by
    norm_num [abs_of_neg]
  obtain ⟨a1, -, -⟩ := ProcessInspectionFeedback_cutting sampleEnv ⟨500⟩
    NewQualityFeedbackController "INSP-OVER" sampleDB sampleDB
    (sampleInspection "INSP-OVER" samplePayloadOver) sampleDataOver
    (-(225179981368525 / 2251799813685248)) rfl rfl hE hlo hhi
  refine ⟨hE, hfl, ?_, by rw [a1], by rw [a1]; rfl⟩
  rw [Float64.roundQ_1_10]
  norm_num [abs_of_neg]

/-- C29 (as amended): when the payload has no numeric `cpk`, the capability estimate is 1.5
whatever the payload holds. So for a controller with the defaults of
`NewQualityFeedbackController` and any history, every such inspection has the error
1.67 − 1.5 computed in float64, which is 0.16999999999999993: a float64 below 0.17 by less
than 2⁻⁵³, outside the dead-band and within the lowest tier against the decimal and against
the float64 thresholds alike. The call returns nil with one record appended whose action is
cutting_condition_tuning, after no database statement but the query. With the empty history
the correction is half the error, 0.08499999999999996, again a float64, and the action's
`feed_rate_adjustment` is the error itself. -/
theorem missing_cpk_gives_cutting_condition_tuning :
    (∀ measuredData : String → Option JSONValue,
      (∀ x, measuredData "cpk" ≠ some (JSONValue.number x)) →
      ProcessInspectionFeedback.cpk measuredData = 3 / 2) ∧
    (NewQualityFeedbackController.targetCpk - 3 / 2 = 95701492081623 / 562949953421312 ∧
      Float64.roundQ (95701492081623 / 562949953421312) = 95701492081623 / 562949953421312 ∧
      (95701492081623 / 562949953421312 : ℚ) < 17 / 100 ∧
      (17 / 100 : ℚ) - 95701492081623 / 562949953421312 < 2 ^ (-53 : ℤ) ∧
      Float64.roundQ (1 / 10) < 95701492081623 / 562949953421312 ∧
      95701492081623 / 562949953421312 ≤ Float64.roundQ (1 / 5)) ∧
    (∀ (σ : Type) (env : Env σ) (now : Time) (history : List ControlRecord)
        (inspectionID : String) (s s1 : σ) (inspection : Inspection)
        (measuredData : String → Option JSONValue),
      env.QueryInspection inspectionID s = ((inspection, none), s1) →
      env.Unmarshal inspection.MeasuredValues = (measuredData, none) →
      (∀ x, measuredData "cpk" ≠ some (JSONValue.number x)) →
      NewQualityFeedbackController.targetCpk - ProcessInspectionFeedback.cpk measuredData
        = 95701492081623 / 562949953421312 ∧
      |(95701492081623 / 562949953421312 : ℚ)| > 1 / 10 ∧
      (∀ c, (determineCorrectiveAction env inspection (95701492081623 / 562949953421312)
          c).ActionType = "cutting_condition_tuning") ∧
      (ProcessInspectionFeedback env now
          { NewQualityFeedbackController with controlHistory := history }
          inspectionID s).result.2 = none ∧
      (ProcessInspectionFeedback env now
          { NewQualityFeedbackController with controlHistory := history }
          inspectionID s).result.1.controlHistory
        = history ++
          [{ Timestamp := now
             Error := 95701492081623 / 562949953421312
             Output := calculatePIDCorrection
               { NewQualityFeedbackController with controlHistory := history }
               (95701492081623 / 562949953421312)
             Action := "cutting_condition_tuning" }] ∧
      (ProcessInspectionFeedback env now
          { NewQualityFeedbackController with controlHistory := history }
          inspectionID s).calls = [DBCall.QueryInspection inspectionID]) ∧
    (∀ (σ : Type) (env : Env σ) (inspection : Inspection),
      calculatePIDCorrection NewQualityFeedbackController (95701492081623 / 562949953421312)
        = 95701492081623 / 1125899906842624 ∧
      Float64.roundQ (95701492081623 / 1125899906842624)
        = 95701492081623 / 1125899906842624 ∧
      (determineCorrectiveAction env inspection (95701492081623 / 562949953421312)
          (95701492081623 / 1125899906842624)).Parameters "feed_rate_adjustment"
        = some (95701492081623 / 562949953421312)) := by
  have hcpk : ∀ measuredData : String → Option JSONValue,
      (∀ x, measuredData "cpk" ≠ some (JSONValue.number x)) →
      ProcessInspectionFeedback.cpk measuredData = 3 / 2 := by
    intro md h
    unfold ProcessInspectionFeedback.cpk
    split
    · rename_i x hx
      exact absurd hx (h x)
    · rfl
  have htarget : NewQualityFeedbackController.targetCpk - 3 / 2
      = 95701492081623 / 562949953421312 := by
    simp only [NewQualityFeedbackController, Float64.roundQ_167_100]
    norm_num
  have hfl1 : Float64.roundQ (95701492081623 / 562949953421312)
      = 95701492081623 / 562949953421312 := by
    have h := Float64.roundQ_of_representable 95701492081623 (-49) (by norm_num) (by norm_num)
    norm_num at h
    exact h
  have hfl2 : Float64.roundQ (95701492081623 / 1125899906842624)
      = 95701492081623 / 1125899906842624 := by
    have h := Float64.roundQ_of_representable 95701492081623 (-50) (by norm_num) (by norm_num)
    norm_num at h
    exact h
  have hlo : |(95701492081623 / 562949953421312 : ℚ)| > 1 / 10 := by norm_num [abs_of_pos]
  have hhi : |(95701492081623 / 562949953421312 : ℚ)| ≤ 1 / 5 := by norm_num [abs_of_pos]
  have h2 : ¬ |(95701492081623 / 562949953421312 : ℚ)| > 1 / 2 := by norm_num [abs_of_pos]
  refine ⟨hcpk, ⟨htarget, hfl1, by norm_num, by norm_num, ?_, ?_⟩, ?_, ?_⟩
  · rw [Float64.roundQ_1_10]
    norm_num
  · rw [Float64.roundQ_1_5]
    norm_num
  · intro σ env now history inspectionID s s1 inspection md hq hu hno
    have hE : NewQualityFeedbackController.targetCpk - ProcessInspectionFeedback.cpk md
        = 95701492081623 / 562949953421312 := by
      rw [hcpk md hno]
      exact htarget
    obtain ⟨a1, -, a3⟩ := ProcessInspectionFeedback_cutting env now
      { NewQualityFeedbackController with controlHistory := history } inspectionID s s1
      inspection md (95701492081623 / 562949953421312) hq hu hE hlo hhi
    refine ⟨hE, hlo, fun c => ?_, by rw [a1], by rw [a1], a3⟩
    rw [determineCorrectiveAction_ActionType, if_neg h2, if_neg (not_lt.mpr hhi)]
  · intro σ env inspection
    refine ⟨?_, hfl2, ?_⟩
    · norm_num [calculatePIDCorrection, calculatePIDCorrection.loop,
        NewQualityFeedbackController, Float64.roundQ_1_2]
    · simp only [determineCorrectiveAction, if_neg h2, if_neg (not_lt.mpr hhi)]
      split
      · split_ifs <;> simp [mapSet] <;> norm_num
      · simp [mapSet]
        norm_num

/-- Witness of C29 as amended: the default controller on the sample inspection without
`cpk`. -/
theorem missing_cpk_gives_cutting_condition_tuning_witness :
    ProcessInspectionFeedback.cpk sampleDataNoCpk = 3 / 2 ∧
    (ProcessInspectionFeedback sampleEnv ⟨500⟩ NewQualityFeedbackController "INSP-NOCPK"
        sampleDB).result.2 = none ∧
    (ProcessInspectionFeedback sampleEnv ⟨500⟩ NewQualityFeedbackController "INSP-NOCPK"
        sampleDB).result.1.controlHistory
      = [⟨⟨500⟩, 95701492081623 / 562949953421312, 95701492081623 / 1125899906842624,
          "cutting_condition_tuning"⟩] ∧
    (ProcessInspectionFeedback sampleEnv ⟨500⟩ NewQualityFeedbackController "INSP-NOCPK"
        sampleDB).calls = [DBCall.QueryInspection "INSP-NOCPK"] := by
  have hno : ∀ x, sampleDataNoCpk "cpk" ≠ some (JSONValue.number x) := by
    intro x
    simp [sampleDataNoCpk]
  obtain ⟨-, -, -, h4, h5, h6⟩ :=
    missing_cpk_gives_cutting_condition_tuning.2.2.1 MemDB sampleEnv
      ⟨500⟩ [] "INSP-NOCPK" sampleDB sampleDB (sampleInspection "INSP-NOCPK" samplePayloadNoCpk)
      sampleDataNoCpk rfl rfl hno
  have hc := (missing_cpk_gives_cutting_condition_tuning.2.2.2 MemDB sampleEnv
    (sampleInspection "INSP-NOCPK" samplePayloadNoCpk)).1
  refine ⟨missing_cpk_gives_cutting_condition_tuning.1 sampleDataNoCpk hno, h4, ?_, h6⟩
  have h5' : (ProcessInspectionFeedback sampleEnv ⟨500⟩ NewQualityFeedbackController
      "INSP-NOCPK" sampleDB).result.1.controlHistory
      = [] ++ [{ Timestamp := ⟨500⟩
                 Error := 95701492081623 / 562949953421312
                 Output := calculatePIDCorrection NewQualityFeedbackController
                   (95701492081623 / 562949953421312)
                 Action := "cutting_condition_tuning" }] := h5
  rw [h5', hc]
  rfl

/-- Counterexample to C29 as stated: the default controller on the sample inspection
without `cpk`. The error it records is 0.16999999999999993, which is neither 17/100 nor the
float64 of the literal 0.17, and the correction it records is 0.08499999999999996, which is
neither 17/200 nor the float64 of the literal 0.085. -/
theorem missing_cpk_error_below_seventeen_hundredths_counterexample :
    (ProcessInspectionFeedback sampleEnv ⟨500⟩ NewQualityFeedbackController "INSP-NOCPK"
        sampleDB).result.1.controlHistory
      = [⟨⟨500⟩, 95701492081623 / 562949953421312, 95701492081623 / 1125899906842624,
          "cutting_condition_tuning"⟩] ∧
    NewQualityFeedbackController.targetCpk - ProcessInspectionFeedback.cpk sampleDataNoCpk
      = 95701492081623 / 562949953421312 ∧
    (95701492081623 / 562949953421312 : ℚ) ≠ 17 / 100 ∧
    (95701492081623 / 562949953421312 : ℚ) ≠ Float64.roundQ (17 / 100) ∧
    (95701492081623 / 1125899906842624 : ℚ) ≠ 17 / 200 ∧
    (95701492081623 / 1125899906842624 : ℚ) ≠ Float64.roundQ (17 / 200) := by
  obtain ⟨t1, -, -⟩ := sample_feedback_twice
  have hE : NewQualityFeedbackController.targetCpk
      - ProcessInspectionFeedback.cpk sampleDataNoCpk = 95701492081623 / 562949953421312 := by
    have hmiss : ProcessInspectionFeedback.cpk sampleDataNoCpk = 3 / 2 := by
      simp [ProcessInspectionFeedback.cpk, sampleDataNoCpk, calculateCpk]
    rw [hmiss]
    simp only [NewQualityFeedbackController, Float64.roundQ_167_100]
    norm_num
  refine ⟨by rw [t1], hE, by norm_num, ?_, by norm_num, ?_⟩
  · rw [Float64.roundQ_17_100]
    norm_num
  · rw [Float64.roundQ_17_200]
    norm_num

/-- C30: the action returned by `determineCorrectiveAction` always has the empty
`NCProgramID`. So whenever `ProcessInspectionFeedback` executes a major NC adjustment, that
is whenever the inspection is loaded and decoded with `|e| > 0.5`, it sends, after the
query, one program update whose program id is the empty string and whose code is formatted
from `correction × 0.01` and `correction × −5.0`; the database is left as that statement
leaves it; if the statement succeeds nil is returned and the record of the adjustment is
appended to the history, and if it fails its error is returned, wrapped, with the
controller as it was. -/
theorem determineCorrectiveAction_no_program_id :
    (∀ (σ : Type) (env : Env σ) (inspection : Inspection) (e c : ℚ),
      (determineCorrectiveAction env inspection e c).NCProgramID = "") ∧
    (∀ (σ : Type) (env : Env σ) (now : Time) (qfc : QualityFeedbackController)
        (inspectionID : String) (s s1 : σ) (inspection : Inspection)
        (measuredData : String → Option JSONValue),
      env.QueryInspection inspectionID s = ((inspection, none), s1) →
      env.Unmarshal inspection.MeasuredValues = (measuredData, none) →
      |qfc.targetCpk - ProcessInspectionFeedback.cpk measuredData| > 1 / 2 →
      ∃ adjustmentCode : String,
        adjustmentCode
          = env.SprintfCompensation
              (calculatePIDCorrection qfc
                (qfc.targetCpk - ProcessInspectionFeedback.cpk measuredData) * (1 / 100))
              (calculatePIDCorrection qfc
                (qfc.targetCpk - ProcessInspectionFeedback.cpk measuredData) * (-5)) ∧
        (ProcessInspectionFeedback env now qfc inspectionID s).calls
          = [DBCall.QueryInspection inspectionID,
              DBCall.ExecUpdateNCProgram adjustmentCode ""] ∧
        (ProcessInspectionFeedback env now qfc inspectionID s).state
          = (env.ExecUpdateNCProgram adjustmentCode "" s1).2 ∧
        ((env.ExecUpdateNCProgram adjustmentCode "" s1).1 = none →
          (ProcessInspectionFeedback env now qfc inspectionID s).result
            = ({ qfc with
                  controlHistory := qfc.controlHistory ++
                    [{ Timestamp := now
                       Error := qfc.targetCpk - ProcessInspectionFeedback.cpk measuredData
                       Output := calculatePIDCorrection qfc
                         (qfc.targetCpk - ProcessInspectionFeedback.cpk measuredData)
                       Action := "major_nc_adjustment" }] }, none)) ∧
        (∀ err, (env.ExecUpdateNCProgram adjustmentCode "" s1).1 = some err →
          (ProcessInspectionFeedback env now qfc inspectionID s).result
            = (qfc, some (Error.Wrapped "failed to execute corrective action" err)))) := by
  refine ⟨fun σ env inspection e c => determineCorrectiveAction_NCProgramID env inspection e c,
    ?_⟩
  intro σ env now qfc inspectionID s s1 inspection md hq hu he
  have hlo : |qfc.targetCpk - ProcessInspectionFeedback.cpk md| > 1 / 10 :=
    lt_trans (by norm_num) he
  obtain ⟨hstate, hcalls, hok, herr⟩ :=
    (ProcessInspectionFeedback_run env now qfc inspectionID s s1 inspection md _ hq hu rfl).2 hlo
  have ht : (determineCorrectiveAction env inspection
      (qfc.targetCpk - ProcessInspectionFeedback.cpk md)
      (calculatePIDCorrection qfc (qfc.targetCpk - ProcessInspectionFeedback.cpk md))).ActionType
      = "major_nc_adjustment" := by
    rw [determineCorrectiveAction_ActionType, if_pos he]
  obtain ⟨xr, xs, xc⟩ := executeCorrectiveAction_major env _ s1 ht
  obtain ⟨p1, p2⟩ := determineCorrectiveAction_major_parameters env inspection
    (qfc.targetCpk - ProcessInspectionFeedback.cpk md)
    (calculatePIDCorrection qfc (qfc.targetCpk - ProcessInspectionFeedback.cpk md)) he
  rw [determineCorrectiveAction_NCProgramID, p1, p2] at xr xs xc
  rw [xs] at hstate
  rw [xc] at hcalls
  rw [xr] at hok herr
  rw [ht] at hok
  exact ⟨_, rfl, hcalls, hstate, hok, herr⟩

/-- Witness of C30: the default controller on the sample inspection with `cpk` 0.89, whose
error, 1.67 − 0.89 in float64, is 0.7799999999999999. On the working database the program
update goes out with the empty program id, is applied, and nil is returned; on the
read-only database the error of the update is returned, wrapped. -/
theorem determineCorrectiveAction_no_program_id_witness :
    (determineCorrectiveAction sampleEnv (sampleInspection "INSP-MAJOR" samplePayloadMajor)
      (39 / 50) (39 / 100)).NCProgramID = "" ∧
    (ProcessInspectionFeedback sampleEnv ⟨500⟩ NewQualityFeedbackController "INSP-MAJOR"
        sampleDB).calls
      = [DBCall.QueryInspection "INSP-MAJOR",
          DBCall.ExecUpdateNCProgram "(AUTO COMPENSATION)" ""] ∧
    (ProcessInspectionFeedback sampleEnv ⟨500⟩ NewQualityFeedbackController "INSP-MAJOR"
        sampleDB).state = { sampleDB with ncUpdates := [("(AUTO COMPENSATION)", "")] } ∧
    (ProcessInspectionFeedback sampleEnv ⟨500⟩ NewQualityFeedbackController "INSP-MAJOR"
        sampleDB).result.2 = none ∧
    (ProcessInspectionFeedback sampleEnv ⟨500⟩ NewQualityFeedbackController "INSP-MAJOR"
        sampleDB).result.1.controlHistory.length = 1 ∧
    (ProcessInspectionFeedback sampleReadOnlyEnv ⟨500⟩ NewQualityFeedbackController
        "INSP-MAJOR" sampleDB).result
      = (NewQualityFeedbackController,
          some (Error.Wrapped "failed to execute corrective action"
            (Error.Storage "read-only transaction"))) ∧
    (ProcessInspectionFeedback sampleReadOnlyEnv ⟨500⟩ NewQualityFeedbackController
        "INSP-MAJOR" sampleDB).state = sampleDB := by
  have he : |NewQualityFeedbackController.targetCpk
      - ProcessInspectionFeedback.cpk sampleDataMajor| > 1 / 2 := by
    simp only [ProcessInspectionFeedback.cpk, sampleDataMajor, NewQualityFeedbackController,
      if_true, Float64.roundQ_167_100, Float64.roundQ_89_100]
    norm_num [abs_of_pos]
  obtain ⟨code, hcode, hcalls, hstate, hok, -⟩ :=
    determineCorrectiveAction_no_program_id.2 MemDB sampleEnv ⟨500⟩
      NewQualityFeedbackController "INSP-MAJOR" sampleDB sampleDB
      (sampleInspection "INSP-MAJOR" samplePayloadMajor) sampleDataMajor rfl rfl he
  obtain ⟨code2, hcode2, -, hstate2, -, herr2⟩ :=
    determineCorrectiveAction_no_program_id.2 MemDB sampleReadOnlyEnv ⟨500⟩
      NewQualityFeedbackController "INSP-MAJOR" sampleDB sampleDB
      (sampleInspection "INSP-MAJOR" samplePayloadMajor) sampleDataMajor rfl rfl he
  have hc : code = "(AUTO COMPENSATION)" := hcode
  rw [hc] at hcalls hstate hok
  have hres := hok rfl
  refine ⟨determineCorrectiveAction_no_program_id.1 MemDB sampleEnv _ _ _, hcalls,
    hstate.trans rfl, by rw [hres], by rw [hres]; rfl, herr2 _ rfl, hstate2.trans rfl⟩

end Seed

end GoNexttask
